import Mathlib

/-!
Verification development for `tf2onnx/rewriter/custom_rnn_rewriter.py`:
a shallow embedding of the custom-RNN loop rewriter (immediate pass) and
the late body-extraction pass, together with theorems about the claims of
the specification.

Modelling conventions:
* Edge identifiers and node names are `EId`: either a source string
  (`EId.str`) or a fresh identifier (`EId.fr n`) allocated from the
  monotone name counter that models `utils.make_name`.  Freshly generated
  names are never equal to string names, which embeds the global
  uniqueness contract of `make_name`.
* Shapes are `List Int` (a dim of `-1` means unknown), dtypes are `Nat`
  (ONNX TensorProto enum values).  `get_shape` returns `Option Shape`
  (`none` is Python's `None`), and the shape/dtype tables store
  `Option`s because `set_shape` may record `None`.
* Stateful Python code becomes explicit state passing over `RwState`;
  fallible code returns `Except String` paired with the state at the
  point of the exception (Python mutations performed before an exception
  persist, so the state is threaded through errors too).
* Graph-substrate operations (`get_shape`, `set_shape`, `get_dtype`,
  `set_dtype`, `get_node_by_name`, `find_output_consumers`,
  `replace_all_inputs`, initializer bookkeeping, `make_const`) are the
  external collaborator contracts of spec section 6; they are modelled
  from the spec because `graph.py` is not part of the given sources.
-/

/-- An edge identifier / node name: either a string from the source graph or
a fresh name produced by the `utils.make_name` name supply, modelled by a
monotone counter.  Fresh names are globally unique and distinct from all
source names. -/
inductive EId where
  | str : String → EId
  | fr : Nat → EId
deriving DecidableEq

/-- Tensor shape: list of dimensions, `-1` denoting an unknown dimension. -/
abbrev Shape := List Int

/-- ONNX element type (TensorProto enum value). -/
abbrev DType := Nat

/-- Initializer payload (the flattened constant data of a `make_const`). -/
abbrev InitVal := List Int

/-- The metadata the late pass records as the synthesized `body` attribute.
`make_graph` itself is an external collaborator producing an opaque graph
value; we record the identifying metadata of the body graph it is given. -/
structure BodyGraphAttr where
  inputNames : List EId
  inputShapes : List (EId × Shape)
  outputNames : List EId
  nodeNames : List EId
  initKeys : List EId
deriving DecidableEq

/-- A graph node.  `tensorArrayName` models the `tensor_array_name`
attribute of `TensorArrayV3` nodes, `numScanInputs` the `num_scan_inputs`
attribute of `Scan` nodes (`none` = attribute absent), and `body` the
`body` attribute attached by the late pass. -/
structure GNode where
  name : EId
  type : String
  input : List EId
  output : List EId
  tensorArrayName : Option String := none
  numScanInputs : Option Nat := none
  body : Option BodyGraphAttr := none
deriving DecidableEq

/-- `node.output[0]`.  Every node constructed by this rewriter and by the
TF importer carries at least one output, so the default is never hit on
the traced paths. -/
def out0 (n : GNode) : EId := n.output.headD (.str "")

/-- The computation graph: node list plus the per-edge shape/dtype tables
and the initializer table of the graph substrate (spec section 6).
The association lists are written newest-entry-first; a later `set`
shadows an earlier one. -/
structure GGraph where
  nodes : List GNode
  shapes : List (EId × Option Shape)
  dtypes : List (EId × Option DType)
  initializers : List (EId × InitVal)
deriving DecidableEq

/-- `g.get_shape(e)`: `None` both when the edge is unknown and when an
unknown shape was recorded. -/
def getShapeG (g : GGraph) (e : EId) : Option Shape :=
  match g.shapes.lookup e with
  | none => none
  | some v => v

/-- `g.set_shape(e, s)` (records the given, possibly unknown, shape). -/
def setShapeG (g : GGraph) (e : EId) (s : Option Shape) : GGraph :=
  { g with shapes := (e, s) :: g.shapes }

/-- `g.get_dtype(e)`. -/
def getDtypeG (g : GGraph) (e : EId) : Option DType :=
  match g.dtypes.lookup e with
  | none => none
  | some v => v

/-- `g.set_dtype(e, d)`. -/
def setDtypeG (g : GGraph) (e : EId) (d : Option DType) : GGraph :=
  { g with dtypes := (e, d) :: g.dtypes }

/-- `g.get_node_by_name(name)`: exact-name lookup in the node list
(spec section 6: "look up node by name"). -/
def getNodeByNameG (g : GGraph) (name : EId) : Option GNode :=
  g.nodes.find? (fun n => n.name = name)

/-- `g.find_output_consumers(e)`: all nodes reading edge `e`. -/
def findOutputConsumersG (g : GGraph) (e : EId) : List GNode :=
  g.nodes.filter (fun n => e ∈ n.input)

/-- `g.is_initializer(e)`. -/
def isInitializerG (g : GGraph) (e : EId) : Bool :=
  (g.initializers.lookup e).isSome

/-- `g.replace_all_inputs(ops, old, new)`: rewrite every occurrence of
input edge `old` to `new` in the given node set.  The nodes are mutated
in place in Python, so the graph's own node list reflects the change;
node identity is name identity (node names are unique in a graph). -/
def replaceAllInputsG (g : GGraph) (ops : List GNode) (old new : EId) : GGraph :=
  { g with
    nodes := g.nodes.map (fun n =>
      if (ops.any (fun m => m.name = n.name)) then
        { n with input := n.input.map (fun e => if e = old then new else e) }
      else n) }

/-- Modelled from the spec: `SubGraphMetadata` of `rnn_utils` (not under
`src/`), the frozen frontier of a not-yet-extracted body (spec section 3,
SubgraphBoundaryMetadata): boundary input edges, boundary output edges,
the initial-value edges that fed the inputs, and external captures. -/
structure SubGraphMeta where
  input_ids : List EId
  output_ids : List EId
  initial_input_ids : List EId
  other_enter_input_ids : List EId := []
deriving DecidableEq

/-- The whole rewrite-session state: the graph, the `utils.make_name`
counter, and the Boundary Registry (`BodyGraphDict`, modelled from the
spec: a mapping from synthesized-operator name to its boundary
metadata). -/
structure RwState where
  g : GGraph
  ctr : Nat
  registry : List (EId × SubGraphMeta)
deriving DecidableEq

/-- A fallible stateful computation; the state is threaded through
exceptions because Python mutations before a raise persist. -/
abbrev RwM (α : Type) := Except String α × RwState

def getSh (e : EId) (st : RwState) : Option Shape := getShapeG st.g e

def getDt (e : EId) (st : RwState) : Option DType := getDtypeG st.g e

def setSh (e : EId) (s : Option Shape) (st : RwState) : RwState :=
  { st with g := setShapeG st.g e s }

def setDt (e : EId) (d : Option DType) (st : RwState) : RwState :=
  { st with g := setDtypeG st.g e d }

/-- Python `xs[i]`: raises `IndexError` when out of range. -/
def getIdx (xs : List α) (i : Nat) (st : RwState) : RwM α :=
  match xs.get? i with
  | none => (.error "IndexError: list index out of range", st)
  | some v => (.ok v, st)

/-- `make_onnx_node(g, type, inputs, ..., output_count)` of `rnn_utils`
(modelled from the spec's collaborator contract): allocates a fresh node
name and `output_count` fresh output edges from the name supply.  The
node is *not* added to the graph; callers append it explicitly. -/
def makeOnnxNode (ty : String) (ins : List EId) (outputCount : Nat) (st : RwState) :
    GNode × RwState :=
  let name := EId.fr st.ctr
  let outs := (List.range outputCount).map (fun i => EId.fr (st.ctr + 1 + i))
  ({ name := name, type := ty, input := ins, output := outs },
   { st with ctr := st.ctr + 1 + outputCount })

/-- `g.make_const(name, np_val)` (collaborator, modelled from the spec):
creates a constant node with a fresh name and records its value in the
initializer table. -/
def makeConst (v : InitVal) (st : RwState) : GNode × RwState :=
  let name := EId.fr st.ctr
  let outE := EId.fr (st.ctr + 1)
  let node : GNode := { name := name, type := "Const", input := [], output := [outE] }
  (node,
   { st with
      ctr := st.ctr + 2,
      g := { st.g with initializers := (outE, v) :: st.g.initializers } })

/-- `BodyGraphDict.has_body_graph_info(key)` (modelled from the spec's
Boundary Registry, section 3). -/
def hasBodyGraphInfo (k : EId) (st : RwState) : Bool :=
  (st.registry.lookup k).isSome

/-- `BodyGraphDict.add_body_graph_info(key, meta)` (modelled from the
spec): registering twice under the same key is a logic error
(fail fast, spec section 4.5). -/
def addBodyGraphInfo (k : EId) (m : SubGraphMeta) (st : RwState) : RwM Unit :=
  if hasBodyGraphInfo k st then
    (.error "ValueError: body graph info already registered", st)
  else
    (.ok (), { st with registry := (k, m) :: st.registry })

/-- `BodyGraphDict.pop_body_graph_info(key)` (modelled from the spec):
removes and returns the entry. -/
def popBodyGraphInfo (k : EId) (st : RwState) : RwM SubGraphMeta :=
  match st.registry.lookup k with
  | none => (.error "KeyError: no body graph info", st)
  | some m => (.ok m, { st with registry := st.registry.eraseP (fun p => p.1 = k) })

/-- Modelled from the spec: a `LoopVariable` of `loop_rewriter_base` (not
under `src/`; spec section 3): entry-point edge name, pre-loop initial
value edge, per-iteration current-value edge (`switch_true_identity`),
per-iteration next-value edge (`next_iteration`), optional post-loop exit
edge, the tensor-array flag, and (for tensor arrays) the per-iteration
index edge. -/
structure LoopVar where
  enter_name : String
  enter_input_id : EId
  next_iteration_input_id : EId
  switch_true_identity_output_id : EId
  exit_output_id : Option EId := none
  is_tensor_array : Bool := false
  ta_index_id : EId := .str ""
deriving DecidableEq

/-- `TensorArrayProp`: one array-accumulator's boundary.  In the source
the fields start as `None` and are always assigned before use; we model
the always-assigned fields directly and keep `output_id` optional (it is
only set when the accumulator has a post-loop gather). -/
structure TensorArrayProp where
  index_input_id : EId
  data_input_id : EId
  output_id : Option EId := none
deriving DecidableEq

/-- `ScanProperties`: the composed manifest consumed by Scan-node
synthesis. -/
structure ScanProperties where
  initial_state_and_scan_inputs : List EId
  loop_state_inputs : List EId
  loop_state_outputs : List EId
  loop_scan_inputs : List EId
  loop_scan_outputs : List EId
deriving DecidableEq

/-- `CustomRnnContext`: the per-loop rewrite context.  The base `Context`
fields (`while_context_scope`, `loop_variables`) are modelled from the
spec (RewriteContext, section 3); the collaborator populates them before
`need_rewrite` runs.  The remaining fields start empty exactly as in
`CustomRnnContext.__init__`. -/
structure CustomRnnContext where
  while_context_scope : String
  loop_variables : List (String × LoopVar)
  rnn_scope : Option String := none
  other_loop_vars : List (String × LoopVar) := []
  output_tas : List TensorArrayProp := []
  input_tas : List TensorArrayProp := []
  time_var : Option LoopVar := none
  iteration_var : Option LoopVar := none
deriving DecidableEq

/-- One `GraphMatcher` match of `rnn_input_pattern` (the matcher is an
external collaborator; a match binds the named pattern ops). -/
structure MatchResult where
  ta_input_scatter : GNode
  ta_read : GNode
deriving DecidableEq

/-- Python `s.startswith(p)`, modelled on the character lists so that it
evaluates by kernel reduction. -/
def pyStartsWith (s p : String) : Bool :=
  p.data.isPrefixOf s.data

/-- `n.name == s` for a Python string comparison against a node name:
fresh generated names never equal source strings. -/
def EId.isStr : EId → String → Bool
  | .str s, t => s = t
  | .fr _, _ => false

/-- `n.name.startswith(p)` on a node name. -/
def EId.strStartsWith : EId → String → Bool
  | .str s, p => pyStartsWith s p
  | .fr _, _ => false

/-- `is_tensor_array_gather_op` of `rnn_utils` (modelled from the spec
glossary: the post-loop aggregation op of an array accumulator). -/
def isTensorArrayGatherOp (n : GNode) : Bool := n.type = "TensorArrayGatherV3"

/-- `is_tensor_array_write_op` of `rnn_utils` (modelled from the spec
glossary: the per-iteration write op of an array accumulator). -/
def isTensorArrayWriteOp (n : GNode) : Bool := n.type = "TensorArrayWriteV3"

/-- Python `s.split('/')` on the character list (the source only ever
splits on `'/'`). -/
def pySplitSlashAux : List Char → List Char → List String
  | [], cur => [String.mk cur.reverse]
  | c :: rest, cur =>
    if c = '/' then String.mk cur.reverse :: pySplitSlashAux rest []
    else pySplitSlashAux rest (c :: cur)

/-- Python `s.split('/')`. -/
def pySplitSlash (s : String) : List String :=
  pySplitSlashAux s.data []

/-- Python `'/'.join(parts)`. -/
def pyJoinSlash : List String → String
  | [] => ""
  | [s] => s
  | s :: rest => s ++ "/" ++ pyJoinSlash rest

/-- `CustomRnnRewriter._get_rnn_scope_name`: drop the last two `/`-separated
components of the while scope and re-append a trailing slash. -/
def getRnnScopeName (whileScopeName : String) : String :=
  let parts := pySplitSlash whileScopeName
  pyJoinSlash (parts.take (parts.length - 2)) ++ "/"

/-- Loop body of `_parse_rnn_loop`: classify one loop variable, updating
the `(found_time, is_rnn_out_ta, context)` accumulator.  Raises when the
enter-input node is missing (Python would dereference `None`) or when a
tensor-array variable lacks the `tensor_array_name` attribute. -/
def parseRnnLoopStep (timeName taNamePre iterName : String)
    (acc : Bool × Bool × CustomRnnContext) (p : String × LoopVar) (st : RwState) :
    RwM (Bool × Bool × CustomRnnContext) :=
  let (foundTime, isRnnOutTa, c) := acc
  match getNodeByNameG st.g p.2.enter_input_id with
  | none => (.error "AttributeError: NoneType has no attribute", st)
  | some node =>
    if p.2.is_tensor_array then
      match node.tensorArrayName with
      | none => (.error "AttributeError: get_attr tensor_array_name", st)
      | some taName =>
        if ¬ pyStartsWith taName taNamePre then (.ok (foundTime, false, c), st)
        else (.ok (foundTime, isRnnOutTa, c), st)
    else if node.name.isStr timeName then
      (.ok (true, isRnnOutTa, { c with time_var := some p.2 }), st)
    else if node.name.isStr iterName then
      (.ok (foundTime, isRnnOutTa, { c with iteration_var := some p.2 }), st)
    else
      (.ok (foundTime, isRnnOutTa,
            { c with other_loop_vars := c.other_loop_vars ++ [p] }), st)

/-- The fold of `_parse_rnn_loop` over the loop-variable enumeration. -/
def parseRnnLoopFold (timeName taNamePre iterName : String)
    (vars : List (String × LoopVar)) (acc : Bool × Bool × CustomRnnContext)
    (st : RwState) : RwM (Bool × Bool × CustomRnnContext) :=
  match vars with
  | [] => (.ok acc, st)
  | p :: rest =>
    match parseRnnLoopStep timeName taNamePre iterName acc p st with
    | (.error e, st') => (.error e, st')
    | (.ok acc', st') => parseRnnLoopFold timeName taNamePre iterName rest acc' st'

/-- `CustomRnnRewriter._parse_rnn_loop`: partition the loop variables into
time variable, iteration counter, tensor arrays and other state, checking
that a time variable exists and that every tensor array was allocated
under the `dynamic_rnn/output_` scope. -/
def parseRnnLoop (ctx : CustomRnnContext) (st : RwState) :
    RwM (Bool × CustomRnnContext) :=
  match ctx.rnn_scope with
  | none => (.error "TypeError: rnn_scope is None", st)
  | some sc =>
    let timeName := sc ++ "time"
    let taNamePre := sc ++ "dynamic_rnn/output_"
    let iterName := ctx.while_context_scope ++ "iteration_counter"
    match parseRnnLoopFold timeName taNamePre iterName ctx.loop_variables
        (false, true, ctx) st with
    | (.error e, st') => (.error e, st')
    | (.ok (foundTime, isRnnOutTa, c), st') =>
      (.ok (foundTime && isRnnOutTa, c), st')

/-- `CustomRnnRewriter._parse_time_var`: only logs the time variable's
edges, but dereferences `context.time_var` (raises when it is `None`). -/
def parseTimeVar (ctx : CustomRnnContext) (st : RwState) : RwM Unit :=
  match ctx.time_var with
  | none => (.error "AttributeError: NoneType has no attribute", st)
  | some _ => (.ok (), st)

/-- Loop body of `_parse_output_ta` for one tensor-array loop variable:
build its `TensorArrayProp`; when the exit edge exists, look up the first
tensor-array-gather consumer — the `[0]` index raises `IndexError` when
no gather consumer exists. -/
def parseOutputTaStep (c : CustomRnnContext) (lv : LoopVar) (st : RwState) :
    RwM CustomRnnContext :=
  let dataInput := lv.next_iteration_input_id
  let idx := lv.ta_index_id
  match lv.exit_output_id with
  | none =>
    (.ok { c with output_tas := c.output_tas ++
            [{ index_input_id := idx, data_input_id := dataInput }] }, st)
  | some exitId =>
    match (findOutputConsumersG st.g exitId).filter isTensorArrayGatherOp with
    | [] => (.error "IndexError: list index out of range", st)
    | gatherNode :: _ =>
      (.ok { c with output_tas := c.output_tas ++
              [{ index_input_id := idx, data_input_id := dataInput,
                 output_id := some (out0 gatherNode) }] }, st)

/-- The fold of `_parse_output_ta` over the loop variables (non-tensor-array
variables are skipped). -/
def parseOutputTaFold (vars : List (String × LoopVar)) (c : CustomRnnContext)
    (st : RwState) : RwM CustomRnnContext :=
  match vars with
  | [] => (.ok c, st)
  | p :: rest =>
    if ¬ p.2.is_tensor_array then parseOutputTaFold rest c st
    else
      match parseOutputTaStep c p.2 st with
      | (.error e, st') => (.error e, st')
      | (.ok c', st') => parseOutputTaFold rest c' st'

/-- `CustomRnnRewriter._parse_output_ta`. -/
def parseOutputTa (ctx : CustomRnnContext) (st : RwState) : RwM CustomRnnContext :=
  parseOutputTaFold ctx.loop_variables ctx st

/-- Loop body of `_parse_input_ta` for one filtered match: read the value
input of the scatter, the index input and the output of the read, and
propagate the sliced input shape when the read output has none. -/
def parseInputTaStep (c : CustomRnnContext) (m : MatchResult) (st : RwState) :
    RwM CustomRnnContext :=
  match getIdx m.ta_input_scatter.input 2 st with
  | (.error e, st') => (.error e, st')
  | (.ok dataInput, st) =>
    match getIdx m.ta_read.input 1 st with
    | (.error e, st') => (.error e, st')
    | (.ok idxInput, st) =>
      let outId := out0 m.ta_read
      let inputShape := getSh dataInput st
      let outputShape := getSh outId st
      let st :=
        match outputShape, inputShape with
        | none, some s => setSh outId (some (s.drop 1)) st
        | _, _ => st
      (.ok { c with input_tas := c.input_tas ++
              [{ index_input_id := idxInput, data_input_id := dataInput,
                 output_id := some outId }] }, st)

/-- The fold of `_parse_input_ta` over the scope-filtered match results. -/
def parseInputTaFold (ms : List MatchResult) (c : CustomRnnContext)
    (st : RwState) : RwM CustomRnnContext :=
  match ms with
  | [] => (.ok c, st)
  | m :: rest =>
    match parseInputTaStep c m st with
    | (.error e, st') => (.error e, st')
    | (.ok c', st') => parseInputTaFold rest c' st'

/-- `CustomRnnRewriter._parse_input_ta`.  The `GraphMatcher` collaborator's
answer for `rnn_input_pattern` over the whole node list is passed in as
`matchList`; the source then keeps only matches whose scatter lives under
the rnn scope. -/
def parseInputTa (matchList : List MatchResult) (ctx : CustomRnnContext)
    (st : RwState) : RwM CustomRnnContext :=
  let sc := ctx.rnn_scope.getD ""
  let filtered := matchList.filter (fun m => m.ta_input_scatter.name.strStartsWith sc)
  parseInputTaFold filtered ctx st

/-- `CustomRnnRewriter.need_rewrite`: set the rnn scope, parse the loop,
then the time variable, the output tensor arrays and the input tensor
arrays; report not-applicable when the loop is not a dynamic_rnn loop or
when neither array inputs nor array outputs exist. -/
def needRewrite (matchList : List MatchResult) (ctx : CustomRnnContext)
    (st : RwState) : RwM (Bool × CustomRnnContext) :=
  let ctx := { ctx with rnn_scope := some (getRnnScopeName ctx.while_context_scope) }
  match parseRnnLoop ctx st with
  | (.error e, st') => (.error e, st')
  | (.ok (ok1, ctx), st) =>
    if ¬ ok1 then (.ok (false, ctx), st)
    else
      match parseTimeVar ctx st with
      | (.error e, st') => (.error e, st')
      | (.ok _, st) =>
        match parseOutputTa ctx st with
        | (.error e, st') => (.error e, st')
        | (.ok ctx, st) =>
          match parseInputTa matchList ctx st with
          | (.error e, st') => (.error e, st')
          | (.ok ctx, st) =>
            if ctx.input_tas.isEmpty && ctx.output_tas.isEmpty then
              (.ok (false, ctx), st)
            else (.ok (true, ctx), st)

/-- `INVLAID_INPUT_ID` — the reserved sentinel edge marking an
intentionally disconnected input. -/
def invalidInputId : EId := .str "invalid:0"

/-- Default node, only used as the (unreached) default of `getLastD` on
lists that are nonempty by construction. -/
def defGNode : GNode := { name := .str "", type := "", input := [], output := [] }

/-- Loop of `_cut_off_connection_for_cell` over the time and plain-state
variables: collect the node exposing the current-value edge for removal
(Python appends `None` when the lookup fails) and rewire every
`NextIteration` consumer of the next-value edge to the sentinel. -/
def cutOffVarsFold (vars : List LoopVar) (acc : List (Option GNode))
    (st : RwState) : List (Option GNode) × RwState :=
  match vars with
  | [] => (acc, st)
  | v :: rest =>
    let acc := acc ++ [getNodeByNameG st.g v.switch_true_identity_output_id]
    let nextIterNodes := st.g.nodes.filter (fun n => n.type = "NextIteration")
    let st := { st with
      g := replaceAllInputsG st.g nextIterNodes v.next_iteration_input_id invalidInputId }
    cutOffVarsFold rest acc st

/-- Loop of `_cut_off_connection_for_cell` over the array-accumulator
outputs: rewire every tensor-array-write consumer of the per-iteration
data edge to the sentinel. -/
def cutOffOutputTasFold (tas : List TensorArrayProp) (st : RwState) : RwState :=
  match tas with
  | [] => st
  | ta :: rest =>
    let taWriteNodes := st.g.nodes.filter (fun n => isTensorArrayWriteOp n)
    let st := { st with
      g := replaceAllInputsG st.g taWriteNodes ta.data_input_id invalidInputId }
    cutOffOutputTasFold rest st

/-- `CustomRnnRewriter._cut_off_connection_for_cell`: sever the cell from
the loop scaffolding, returning the nodes slated for removal.  Raises
when `context.time_var` is `None` (attribute dereference). -/
def cutOffConnectionForCell (ctx : CustomRnnContext) (st : RwState) :
    RwM (List (Option GNode)) :=
  match ctx.time_var with
  | none => (.error "AttributeError: NoneType has no attribute", st)
  | some tv =>
    let allVars := [tv] ++ ctx.other_loop_vars.map (fun p => p.2)
    let (acc, st) := cutOffVarsFold allVars [] st
    let acc := acc ++ ctx.input_tas.map (fun ta =>
      match ta.output_id with
      | none => none
      | some oid => getNodeByNameG st.g oid)
    let st := cutOffOutputTasFold ctx.output_tas st
    (.ok acc, st)

/-- `rewrite`'s node-list cleanup after cut-off: `for n in set(to_remove):
if n in all_nodes: all_nodes.remove(n)` (a `None` entry is never a member). -/
def removeCutNodes (toRemove : List (Option GNode)) (st : RwState) : RwState :=
  toRemove.dedup.foldl (fun st optn =>
    match optn with
    | none => st
    | some n =>
      if st.g.nodes.any (fun m => m.name = n.name) then
        { st with g := { st.g with nodes := st.g.nodes.eraseP (fun m => m.name = n.name) } }
      else st) st

/-- `CustomRnnRewriter._create_unsqueeze_node`: an `Unsqueeze` with
`axes=[0]`; raises `ValueError` when the input shape is unknown,
otherwise records shape `[1] + input_shape` and the input's dtype on the
new output. -/
def createUnsqueezeNode (targetName : String) (inputId : EId) (st : RwState) :
    RwM GNode :=
  let _ := targetName
  let (unsqueezeNode, st) := makeOnnxNode "Unsqueeze" [inputId] 1 st
  match getSh inputId st with
  | none => (.error "ValueError: input shape is none", st)
  | some s =>
    let st := setSh (out0 unsqueezeNode) (some (1 :: s)) st
    let st := setDt (out0 unsqueezeNode) (getDt inputId st) st
    (.ok unsqueezeNode, st)

/-- `CustomRnnRewriter._create_squeeze_node`: a `Squeeze` with `axes=[0]`;
raises `ValueError` when the input shape is unknown, otherwise records
shape `input_shape[1:]` and the input's dtype on the new output. -/
def createSqueezeNode (targetName : String) (inputId : EId) (st : RwState) :
    RwM GNode :=
  let _ := targetName
  let (squeezeNode, st) := makeOnnxNode "Squeeze" [inputId] 1 st
  match getSh inputId st with
  | none => (.error "ValueError: input shape is none", st)
  | some s =>
    let st := setSh (out0 squeezeNode) (some (s.drop 1)) st
    let st := setDt (out0 squeezeNode) (getDt inputId st) st
    (.ok squeezeNode, st)

/-- `CustomRnnRewriter._adapt_time_var_as_workaround`: unsqueeze the time
variable's initial value and next-value edges, squeeze at the point the
cell reads the current value, rewire the cell's readers, and correct the
recorded current-value shape to `[1] + shape`. -/
def adaptTimeVarAsWorkaround (var : LoopVar) (st : RwState) :
    RwM (LoopVar × List GNode) :=
  match createUnsqueezeNode "time_var_init" var.enter_input_id st with
  | (.error e, st') => (.error e, st')
  | (.ok timeInitNode, st) =>
    let var := { var with enter_input_id := out0 timeInitNode }
    match createUnsqueezeNode "time_var_output" var.next_iteration_input_id st with
    | (.error e, st') => (.error e, st')
    | (.ok timeOutputNode, st) =>
      let var := { var with next_iteration_input_id := out0 timeOutputNode }
      match createSqueezeNode "time_var_input" var.switch_true_identity_output_id st with
      | (.error e, st') => (.error e, st')
      | (.ok timeInputNode, st) =>
        let st := { st with
          g := replaceAllInputsG st.g st.g.nodes var.switch_true_identity_output_id
                 (out0 timeInputNode) }
        match getSh var.switch_true_identity_output_id st with
        | none => (.error "TypeError: NoneType unsupported operand", st)
        | some s =>
          let st := setSh var.switch_true_identity_output_id (some (1 :: s)) st
          (.ok (var, [timeInitNode, timeOutputNode, timeInputNode]), st)

/-- `CustomRnnRewriter._adapt_scan_sequence_input_or_output`: wrap
`input_id` in a `Reshape`.  For an output (`handle_output`), the target
shape drops the leading synthetic batch axis (a constant when at most one
dim past axis 0 is unknown, a dynamically computed `Cast`/`Slice`/`Cast`
chain otherwise); for an input, it prepends a size-1 batch axis (a
constant when at most one dim is unknown, a `Concat` with a fake batch
size otherwise).  An unknown inferred shape raises at the
`new_shape` computation, after the dynamic-branch nodes were allocated. -/
def adaptScanSequenceInputOrOutput (targetName : String) (inputId : EId)
    (handleOutput : Bool) (st : RwState) : RwM (List GNode) :=
  let _ := targetName
  let (shapeNode, st) := makeOnnxNode "Shape" [inputId] 1 st
  let nodesToAdd := [shapeNode]
  let inferredShape := getSh inputId st
  if handleOutput then
    match inferredShape with
    | some s =>
      if (s.drop 1).count (-1) ≤ 1 then
        let (newShapeNode, st) := makeConst (s.drop 1) st
        let (reshapeNode, st) := makeOnnxNode "Reshape" [inputId, out0 newShapeNode] 1 st
        let st := setSh (out0 reshapeNode) (some (s.drop 1)) st
        let st := setDt (out0 reshapeNode) (getDt inputId st) st
        (.ok (nodesToAdd ++ [reshapeNode]), st)
      else
        let (origShapeNode, st) := makeOnnxNode "Cast" [out0 shapeNode] 1 st
        let (slicedShapeNode, st) := makeOnnxNode "Slice" [out0 origShapeNode] 1 st
        let (newShapeNode, st) := makeOnnxNode "Cast" [out0 slicedShapeNode] 1 st
        let nodesToAdd := nodesToAdd ++ [origShapeNode, slicedShapeNode, newShapeNode]
        let (reshapeNode, st) := makeOnnxNode "Reshape" [inputId, out0 newShapeNode] 1 st
        let st := setSh (out0 reshapeNode) (some (s.drop 1)) st
        let st := setDt (out0 reshapeNode) (getDt inputId st) st
        (.ok (nodesToAdd ++ [reshapeNode]), st)
    | none =>
      let (origShapeNode, st) := makeOnnxNode "Cast" [out0 shapeNode] 1 st
      let (slicedShapeNode, st) := makeOnnxNode "Slice" [out0 origShapeNode] 1 st
      let (newShapeNode, st) := makeOnnxNode "Cast" [out0 slicedShapeNode] 1 st
      let _ := (origShapeNode, slicedShapeNode, newShapeNode)
      (.error "TypeError: NoneType is not subscriptable", st)
  else
    match inferredShape with
    | some s =>
      if s.count (-1) ≤ 1 then
        let (newShapeNode, st) := makeConst (1 :: s) st
        let (reshapeNode, st) := makeOnnxNode "Reshape" [inputId, out0 newShapeNode] 1 st
        let st := setSh (out0 reshapeNode) (some (1 :: s)) st
        let st := setDt (out0 reshapeNode) (getDt inputId st) st
        (.ok (nodesToAdd ++ [reshapeNode]), st)
      else
        let (fakeBatchSizeNode, st) := makeConst [1] st
        let (newShapeNode, st) := makeOnnxNode "Concat" [out0 fakeBatchSizeNode, out0 shapeNode] 1 st
        let nodesToAdd := nodesToAdd ++ [newShapeNode]
        let (reshapeNode, st) := makeOnnxNode "Reshape" [inputId, out0 newShapeNode] 1 st
        let st := setSh (out0 reshapeNode) (some (1 :: s)) st
        let st := setDt (out0 reshapeNode) (getDt inputId st) st
        (.ok (nodesToAdd ++ [reshapeNode]), st)
    | none =>
      let (fakeBatchSizeNode, st) := makeConst [1] st
      let (newShapeNode, st) := makeOnnxNode "Concat" [out0 fakeBatchSizeNode, out0 shapeNode] 1 st
      let _ := newShapeNode
      (.error "TypeError: NoneType unsupported operand", st)

/-- Accumulator of the state-variable loop of
`_compose_cell_inputs_and_outputs`. -/
structure ComposeVarsAcc where
  vars : List LoopVar
  loop_state_inputs : List EId
  loop_state_outputs : List EId
  initial_inputs : List EId
  nodes : List GNode
deriving DecidableEq

/-- State-variable loop of `_compose_cell_inputs_and_outputs`: reshape
each variable's initial value to carry a leading size-1 batch axis and
record the cell-facing boundary edges. -/
def composeVarsFold (vars : List LoopVar) (acc : ComposeVarsAcc) (st : RwState) :
    RwM ComposeVarsAcc :=
  match vars with
  | [] => (.ok acc, st)
  | v :: rest =>
    match adaptScanSequenceInputOrOutput "input" v.enter_input_id false st with
    | (.error e, st') => (.error e, st')
    | (.ok nodes, st) =>
      let newEnter := out0 (nodes.getLastD defGNode)
      let v := { v with enter_input_id := newEnter }
      let acc : ComposeVarsAcc :=
        { vars := acc.vars ++ [v],
          loop_state_inputs := acc.loop_state_inputs ++ [v.switch_true_identity_output_id],
          loop_state_outputs := acc.loop_state_outputs ++ [v.next_iteration_input_id],
          initial_inputs := acc.initial_inputs ++ [newEnter],
          nodes := acc.nodes ++ nodes }
      composeVarsFold rest acc st

/-- Accumulator of the scan-input loop of
`_compose_cell_inputs_and_outputs`. -/
structure ComposeTasAcc where
  tas : List TensorArrayProp
  loop_scan_inputs : List EId
  initial_inputs : List EId
  nodes : List GNode
deriving DecidableEq

/-- Scan-input loop of `_compose_cell_inputs_and_outputs`: reshape each
array input's pre-loop source tensor and record the cell-facing read edge
as a scan input. -/
def composeInputTasFold (tas : List TensorArrayProp) (acc : ComposeTasAcc)
    (st : RwState) : RwM ComposeTasAcc :=
  match tas with
  | [] => (.ok acc, st)
  | ta :: rest =>
    match adaptScanSequenceInputOrOutput "input_ta" ta.data_input_id false st with
    | (.error e, st') => (.error e, st')
    | (.ok nodes, st) =>
      let newData := out0 (nodes.getLastD defGNode)
      let ta := { ta with data_input_id := newData }
      let acc : ComposeTasAcc :=
        { tas := acc.tas ++ [ta],
          loop_scan_inputs := acc.loop_scan_inputs ++ [ta.output_id.getD (.str "")],
          initial_inputs := acc.initial_inputs ++ [newData],
          nodes := acc.nodes ++ nodes }
      composeInputTasFold rest acc st

/-- `CustomRnnRewriter._compose_cell_inputs_and_outputs`: apply the time
workaround, reshape every state initial value and array-input source
tensor, and assemble the `ScanProperties` manifest.  The scan outputs are
the accumulators' per-iteration write edges, recorded directly. -/
def composeCellInputsAndOutputs (ctx : CustomRnnContext) (st : RwState) :
    RwM (ScanProperties × List GNode × CustomRnnContext) :=
  match ctx.time_var with
  | none => (.error "AttributeError: NoneType has no attribute", st)
  | some tv0 =>
    match adaptTimeVarAsWorkaround tv0 st with
    | (.error e, st') => (.error e, st')
    | (.ok (tv, timeNodes), st) =>
      let varsToIterate := [tv] ++ ctx.other_loop_vars.map (fun p => p.2)
      match composeVarsFold varsToIterate ⟨[], [], [], [], []⟩ st with
      | (.error e, st') => (.error e, st')
      | (.ok vacc, st) =>
        match composeInputTasFold ctx.input_tas ⟨[], [], [], []⟩ st with
        | (.error e, st') => (.error e, st')
        | (.ok tacc, st) =>
          let loopScanOutputs := ctx.output_tas.map (fun ta => ta.data_input_id)
          let props : ScanProperties :=
            { initial_state_and_scan_inputs := vacc.initial_inputs ++ tacc.initial_inputs,
              loop_state_inputs := vacc.loop_state_inputs,
              loop_state_outputs := vacc.loop_state_outputs,
              loop_scan_inputs := tacc.loop_scan_inputs,
              loop_scan_outputs := loopScanOutputs }
          let ctx' : CustomRnnContext :=
            { ctx with
              time_var := some (vacc.vars.headD tv),
              other_loop_vars :=
                (ctx.other_loop_vars.map (fun p => p.1)).zip (vacc.vars.drop 1),
              input_tas := tacc.tas }
          (.ok (props, timeNodes ++ vacc.nodes ++ tacc.nodes, ctx'), st)

/-- The state-output loop of `_create_scan_node`
(`for i in range(len(loop_state_outputs) - 1)`): every remaining state
output slot, addressed through the running `index`, receives the same
shape/dtype, the ones read once from the scan node's input index 2.
Returns the running index. -/
def setStateSlots (outputs : List EId) (count idx : Nat) (sh : Option Shape)
    (dt : Option DType) (st : RwState) : RwM Nat :=
  match count with
  | 0 => (.ok idx, st)
  | c + 1 =>
    match getIdx outputs idx st with
    | (.error e, st') => (.error e, st')
    | (.ok oe, st) =>
      let st := setSh oe sh st
      let st := setDt oe dt st
      setStateSlots outputs c (idx + 1) sh dt st

/-- The scan-output loop of `_create_scan_node`: the slot at the running
`index` receives the dtype of the `i`-th per-iteration write edge and
shape `[batch, time] + cell_output_shape`; an unknown cell output shape
raises.  Returns the running index. -/
def setScanSlots (outputs srcs : List EId) (idx : Nat) (batch time : Int)
    (st : RwState) : RwM Nat :=
  match srcs with
  | [] => (.ok idx, st)
  | s :: ss =>
    let dt := getDt s st
    match getSh s st with
    | none => (.error "TypeError: NoneType unsupported operand", st)
    | some c =>
      match getIdx outputs idx st with
      | (.error e, st') => (.error e, st')
      | (.ok oe, st) =>
        let st := setSh oe (some (batch :: time :: c)) st
        let st := setDt oe dt st
        setScanSlots outputs ss (idx + 1) batch time st

/-- The output-slot assignment phase of `_create_scan_node` (lines
306-341): slot 0 (the time iterator) receives the shape/dtype recorded on
input index 1; slots `1..len(loop_state_outputs)-1` all receive the
shape/dtype read once from input index 2; then one slot per scan output
receives `[batch, time] + cell_output_shape`, where `batch`/`time` are
the first two dims recorded on the last input (`input[-1]`). -/
def assignScanOutputShapes (scanNode : GNode) (props : ScanProperties)
    (st : RwState) : RwM GNode :=
  match getIdx scanNode.input 1 st with
  | (.error e, st') => (.error e, st')
  | (.ok in1, st) =>
    let timeInputShape := getSh in1 st
    let timeInputDtype := getDt in1 st
    match getIdx scanNode.output 0 st with
    | (.error e, st') => (.error e, st')
    | (.ok o0, st) =>
      let st := setSh o0 timeInputShape st
      let st := setDt o0 timeInputDtype st
      match getIdx scanNode.input 2 st with
      | (.error e, st') => (.error e, st')
      | (.ok in2, st) =>
        let stateInputShape := getSh in2 st
        let stateInputDtype := getDt in2 st
        match setStateSlots scanNode.output (props.loop_state_outputs.length - 1) 1
            stateInputShape stateInputDtype st with
        | (.error e, st') => (.error e, st')
        | (.ok idx, st) =>
          match getSh (scanNode.input.getLastD (.str "")) st with
          | none => (.error "TypeError: NoneType is not subscriptable", st)
          | some lastScanInputShape =>
            match getIdx lastScanInputShape 0 st with
            | (.error e, st') => (.error e, st')
            | (.ok batch, st) =>
              match getIdx lastScanInputShape 1 st with
              | (.error e, st') => (.error e, st')
              | (.ok time, st) =>
                match setScanSlots scanNode.output props.loop_scan_outputs idx
                    batch time st with
                | (.error e, st') => (.error e, st')
                | (.ok _, st) => (.ok scanNode, st)

/-- `CustomRnnRewriter._create_scan_node`: allocate the `Scan` node with a
leading empty input followed by the composed initial inputs and the
`num_scan_inputs` attribute, then assign every output slot's shape and
dtype by the fixed positional convention. -/
def createScanNode (props : ScanProperties) (st : RwState) : RwM GNode :=
  let (scanNode0, st) := makeOnnxNode "Scan"
      (EId.str "" :: props.initial_state_and_scan_inputs)
      (props.loop_state_outputs.length + props.loop_scan_outputs.length) st
  let scanNode := { scanNode0 with numScanInputs := some props.loop_scan_inputs.length }
  assignScanOutputShapes scanNode props st

/-- The enter-node loop of `_extract_and_register_cell_graph_info`: for
each external capture, collapse the `Enter` indirection by rewiring its
consumers to its underlying source edge, and record that source edge.
(The re-query of the enclosed node set via `_extract_sub_graph_nodes` is
a pure topology question whose result the caller discards.) -/
def extractEnterFold (enterNodes : List GNode) (acc : List EId) (st : RwState) :
    RwM (List EId) :=
  match enterNodes with
  | [] => (.ok acc, st)
  | en :: rest =>
    match getIdx en.input 0 st with
    | (.error e, st') => (.error e, st')
    | (.ok enIn0, st) =>
      let st := { st with g := replaceAllInputsG st.g st.g.nodes (out0 en) enIn0 }
      extractEnterFold rest (acc ++ [enIn0]) st

/-- `CustomRnnRewriter._extract_and_register_cell_graph_info`: build the
boundary metadata (state+scan inputs / state+scan outputs / initial
inputs), ask the topology collaborator (`find_subgraph`, passed as an
oracle since `loop_rewriter_base` is not under `src/`) for the enclosed
nodes and reachable `Enter` captures, collapse the captures, and register
the metadata under the scan node's name. -/
def extractAndRegisterCellGraphInfo
    (findSub : SubGraphMeta → GGraph → List GNode × List GNode)
    (props : ScanProperties) (scanNode : GNode) (st : RwState) :
    RwM (List GNode) :=
  let subGraphInputs := props.loop_state_inputs ++ props.loop_scan_inputs
  let subGraphOutputs := props.loop_state_outputs ++ props.loop_scan_outputs
  let meta0 : SubGraphMeta :=
    { input_ids := subGraphInputs, output_ids := subGraphOutputs,
      initial_input_ids := props.initial_state_and_scan_inputs }
  let (nodes, enterNodes) := findSub meta0 st.g
  match extractEnterFold enterNodes [] st with
  | (.error e, st') => (.error e, st')
  | (.ok otherIds, st) =>
    let meta := { meta0 with other_enter_input_ids := otherIds }
    match addBodyGraphInfo scanNode.name meta st with
    | (.error e, st') => (.error e, st')
    | (.ok _, st) => (.ok nodes, st)

/-- The state-variable loop of `_connect_scan_with_output` (slot index
starts at 1, skipping the time iterator): when a variable's exit edge
exists, adapt the corresponding scan output and redirect the exit edge's
consumers to the adapted output. -/
def connectVarsFold (vars : List LoopVar) (idx : Nat) (scanNode : GNode)
    (acc : List GNode) (st : RwState) : RwM (List GNode × Nat) :=
  match vars with
  | [] => (.ok (acc, idx), st)
  | v :: rest =>
    match v.exit_output_id with
    | none => connectVarsFold rest (idx + 1) scanNode acc st
    | some exitId =>
      match getIdx scanNode.output idx st with
      | (.error e, st') => (.error e, st')
      | (.ok outEdge, st) =>
        match adaptScanSequenceInputOrOutput "state_output_reshape" outEdge true st with
        | (.error e, st') => (.error e, st')
        | (.ok nodes, st) =>
          let st := { st with
            g := replaceAllInputsG st.g st.g.nodes exitId
                   (out0 (nodes.getLastD defGNode)) }
          connectVarsFold rest (idx + 1) scanNode (acc ++ nodes) st

/-- The accumulator loop of `_connect_scan_with_output`: when an
accumulator's post-loop gather output is consumed, adapt the
corresponding scan output and redirect those consumers. -/
def connectTasFold (tas : List TensorArrayProp) (idx : Nat) (scanNode : GNode)
    (acc : List GNode) (st : RwState) : RwM (List GNode) :=
  match tas with
  | [] => (.ok acc, st)
  | ta :: rest =>
    match ta.output_id with
    | none => connectTasFold rest (idx + 1) scanNode acc st
    | some finalId =>
      match getIdx scanNode.output idx st with
      | (.error e, st') => (.error e, st')
      | (.ok outEdge, st) =>
        match adaptScanSequenceInputOrOutput "scan_output_reshape" outEdge true st with
        | (.error e, st') => (.error e, st')
        | (.ok nodes, st) =>
          let st := { st with
            g := replaceAllInputsG st.g st.g.nodes finalId
                   (out0 (nodes.getLastD defGNode)) }
          connectTasFold rest (idx + 1) scanNode (acc ++ nodes) st

/-- `CustomRnnRewriter._connect_scan_with_output`. -/
def connectScanWithOutput (ctx : CustomRnnContext) (scanNode : GNode)
    (st : RwState) : RwM (List GNode) :=
  match connectVarsFold (ctx.other_loop_vars.map (fun p => p.2)) 1 scanNode [] st with
  | (.error e, st') => (.error e, st')
  | (.ok (acc, idx), st) =>
    connectTasFold ctx.output_tas idx scanNode acc st

/-- `REWRITER_RESULT` of `rnn_utils` (spec section 6: rewrite outcome per
candidate loop). -/
inductive RewriterResult where
  | ok : RewriterResult
  | fail : RewriterResult
deriving DecidableEq

/-- The exception handler's registry rollback in `rewrite`:
`if scan_node and BodyGraphDict.has_body_graph_info(scan_node.name):
pop_body_graph_info(scan_node.name)`. -/
def handlerPop (scanNode : GNode) (st : RwState) : RwState :=
  if hasBodyGraphInfo scanNode.name st then
    (popBodyGraphInfo scanNode.name st).2
  else st

/-- Append the collected new nodes to the graph (`set_nodes` at the end of
`rewrite`). -/
def appendNodes (ns : List GNode) (st : RwState) : RwState :=
  { st with g := { st.g with nodes := st.g.nodes ++ ns } }

/-- `CustomRnnRewriter.rewrite`: the whole per-loop rewrite attempt under
its `try`/`except`.  Any exception in the steps is caught: the handler
removes the registry entry for the synthesized scan node when one exists
and the outcome is reported as `FAIL`.  (The source's `if not scan_node`
guard is dead: `make_onnx_node` always returns a truthy node.) -/
def rewriteFn (findSub : SubGraphMeta → GGraph → List GNode × List GNode)
    (ctx : CustomRnnContext) (st : RwState) : RewriterResult × RwState :=
  match cutOffConnectionForCell ctx st with
  | (.error _, st1) => (.fail, st1)
  | (.ok toRemove, st1) =>
    let st2 := removeCutNodes toRemove st1
    match composeCellInputsAndOutputs ctx st2 with
    | (.error _, st3) => (.fail, st3)
    | (.ok (props, nodesToAppend, ctx2), st3) =>
      match createScanNode props st3 with
      | (.error _, st4) => (.fail, st4)
      | (.ok scanNode, st4) =>
        let nodesToAppend := nodesToAppend ++ [scanNode]
        match extractAndRegisterCellGraphInfo findSub props scanNode st4 with
        | (.error _, st5) => (.fail, handlerPop scanNode st5)
        | (.ok _, st5) =>
          match connectScanWithOutput ctx2 scanNode st5 with
          | (.error _, st6) => (.fail, handlerPop scanNode st6)
          | (.ok toAppend, st6) =>
            (.ok, appendNodes (nodesToAppend ++ toAppend) st6)

/-- The constant-separation loop of `CustomRnnLateRewriter.rewrite`: each
`Const`/`ConstV2` node inside the body becomes a body-graph initializer,
looked up in the parent's initializer table
(`self.g.initializers[n.output[0]]` raises `KeyError` when absent). -/
def bodyInitsFold (constNodes : List GNode) (acc : List (EId × InitVal))
    (st : RwState) : RwM (List (EId × InitVal)) :=
  match constNodes with
  | [] => (.ok acc, st)
  | n :: rest =>
    match st.g.initializers.lookup (out0 n) with
    | none => (.error "KeyError: initializer not found", st)
    | some v => bodyInitsFold rest (acc ++ [(out0 n, v)]) st

/-- The body-input loop of `CustomRnnLateRewriter.rewrite`: derive each
declared boundary input's externally visible shape.  The body graph
shares the parent's shape/dtype tables, so the lookup falls back to the
corresponding initial-value input's recorded shape; scan-input boundary
edges (index `≥ input_count - num_scan_inputs`) additionally strip the
leading `[1, time]` axes.  A missing fallback shape raises. -/
def prepareBodyInputsFold (inputCount numScanInputs i : Nat)
    (pairs : List (EId × EId)) (acc : List (EId × Shape)) (st : RwState) :
    RwM (List (EId × Shape)) :=
  match pairs with
  | [] => (.ok acc, st)
  | (inputName, initInputId) :: rest =>
    let loopShape : Except String Shape :=
      match getSh inputName st with
      | some s => .ok s
      | none =>
        match getSh initInputId st with
        | none => .error "TypeError: NoneType is not iterable"
        | some s2 =>
          if inputCount - numScanInputs ≤ i then .ok (s2.drop 2) else .ok s2
    match loopShape with
    | .error e => (.error e, st)
    | .ok ls =>
      prepareBodyInputsFold inputCount numScanInputs (i + 1) rest
        (acc ++ [(inputName, ls)]) st

/-- The body-output loop of `CustomRnnLateRewriter.rewrite`: for **every**
declared boundary output an `Identity` pass-through node with a fresh
name is created, the output's dtype/shape are copied onto the `Identity`
output, and the renamed edge becomes the body graph's output. -/
def prepareBodyOutputsFold (outputIds : List EId) (accNodes : List GNode)
    (accNames : List EId) (st : RwState) : List GNode × List EId × RwState :=
  match outputIds with
  | [] => (accNodes, accNames, st)
  | o :: rest =>
    let identityName := EId.fr st.ctr
    let identityOutput := EId.fr (st.ctr + 1)
    let st := { st with ctr := st.ctr + 2 }
    let node : GNode :=
      { name := identityName, type := "Identity", input := [o],
        output := [identityOutput] }
    let st := setDt identityOutput (getDt o st) st
    let st := setSh identityOutput (getSh o st) st
    prepareBodyOutputsFold rest (accNodes ++ [node]) (accNames ++ [identityOutput]) st

/-- One `Scan` node's processing inside `CustomRnnLateRewriter.rewrite`:
read the `num_scan_inputs` attribute, skip the node when no boundary is
registered, otherwise pop (consume) the boundary metadata, collect the
enclosed nodes for removal, split constants into body initializers,
derive body input shapes, rename every body output through an `Identity`
node, and attach the finished body metadata as the node's `body`
attribute.  Returns the enclosed nodes (the node's contribution to the
removal list, collected before constant separation). -/
def processScanNode (findSub : SubGraphMeta → GGraph → List GNode × List GNode)
    (scanNode : GNode) (st : RwState) : RwM (List GNode) :=
  match scanNode.numScanInputs with
  | none => (.error "AttributeError: get_attr num_scan_inputs", st)
  | some numScanInputs =>
    if ¬ hasBodyGraphInfo scanNode.name st then (.ok [], st)
    else
      match popBodyGraphInfo scanNode.name st with
      | (.error e, st') => (.error e, st')
      | (.ok meta, st) =>
        let onnxNodes := (findSub meta st.g).1
        let constNodes := onnxNodes.filter
          (fun n => n.type = "Const" ∨ n.type = "ConstV2")
        match bodyInitsFold constNodes [] st with
        | (.error e, st') => (.error e, st')
        | (.ok bodyInits, st) =>
          let bodyNodes := (onnxNodes.filter
            (fun n => ¬ (n.type = "Const" ∨ n.type = "ConstV2"))).dedup
          match prepareBodyInputsFold meta.input_ids.length numScanInputs 0
              (meta.input_ids.zip meta.initial_input_ids) [] st with
          | (.error e, st') => (.error e, st')
          | (.ok inputShapes, st) =>
            let (idNodes, newOutputNames, st) :=
              prepareBodyOutputsFold meta.output_ids [] [] st
            let bodyAttr : BodyGraphAttr :=
              { inputNames := meta.input_ids, inputShapes := inputShapes,
                outputNames := newOutputNames,
                nodeNames := (bodyNodes ++ idNodes).map (fun n => n.name),
                initKeys := bodyInits.map (fun p => p.1) }
            let st := { st with g := { st.g with
              nodes := st.g.nodes.map (fun n =>
                if n.name = scanNode.name then { n with body := some bodyAttr }
                else n) } }
            (.ok onnxNodes, st)

/-- The operator loop of `CustomRnnLateRewriter.rewrite` over the node
list captured at entry: non-`Scan` nodes are skipped; each `Scan` node's
contribution is appended to the removal list. -/
def scanPhaseFold (findSub : SubGraphMeta → GGraph → List GNode × List GNode)
    (nodes : List GNode) (acc : List GNode) (st : RwState) : RwM (List GNode) :=
  match nodes with
  | [] => (.ok acc, st)
  | n :: rest =>
    if n.type ≠ "Scan" then scanPhaseFold findSub rest acc st
    else
      match processScanNode findSub n st with
      | (.error e, st') => (.error e, st')
      | (.ok contrib, st') => scanPhaseFold findSub rest (acc ++ contrib) st'

/-- The operator loop of `CustomRnnLateRewriter.rewrite` started on the
graph's node list. -/
def scanPhase (findSub : SubGraphMeta → GGraph → List GNode × List GNode)
    (st : RwState) : RwM (List GNode) :=
  scanPhaseFold findSub st.g.nodes [] st

/-- The removal loop of `CustomRnnLateRewriter.rewrite`: each consumed
node must be found in the live node list (and is removed) or in the
initializer table (and is deleted); a node in neither place raises the
consistency `ValueError`, aborting the pass. -/
def removeNodesFold (toRemove : List GNode) (st : RwState) : RwM Unit :=
  match toRemove with
  | [] => (.ok (), st)
  | n :: rest =>
    if st.g.nodes.any (fun m => m.name = n.name) then
      removeNodesFold rest { st with g := { st.g with
        nodes := st.g.nodes.eraseP (fun m => m.name = n.name) } }
    else if isInitializerG st.g (out0 n) then
      removeNodesFold rest { st with g := { st.g with
        initializers := st.g.initializers.eraseP (fun p => p.1 = out0 n) } }
    else
      (.error "ValueError: error when removing nodes", st)

/-- `CustomRnnLateRewriter.rewrite`: process every `Scan` node of the
graph, then purge the parent graph of every consumed node (the removal
loop iterates the de-duplicated removal list, `for n in
set(nodes_to_remove)`), returning the surviving node list. -/
def lateRewrite (findSub : SubGraphMeta → GGraph → List GNode × List GNode)
    (st : RwState) : RwM (List GNode) :=
  match scanPhase findSub st with
  | (.error e, st') => (.error e, st')
  | (.ok toRemove, st) =>
    match removeNodesFold toRemove.dedup st with
    | (.error e, st') => (.error e, st')
    | (.ok _, st) => (.ok st.g.nodes, st)

/-- `edgeLtB e c`: edge `e` predates counter value `c` — source-string
edges always do, fresh edges exactly when their index is below `c`.
Name allocations performed at counter values `≥ c` never produce such an
edge, so writes to freshly allocated edges leave these edges' recorded
shapes and dtypes untouched. -/
def edgeLtB (e : EId) (c : Nat) : Bool :=
  match e with
  | .str _ => true
  | .fr m => m < c

/-- The composition-then-synthesis segment of `rewrite` (spec 4.3 then
4.4): exactly the calls `_compose_cell_inputs_and_outputs` followed by
`_create_scan_node`, in the order `rewrite` performs them.  Every
successful rewrite runs this segment successfully on the graph state left
by cell isolation. -/
def composeAndCreate (ctx : CustomRnnContext) (st : RwState) :
    RwM (GNode × ScanProperties × List GNode × CustomRnnContext) :=
  match composeCellInputsAndOutputs ctx st with
  | (.error e, st') => (.error e, st')
  | (.ok (props, ns, ctx'), st) =>
    match createScanNode props st with
    | (.error e, st') => (.error e, st')
    | (.ok scan, st) => (.ok (scan, props, ns, ctx'), st)

deriving instance DecidableEq for Except

/-! ## Concrete test fixtures -/

/-- The empty session state. -/
def emptyState : RwState :=
  { g := { nodes := [], shapes := [], dtypes := [], initializers := [] },
    ctr := 0, registry := [] }

/-- C2 fixture: a single plain-state loop variable whose enter input is a
plain constant (not the time variable). -/
def lvC2 : LoopVar :=
  { enter_name := "rnn/while/Enter", enter_input_id := .str "x",
    next_iteration_input_id := .str "x_next",
    switch_true_identity_output_id := .str "x_cur" }

def ctxC2 : CustomRnnContext :=
  { while_context_scope := "rnn/while/",
    loop_variables := [("rnn/while/Enter", lvC2)] }

def stC2 : RwState :=
  { g := { nodes := [{ name := .str "x", type := "Const", input := [],
                       output := [.str "x"] }],
           shapes := [(.str "x", some [3])], dtypes := [(.str "x", some 1)],
           initializers := [] },
    ctr := 0, registry := [] }

/-- C9 fixture: a loop whose only variable is the time variable; the loop
has no array accumulators, so classification rejects it, yet the time
variable has already been recorded in the context. -/
def lvC9 : LoopVar :=
  { enter_name := "rnn/while/Enter", enter_input_id := .str "rnn/time",
    next_iteration_input_id := .str "t_next",
    switch_true_identity_output_id := .str "t_cur" }

def ctxC9 : CustomRnnContext :=
  { while_context_scope := "rnn/while/",
    loop_variables := [("rnn/while/Enter", lvC9)] }

def ndC9 : GNode :=
  { name := .str "rnn/time", type := "Enter", input := [],
    output := [.str "rnn/time"] }

def stC9 : RwState :=
  { g := { nodes := [ndC9], shapes := [], dtypes := [], initializers := [] },
    ctr := 0, registry := [] }

/-- C10 fixture: a dynamic_rnn-shaped loop with a time variable and a
tensor-array variable whose exit edge is consumed only by an `Add` (no
tensor-array gather). -/
def lvTimeC10 : LoopVar :=
  { enter_name := "rnn/while/Enter", enter_input_id := .str "rnn/time",
    next_iteration_input_id := .str "t_next",
    switch_true_identity_output_id := .str "t_cur" }

def lvTaC10 : LoopVar :=
  { enter_name := "rnn/while/Enter_1", enter_input_id := .str "ta_enter_in",
    next_iteration_input_id := .str "ta_next",
    switch_true_identity_output_id := .str "ta_cur",
    exit_output_id := some (.str "exit0"),
    is_tensor_array := true, ta_index_id := .str "idx" }

def ctxC10 : CustomRnnContext :=
  { while_context_scope := "rnn/while/",
    loop_variables := [("rnn/while/Enter", lvTimeC10),
                       ("rnn/while/Enter_1", lvTaC10)] }

def stC10 : RwState :=
  { g := { nodes :=
      [{ name := .str "rnn/time", type := "Enter", input := [],
         output := [.str "rnn/time"] },
       { name := .str "ta_enter_in", type := "TensorArrayV3", input := [],
         output := [.str "ta_enter_in"],
         tensorArrayName := some "rnn/dynamic_rnn/output_0" },
       { name := .str "post", type := "Add", input := [.str "exit0"],
         output := [.str "post:0"] }],
           shapes := [], dtypes := [], initializers := [] },
    ctr := 0, registry := [] }

/-- The classified context `_parse_rnn_loop` produces on the C10 fixture. -/
def parsedC10 : CustomRnnContext :=
  { while_context_scope := "rnn/while/",
    loop_variables := [("rnn/while/Enter", lvTimeC10),
                       ("rnn/while/Enter_1", lvTaC10)],
    rnn_scope := some "rnn/", time_var := some lvTimeC10 }

/-- C6 fixture: one registered Scan node whose body walk reports a node
that is neither live nor an initializer. -/
def scanC6 : GNode :=
  { name := .str "s", type := "Scan", input := [], output := [.str "s:0"],
    numScanInputs := some 0 }

def ghostC6 : GNode :=
  { name := .str "ghost", type := "Add", input := [], output := [.str "ghost:0"] }

def metaC6 : SubGraphMeta :=
  { input_ids := [], output_ids := [], initial_input_ids := [] }

def stC6 : RwState :=
  { g := { nodes := [scanC6], shapes := [], dtypes := [], initializers := [] },
    ctr := 0, registry := [(.str "s", metaC6)] }

def findSubC6 : SubGraphMeta → GGraph → List GNode × List GNode :=
  fun _ _ => ([ghostC6], [])

/-- C7 fixture: one registered Scan node with an empty body walk, so the
late pass succeeds and drains the registry. -/
def scanC7 : GNode :=
  { name := .str "s", type := "Scan", input := [], output := [.str "s:0"],
    numScanInputs := some 0 }

def metaC7 : SubGraphMeta :=
  { input_ids := [], output_ids := [], initial_input_ids := [] }

def stC7 : RwState :=
  { g := { nodes := [scanC7], shapes := [], dtypes := [], initializers := [] },
    ctr := 0, registry := [(.str "s", metaC7)] }

def findSubC7 : SubGraphMeta → GGraph → List GNode × List GNode :=
  fun _ _ => ([], [])

/-- The state after the first (successful) late-pass run on the C7
fixture. -/
def c7out : RwState := (lateRewrite findSubC7 stC7).2

/-- C5 fixture: a rewrite attempt failing at the very first step
(`context.time_var` is `None`, so cell isolation raises). -/
def ctxC5 : CustomRnnContext :=
  { while_context_scope := "rnn/while/", loop_variables := [] }

def findSubC5 : SubGraphMeta → GGraph → List GNode × List GNode :=
  fun _ _ => ([], [])

/-- C1 fixture: two remaining state variables with different shapes
(`s1 : [2]`, `s2 : [3,4]`) behind the time variable. -/
def propsC1 : ScanProperties :=
  { initial_state_and_scan_inputs := [.str "t", .str "s1", .str "s2"],
    loop_state_inputs := [.str "t_cur", .str "s1_cur", .str "s2_cur"],
    loop_state_outputs := [.str "t_next", .str "s1_next", .str "s2_next"],
    loop_scan_inputs := [], loop_scan_outputs := [] }

def stC1 : RwState :=
  { g := { nodes := [],
           shapes := [(.str "t", some [1, 1]), (.str "s1", some [2]),
                      (.str "s2", some [3, 4])],
           dtypes := [(.str "t", some 6), (.str "s1", some 1),
                      (.str "s2", some 1)],
           initializers := [] },
    ctr := 0, registry := [] }

/-- The run of Scan-node synthesis on the C1 fixture. -/
def c1run : RwM GNode := createScanNode propsC1 stC1

/-- The scan node synthesized on the C1 fixture. -/
def scanC1 : GNode :=
  { name := .fr 0, type := "Scan",
    input := [.str "", .str "t", .str "s1", .str "s2"],
    output := [.fr 1, .fr 2, .fr 3], numScanInputs := some 0 }

/-- C3/C4 fixture: a scalar time variable, one array input
(`in_data : [5,3]`) and one array output (`out_data : [7]`). -/
def tvC3 : LoopVar :=
  { enter_name := "rnn/while/Enter", enter_input_id := .str "t",
    next_iteration_input_id := .str "t_next",
    switch_true_identity_output_id := .str "t_cur" }

def ctxC3 : CustomRnnContext :=
  { while_context_scope := "rnn/while/", loop_variables := [],
    rnn_scope := some "rnn/",
    time_var := some tvC3,
    input_tas := [{ index_input_id := .str "i", data_input_id := .str "in_data",
                    output_id := some (.str "in_read") }],
    output_tas := [{ index_input_id := .str "j", data_input_id := .str "out_data",
                     output_id := some (.str "out_gather") }] }

def stC3 : RwState :=
  { g := { nodes := [],
           shapes := [(.str "t", some []), (.str "t_next", some []),
                      (.str "t_cur", some []),
                      (.str "in_data", some [5, 3]), (.str "in_read", some [3]),
                      (.str "out_data", some [7])],
           dtypes := [(.str "t", some 6), (.str "t_next", some 6),
                      (.str "t_cur", some 6),
                      (.str "in_data", some 1), (.str "in_read", some 1),
                      (.str "out_data", some 1)],
           initializers := [] },
    ctr := 0, registry := [] }

/-- The run of composition followed by synthesis on the C3 fixture. -/
def c3run : RwM (GNode × ScanProperties × List GNode × CustomRnnContext) :=
  composeAndCreate ctxC3 stC3

/-- The Scan node synthesized on the C3/C4 fixture. -/
def c3scan : GNode :=
  match c3run.1 with
  | .ok q => q.1
  | .error _ => defGNode

/-- The manifest composed on the C3/C4 fixture. -/
def c3props : ScanProperties :=
  match c3run.1 with
  | .ok q => q.2.1
  | .error _ => ⟨[], [], [], [], []⟩

/-- The nodes created on the C3/C4 fixture. -/
def c3nodes : List GNode :=
  match c3run.1 with
  | .ok q => q.2.2.1
  | .error _ => []

/-- The rewritten context returned on the C3/C4 fixture. -/
def c3ctx : CustomRnnContext :=
  match c3run.1 with
  | .ok q => q.2.2.2
  | .error _ => ctxC3

/-- The single output accumulator of the C3/C4 fixture. -/
def taC3 : TensorArrayProp :=
  { index_input_id := .str "j", data_input_id := .str "out_data",
    output_id := some (.str "out_gather") }

/-! ## Helper lemmas -/

theorem lookup_eq_none_of_forall {β : Type} (l : List (EId × β)) (e : EId)
    (h : ∀ p ∈ l, p.1 ≠ e) : l.lookup e = none := by
  induction l with
  | nil => rfl
  | cons p rest ih =>
    have hp : (e == p.1) = false := by
      simp only [beq_eq_false_iff_ne, ne_eq]
      exact fun hc => h p (List.mem_cons_self p rest) hc.symm
    simp only [List.lookup, hp]
    exact ih (fun q hq => h q (List.mem_cons_of_mem _ hq))

theorem forall_of_lookup_eq_none {β : Type} (l : List (EId × β)) (e : EId)
    (h : l.lookup e = none) : ∀ p ∈ l, p.1 ≠ e := by
  induction l with
  | nil => simp
  | cons p rest ih =>
    intro q hq
    have hsplit : (e == p.1) = true ∨ (e == p.1) = false := by
      cases (e == p.1) <;> simp
    rcases hsplit with hb | hb
    · simp [List.lookup, hb] at h
    · have h' : rest.lookup e = none := by
        simpa [List.lookup, hb] using h
      rcases List.mem_cons.mp hq with rfl | hq'
      · intro hc; simp [hc] at hb
      · exact ih h' q hq'

/-- Entries of an `eraseP` result are entries of the original list. -/
theorem mem_of_mem_eraseP {α : Type} (l : List α) (p : α → Bool) (a : α)
    (h : a ∈ l.eraseP p) : a ∈ l :=
  (List.eraseP_sublist l).mem h

/-! ## Claim C8: body-output renaming in the deferred pass -/

/-- Characterization of the body-output loop: the produced node list is
the accumulator followed by one fresh `Identity` node per declared
boundary output (reading exactly that output), and one renamed output
name is produced per declared output. -/
theorem prepareBodyOutputsFold_spec (outputIds : List EId) (accNodes : List GNode)
    (accNames : List EId) (st : RwState) :
    ((prepareBodyOutputsFold outputIds accNodes accNames st).1.map
        (fun n => (n.type, n.input))
      = accNodes.map (fun n => (n.type, n.input))
          ++ outputIds.map (fun o => ("Identity", [o])))
    ∧ (prepareBodyOutputsFold outputIds accNodes accNames st).2.1.length
        = accNames.length + outputIds.length := by
  induction outputIds generalizing accNodes accNames st with
  | nil => simp [prepareBodyOutputsFold]
  | cons o rest ih =>
    simp only [prepareBodyOutputsFold]
    refine ⟨?_, ?_⟩
    · rw [(ih _ _ _).1]
      simp
    · rw [(ih _ _ _).2]
      simp only [List.length_append, List.length_cons, List.length_nil]
      omega

/-- C8 — corrected claim, proved: during deferred body extraction a
pass-through renaming (`Identity`) node is inserted for **every** declared
boundary output, unconditionally — one `Identity` reading each output, in
order — and every boundary output is exposed through a fresh renamed
edge, whether or not its edge name appears more than once. -/
theorem c8_theorem (outputIds : List EId) (st : RwState) :
    ((prepareBodyOutputsFold outputIds [] [] st).1.map (fun n => (n.type, n.input))
      = outputIds.map (fun o => ("Identity", [o])))
    ∧ (prepareBodyOutputsFold outputIds [] [] st).2.1.length = outputIds.length := by
  have h := prepareBodyOutputsFold_spec outputIds [] [] st
  simpa using h

/-- C8 — counterexample to the claim as stated: for the single boundary
output `"a"`, whose name is unique among the body outputs
(`List.Nodup`), the pass still inserts one renaming `Identity` node and
exposes a fresh renamed edge instead of exposing `"a"` directly. -/
theorem c8_counterexample :
    List.Nodup [EId.str "a"]
    ∧ (prepareBodyOutputsFold [EId.str "a"] [] [] emptyState).1.map (fun n => n.type)
        = ["Identity"]
    ∧ (prepareBodyOutputsFold [EId.str "a"] [] [] emptyState).2.1 = [EId.fr 1]
    ∧ [EId.fr 1] ≠ [EId.str "a"] := by
  refine ⟨?_, ?_, ?_, ?_⟩ <;> decide

/-- The removal loop of the deferred pass raises the consistency error as
soon as it reaches a node that is neither live nor an initializer; nodes
processed earlier only shrink the live set and the initializer table, so
a node absent from both at entry stays absent. -/
theorem removeNodesFold_error (toRemove : List GNode) (st : RwState) (n : GNode)
    (hn : n ∈ toRemove)
    (hlive : ∀ m ∈ st.g.nodes, m.name ≠ n.name)
    (hinit : ∀ p ∈ st.g.initializers, p.1 ≠ out0 n) :
    (removeNodesFold toRemove st).1 = .error "ValueError: error when removing nodes" := by
  induction toRemove generalizing st with
  | nil => cases hn
  | cons h0 rest ih =>
    rcases List.mem_cons.mp hn with rfl | hn'
    · have h1 : st.g.nodes.any (fun m => m.name = n.name) = false := by
        simp only [List.any_eq_false, decide_eq_true_eq]
        exact fun m hm => by simpa using hlive m hm
      have h2 : isInitializerG st.g (out0 n) = false := by
        simp [isInitializerG, lookup_eq_none_of_forall _ _ hinit]
      simp [removeNodesFold, h1, h2]
    · by_cases hb : st.g.nodes.any (fun m => m.name = h0.name) = true
      · have hgoal := ih { st with g := { st.g with
          nodes := st.g.nodes.eraseP (fun m => m.name = h0.name) } }
          hn' (fun m hm => hlive m (mem_of_mem_eraseP _ _ _ hm)) hinit
        simpa [removeNodesFold, hb] using hgoal
      · by_cases hb2 : isInitializerG st.g (out0 h0) = true
        · have hgoal := ih { st with g := { st.g with
            initializers := st.g.initializers.eraseP (fun p => p.1 = out0 h0) } }
            hn' hlive (fun p hp => hinit p (mem_of_mem_eraseP _ _ _ hp))
          simpa [removeNodesFold, hb, hb2] using hgoal
        · simp [removeNodesFold, hb, hb2]

/-- C6 — confirmed: when the operator loop of the deferred pass has
finished (every operator already processed) and its accumulated removal
list contains a node that is neither in the live node set nor in the
initializer table, the whole pass fails with the designated consistency
`ValueError`; the raise aborts the remaining removals, and no operator
processing follows it (removal runs strictly after the operator loop). -/
theorem c6_theorem (findSub : SubGraphMeta → GGraph → List GNode × List GNode)
    (st st1 : RwState) (L : List GNode) (n : GNode)
    (hscan : scanPhase findSub st = (.ok L, st1))
    (hn : n ∈ L)
    (hlive : ∀ m ∈ st1.g.nodes, m.name ≠ n.name)
    (hinit : ∀ p ∈ st1.g.initializers, p.1 ≠ out0 n) :
    (lateRewrite findSub st).1 = .error "ValueError: error when removing nodes" := by
  have herr := removeNodesFold_error L.dedup st1 n (List.mem_dedup.mpr hn) hlive hinit
  unfold lateRewrite
  rw [hscan]
  dsimp only
  rcases hrm : removeNodesFold L.dedup st1 with ⟨res, st2⟩
  rw [hrm] at herr
  cases res with
  | error e => simpa using herr
  | ok v => simp at herr

/-- C6 — witness: the concrete fixture's pass fails with the consistency
error. -/
theorem c6_witness :
    (lateRewrite findSubC6 stC6).1 = .error "ValueError: error when removing nodes" :=
  c6_theorem findSubC6 stC6 (scanPhase findSubC6 stC6).2 [ghostC6] ghostC6
    (by rfl) (by decide) (by decide) (by decide)

/-- The constant-separation loop never mutates the session state. -/
theorem bodyInitsFold_state (cs : List GNode) (acc : List (EId × InitVal))
    (st : RwState) : (bodyInitsFold cs acc st).2 = st := by
  induction cs generalizing acc with
  | nil => rfl
  | cons c rest ih =>
    unfold bodyInitsFold
    cases h : st.g.initializers.lookup (out0 c) with
    | none => rfl
    | some v => exact ih (acc ++ [(out0 c, v)])

/-- The body-input loop never mutates the session state. -/
theorem prepareBodyInputsFold_state (a b i : Nat) (pairs : List (EId × EId))
    (acc : List (EId × Shape)) (st : RwState) :
    (prepareBodyInputsFold a b i pairs acc st).2 = st := by
  induction pairs generalizing i acc with
  | nil => rfl
  | cons p rest ih =>
    unfold prepareBodyInputsFold
    rcases p with ⟨inputName, initId⟩
    cases h1 : getSh inputName st with
    | some s => exact ih (i + 1) (acc ++ [(inputName, s)])
    | none =>
      cases h2 : getSh initId st with
      | none => rfl
      | some s2 =>
        by_cases hc : a - b ≤ i
        · simp only [hc, if_true]
          exact ih (i + 1) (acc ++ [(inputName, s2.drop 2)])
        · simp only [hc, if_false]
          exact ih (i + 1) (acc ++ [(inputName, s2)])

/-- The body-output loop touches only the counter and the shape/dtype
tables. -/
theorem prepareBodyOutputsFold_frame (outs : List EId) (aN : List GNode)
    (aM : List EId) (st : RwState) :
    (prepareBodyOutputsFold outs aN aM st).2.2.registry = st.registry
    ∧ (prepareBodyOutputsFold outs aN aM st).2.2.g.nodes = st.g.nodes
    ∧ (prepareBodyOutputsFold outs aN aM st).2.2.g.initializers = st.g.initializers := by
  induction outs generalizing aN aM st with
  | nil => exact ⟨rfl, rfl, rfl⟩
  | cons o rest ih =>
    unfold prepareBodyOutputsFold
    exact ih _ _ _

/-- After erasing the (unique, by `Nodup`) entry for a key, the key is
absent. -/
theorem lookup_eraseP_none {β : Type} (l : List (EId × β)) (k : EId)
    (hnd : (l.map Prod.fst).Nodup) :
    (l.eraseP (fun p => p.1 = k)).lookup k = none := by
  apply lookup_eq_none_of_forall
  induction l with
  | nil => simp
  | cons q rest ih =>
    by_cases hq : q.1 = k
    · rw [List.eraseP_cons_of_pos]
      · intro p hp hpk
        have hmem : k ∈ rest.map Prod.fst := by
          exact List.mem_map.mpr ⟨p, hp, hpk⟩
        rw [List.map_cons] at hnd
        rw [hq] at hnd
        exact (List.nodup_cons.mp hnd).1 hmem
      · simpa using hq
    · rw [List.eraseP_cons_of_neg]
      · intro p hp
        rcases List.mem_cons.mp hp with rfl | hp'
        · exact hq
        · rw [List.map_cons] at hnd
          exact ih (List.nodup_cons.mp hnd).2 p hp'
      · simpa using hq

/-- A key absent from an association list is absent after any `eraseP`. -/
theorem lookup_eraseP_none_of_none {β : Type} (l : List (EId × β))
    (p : EId × β → Bool) (k : EId) (h : l.lookup k = none) :
    (l.eraseP p).lookup k = none :=
  lookup_eq_none_of_forall _ _
    (fun q hq => forall_of_lookup_eq_none _ _ h q (mem_of_mem_eraseP _ _ _ hq))

/-- Key `Nodup` survives `eraseP`. -/
theorem keysNodup_eraseP {β : Type} (l : List (EId × β)) (p : EId × β → Bool)
    (hnd : (l.map Prod.fst).Nodup) :
    ((l.eraseP p).map Prod.fst).Nodup :=
  hnd.sublist ((List.eraseP_sublist l).map Prod.fst)

/-- When a boundary is registered, popping returns it and erases exactly
its entry. -/
theorem popBodyGraphInfo_ok (k : EId) (st : RwState)
    (hhas : hasBodyGraphInfo k st = true) :
    ∃ m, st.registry.lookup k = some m
      ∧ popBodyGraphInfo k st
          = (.ok m, { st with registry := st.registry.eraseP (fun p => p.1 = k) }) := by
  unfold hasBodyGraphInfo at hhas
  cases hlk : st.registry.lookup k with
  | none => rw [hlk] at hhas; simp at hhas
  | some m =>
    refine ⟨m, rfl, ?_⟩
    unfold popBodyGraphInfo
    rw [hlk]

/-- Per-operator facts of the deferred pass: a successfully processed
`Scan` node has the `num_scan_inputs` attribute; the node list changes
only by attaching the `body` attribute (names, types and attributes are
preserved up to `body`); and the registry is either untouched (with the
node's key already absent) or loses exactly that node's entry. -/
theorem processScanNode_ok (findSub : SubGraphMeta → GGraph → List GNode × List GNode)
    (scan : GNode) (st : RwState) (r : List GNode) (st' : RwState)
    (h : processScanNode findSub scan st = (.ok r, st')) :
    scan.numScanInputs.isSome = true
    ∧ (∀ n' ∈ st'.g.nodes, ∃ n ∈ st.g.nodes,
        n.name = n'.name ∧ n.type = n'.type ∧ n.numScanInputs = n'.numScanInputs)
    ∧ ((st'.registry = st.registry ∧ st.registry.lookup scan.name = none)
        ∨ st'.registry = st.registry.eraseP (fun p => p.1 = scan.name)) := by
  unfold processScanNode at h
  cases hns : scan.numScanInputs with
  | none => rw [hns] at h; simp at h
  | some k =>
    rw [hns] at h
    dsimp only at h
    by_cases hhas : hasBodyGraphInfo scan.name st = true
    · rw [if_neg (by simp [hhas])] at h
      obtain ⟨m, hlk, hpop⟩ := popBodyGraphInfo_ok scan.name st hhas
      rw [hpop] at h
      dsimp only at h
      generalize hSP : ({ st with
        registry := st.registry.eraseP (fun p => p.1 = scan.name) } : RwState) = stP at h
      have hSPg : stP.g = st.g := by rw [← hSP]
      have hSPreg : stP.registry = st.registry.eraseP (fun p => p.1 = scan.name) := by
        rw [← hSP]
      rcases hbi : bodyInitsFold ((findSub m st.g).1.filter
          (fun n => n.type = "Const" ∨ n.type = "ConstV2")) [] stP with ⟨bres, stB⟩
      have hstB := bodyInitsFold_state ((findSub m st.g).1.filter
          (fun n => n.type = "Const" ∨ n.type = "ConstV2")) [] stP
      rw [hbi] at h hstB
      dsimp only at hstB
      cases bres with
      | error e => simp at h
      | ok binits =>
        dsimp only at h
        rw [hstB] at h
        rcases hpi : prepareBodyInputsFold m.input_ids.length k 0
            (m.input_ids.zip m.initial_input_ids) [] stP with ⟨ires, stI⟩
        have hstI := prepareBodyInputsFold_state m.input_ids.length k 0
          (m.input_ids.zip m.initial_input_ids) [] stP
        rw [hpi] at h hstI
        dsimp only at hstI
        cases ires with
        | error e => simp at h
        | ok ishapes =>
          dsimp only at h
          rw [hstI] at h
          have hfr := prepareBodyOutputsFold_frame m.output_ids [] [] stP
          obtain ⟨hreg, hnodes, _⟩ := hfr
          obtain ⟨hr, hst'⟩ := Prod.mk.inj h
          refine ⟨by simp, ?_, ?_⟩
          · intro n' hn'
            rw [← hst'] at hn'
            dsimp only at hn'
            rw [hnodes, hSPg] at hn'
            rcases List.mem_map.mp hn' with ⟨n, hnmem, hfeq⟩
            refine ⟨n, hnmem, ?_⟩
            by_cases hb : n.name = scan.name
            · simp only [hb, if_true] at hfeq
              rw [← hfeq]
              exact ⟨hb, rfl, rfl⟩
            · simp only [hb, if_false] at hfeq
              rw [← hfeq]
              exact ⟨rfl, rfl, rfl⟩
          · right
            rw [← hst']
            dsimp only
            rw [hreg, hSPreg]
    · rw [if_pos (by simp [hhas])] at h
      obtain ⟨hr, hst'⟩ := Prod.mk.inj h
      refine ⟨by simp, ?_, ?_⟩
      · intro n' hn'
        rw [← hst'] at hn'
        exact ⟨n', hn', rfl, rfl, rfl⟩
      · left
        refine ⟨by rw [← hst'], ?_⟩
        simp only [Bool.not_eq_true] at hhas
        have hns2 : ¬ (List.lookup scan.name st.registry).isSome = true := by
          unfold hasBodyGraphInfo at hhas
          simp [hhas]
        exact Option.not_isSome_iff_eq_none.mp hns2

/-- Facts of the whole operator loop: node skeletons (name, type,
`num_scan_inputs`) are preserved, absent registry keys stay absent, key
`Nodup` is preserved, and every `Scan` node among the iterated nodes has
its attribute readable and its registry entry drained at the end. -/
theorem scanPhaseFold_ok (findSub : SubGraphMeta → GGraph → List GNode × List GNode)
    (ns : List GNode) (acc : List GNode) (st : RwState) (L : List GNode)
    (st1 : RwState)
    (h : scanPhaseFold findSub ns acc st = (.ok L, st1))
    (hnd : (st.registry.map Prod.fst).Nodup) :
    (∀ n' ∈ st1.g.nodes, ∃ n ∈ st.g.nodes,
        n.name = n'.name ∧ n.type = n'.type ∧ n.numScanInputs = n'.numScanInputs)
    ∧ (∀ k, st.registry.lookup k = none → st1.registry.lookup k = none)
    ∧ (st1.registry.map Prod.fst).Nodup
    ∧ (∀ n ∈ ns, n.type = "Scan" →
        n.numScanInputs.isSome = true ∧ st1.registry.lookup n.name = none) := by
  induction ns generalizing acc st with
  | nil =>
    obtain ⟨hL, hst⟩ := Prod.mk.inj h
    rw [← hst]
    exact ⟨fun n' hn' => ⟨n', hn', rfl, rfl, rfl⟩, fun k hk => hk, hnd, by simp⟩
  | cons n0 rest ih =>
    by_cases htype : n0.type = "Scan"
    · have hne : ¬ (n0.type ≠ "Scan") := by simp [htype]
      unfold scanPhaseFold at h
      rw [if_neg hne] at h
      rcases hps : processScanNode findSub n0 st with ⟨pres, stMid⟩
      rw [hps] at h
      cases pres with
      | error e => simp at h
      | ok contrib =>
        dsimp only at h
        obtain ⟨hattr, hnodes1, hreg1⟩ := processScanNode_ok findSub n0 st contrib stMid hps
        have hndMid : (stMid.registry.map Prod.fst).Nodup := by
          rcases hreg1 with ⟨heq, _⟩ | heq
          · rw [heq]; exact hnd
          · rw [heq]; exact keysNodup_eraseP _ _ hnd
        have hnoneMid : ∀ k, st.registry.lookup k = none → stMid.registry.lookup k = none := by
          intro k hk
          rcases hreg1 with ⟨heq, _⟩ | heq
          · rw [heq]; exact hk
          · rw [heq]; exact lookup_eraseP_none_of_none _ _ _ hk
        have hdrained : stMid.registry.lookup n0.name = none := by
          rcases hreg1 with ⟨heq, hnone⟩ | heq
          · rw [heq]; exact hnone
          · rw [heq]; exact lookup_eraseP_none _ _ hnd
        obtain ⟨ihnodes, ihnone, ihnd, ihscan⟩ := ih (acc ++ contrib) stMid h hndMid
        refine ⟨?_, ?_, ihnd, ?_⟩
        · intro n' hn'
          obtain ⟨nm, hnm, e1, e2, e3⟩ := ihnodes n' hn'
          obtain ⟨n, hn, f1, f2, f3⟩ := hnodes1 nm hnm
          exact ⟨n, hn, f1.trans e1, f2.trans e2, f3.trans e3⟩
        · exact fun k hk => ihnone k (hnoneMid k hk)
        · intro n hn htype'
          rcases List.mem_cons.mp hn with rfl | hn'
          · exact ⟨hattr, ihnone n.name hdrained⟩
          · exact ihscan n hn' htype'
    · unfold scanPhaseFold at h
      rw [if_pos (by simpa using htype)] at h
      obtain ⟨ihnodes, ihnone, ihnd, ihscan⟩ := ih acc st h hnd
      refine ⟨ihnodes, ihnone, ihnd, ?_⟩
      intro n hn htype'
      rcases List.mem_cons.mp hn with rfl | hn'
      · exact absurd htype' htype
      · exact ihscan n hn' htype'

/-- The removal loop leaves the registry untouched and only removes
nodes. -/
theorem removeNodesFold_ok (toRemove : List GNode) (st : RwState) (r : Unit)
    (st2 : RwState) (h : removeNodesFold toRemove st = (.ok r, st2)) :
    st2.registry = st.registry ∧ (∀ n ∈ st2.g.nodes, n ∈ st.g.nodes) := by
  induction toRemove generalizing st with
  | nil =>
    obtain ⟨_, hst⟩ := Prod.mk.inj h
    rw [← hst]
    exact ⟨rfl, fun n hn => hn⟩
  | cons n0 rest ih =>
    unfold removeNodesFold at h
    by_cases hb : st.g.nodes.any (fun m => m.name = n0.name) = true
    · rw [if_pos hb] at h
      obtain ⟨hreg, hmem⟩ := ih _ h
      exact ⟨hreg, fun n hn => mem_of_mem_eraseP _ _ _ (hmem n hn)⟩
    · rw [if_neg hb] at h
      by_cases hb2 : isInitializerG st.g (out0 n0) = true
      · rw [if_pos hb2] at h
        obtain ⟨hreg, hmem⟩ := ih _ h
        exact ⟨hreg, hmem⟩
      · rw [if_neg hb2] at h
        simp at h

/-- When every `Scan` node among the iterated nodes has its attribute and
no registered boundary, the operator loop is a pure no-op. -/
theorem scanPhaseFold_noop (findSub : SubGraphMeta → GGraph → List GNode × List GNode)
    (ns : List GNode) (acc : List GNode) (st : RwState)
    (hcond : ∀ n ∈ ns, n.type = "Scan" →
      n.numScanInputs.isSome = true ∧ st.registry.lookup n.name = none) :
    scanPhaseFold findSub ns acc st = (.ok acc, st) := by
  induction ns generalizing acc with
  | nil => rfl
  | cons n0 rest ih =>
    by_cases htype : n0.type = "Scan"
    · obtain ⟨hattr, hnone⟩ := hcond n0 (List.mem_cons_self n0 rest) htype
      have hskip : processScanNode findSub n0 st = (.ok [], st) := by
        unfold processScanNode
        cases hns : n0.numScanInputs with
        | none => rw [hns] at hattr; simp at hattr
        | some k =>
          dsimp only
          rw [if_pos]
          simp only [hasBodyGraphInfo, hnone, Option.isSome_none]
          simp
      unfold scanPhaseFold
      rw [if_neg (by simp [htype]), hskip]
      dsimp only
      rw [List.append_nil]
      exact ih acc (fun n hn ht => hcond n (List.mem_cons_of_mem _ hn) ht)
    · unfold scanPhaseFold
      rw [if_pos (by simpa using htype)]
      exact ih acc (fun n hn ht => hcond n (List.mem_cons_of_mem _ hn) ht)

/-- C7 — confirmed: after a successful deferred pass (registry keys are
unique, as for a Python dict), the Boundary Registry holds no entry for
any `Scan` node remaining in the graph, and running the pass again on the
resulting state is a no-op returning the same graph and state (every
`Scan` node is skipped by the `has_body_graph_info` check). -/
theorem c7_theorem (findSub : SubGraphMeta → GGraph → List GNode × List GNode)
    (st : RwState) (ns : List GNode) (st' : RwState)
    (hrun : lateRewrite findSub st = (.ok ns, st'))
    (hnd : (st.registry.map Prod.fst).Nodup) :
    (∀ n ∈ st'.g.nodes, n.type = "Scan" → st'.registry.lookup n.name = none)
    ∧ lateRewrite findSub st' = (.ok st'.g.nodes, st') := by
  unfold lateRewrite at hrun
  rcases hsp : scanPhase findSub st with ⟨spres, st1⟩
  rw [hsp] at hrun
  cases spres with
  | error e => simp at hrun
  | ok L =>
    dsimp only at hrun
    rcases hrm : removeNodesFold L.dedup st1 with ⟨rmres, st2⟩
    rw [hrm] at hrun
    cases rmres with
    | error e => simp at hrun
    | ok u =>
      dsimp only at hrun
      obtain ⟨hns, hst'⟩ := Prod.mk.inj hrun
      obtain ⟨hnodes1, _, _, hscans⟩ :=
        scanPhaseFold_ok findSub st.g.nodes [] st L st1 hsp hnd
      obtain ⟨hreg2, hmem2⟩ := removeNodesFold_ok L.dedup st1 u st2 hrm
      have hdrained : ∀ n ∈ st'.g.nodes, n.type = "Scan" →
          st'.registry.lookup n.name = none := by
        intro n hn htype
        rw [← hst'] at hn ⊢
        obtain ⟨n0, hn0, e1, e2, e3⟩ := hnodes1 n (hmem2 n hn)
        rw [hreg2, ← e1]
        exact (hscans n0 hn0 (e2.trans htype)).2
      refine ⟨hdrained, ?_⟩
      have hcond : ∀ n ∈ st'.g.nodes, n.type = "Scan" →
          n.numScanInputs.isSome = true ∧ st'.registry.lookup n.name = none := by
        intro n hn htype
        refine ⟨?_, hdrained n hn htype⟩
        rw [← hst'] at hn
        obtain ⟨n0, hn0, e1, e2, e3⟩ := hnodes1 n (hmem2 n hn)
        rw [← e3]
        exact (hscans n0 hn0 (e2.trans htype)).1
      have hnoop := scanPhaseFold_noop findSub st'.g.nodes [] st' hcond
      unfold lateRewrite scanPhase
      rw [hnoop]
      rfl

/-- C7 — witness: the first run on the fixture drains the registry and
the second run is a no-op. -/
theorem c7_witness :
    (∀ n ∈ c7out.g.nodes, n.type = "Scan" → c7out.registry.lookup n.name = none)
    ∧ lateRewrite findSubC7 c7out = (.ok c7out.g.nodes, c7out) :=
  c7_theorem findSubC7 stC7 c7out.g.nodes c7out (by rfl) (by decide)

/-- Field-preservation invariant of the `_parse_rnn_loop` fold: the state
is never mutated, the loop-variable enumeration, tensor-array lists and
scopes are untouched, and once the time flag is raised the time variable
is recorded. -/
theorem parseRnnLoopFold_inv (tn tp inn : String) (vars : List (String × LoopVar))
    (acc : Bool × Bool × CustomRnnContext) (st : RwState)
    (r : Bool × Bool × CustomRnnContext) (st' : RwState)
    (h : parseRnnLoopFold tn tp inn vars acc st = (.ok r, st')) :
    st' = st
    ∧ r.2.2.loop_variables = acc.2.2.loop_variables
    ∧ r.2.2.input_tas = acc.2.2.input_tas
    ∧ r.2.2.output_tas = acc.2.2.output_tas
    ∧ r.2.2.rnn_scope = acc.2.2.rnn_scope
    ∧ r.2.2.while_context_scope = acc.2.2.while_context_scope
    ∧ ((acc.1 = true → acc.2.2.time_var.isSome = true) →
        r.1 = true → r.2.2.time_var.isSome = true) := by
  induction vars generalizing acc st with
  | nil =>
    obtain ⟨hr, hst⟩ := Prod.mk.inj h
    cases Except.ok.inj hr
    rw [← hst]
    exact ⟨rfl, rfl, rfl, rfl, rfl, rfl, fun hp => hp⟩
  | cons p rest ih =>
    obtain ⟨ft, ta, c⟩ := acc
    unfold parseRnnLoopFold parseRnnLoopStep at h
    dsimp only at h
    cases hn : getNodeByNameG st.g p.2.enter_input_id with
    | none => rw [hn] at h; simp at h
    | some node =>
      rw [hn] at h
      dsimp only at h
      by_cases hta : p.2.is_tensor_array = true
      · rw [if_pos hta] at h
        cases htan : node.tensorArrayName with
        | none => rw [htan] at h; simp at h
        | some taName =>
          rw [htan] at h
          dsimp only at h
          by_cases hsw : pyStartsWith taName tp = true
          · rw [if_neg (by simp [hsw])] at h
            exact ih _ _ h
          · rw [if_pos (by simp [hsw])] at h
            obtain ⟨e0, e1, e2, e3, e4, e5, e6⟩ := ih _ _ h
            exact ⟨e0, e1, e2, e3, e4, e5, fun hp => e6 (fun hft => hp hft)⟩
      · rw [if_neg hta] at h
        by_cases h1 : node.name.isStr tn = true
        · rw [if_pos h1] at h
          obtain ⟨e0, e1, e2, e3, e4, e5, e6⟩ := ih _ _ h
          exact ⟨e0, e1, e2, e3, e4, e5, fun _ => e6 (fun _ => rfl)⟩
        · rw [if_neg h1] at h
          by_cases h2 : node.name.isStr inn = true
          · rw [if_pos h2] at h
            obtain ⟨e0, e1, e2, e3, e4, e5, e6⟩ := ih _ _ h
            exact ⟨e0, e1, e2, e3, e4, e5, fun hp => e6 (fun hft => hp hft)⟩
          · rw [if_neg h2] at h
            obtain ⟨e0, e1, e2, e3, e4, e5, e6⟩ := ih _ _ h
            exact ⟨e0, e1, e2, e3, e4, e5, fun hp => e6 (fun hft => hp hft)⟩

/-- On a loop with no tensor-array variables whose enter inputs all
resolve, the `_parse_rnn_loop` fold terminates normally without touching
the state; the `is_rnn_out_ta` flag survives unchanged, a raised time
flag persists, and a variable whose enter node is the time node raises
the time flag. -/
theorem parseRnnLoopFold_noTa_run (tn tp inn : String)
    (vars : List (String × LoopVar)) (acc : Bool × Bool × CustomRnnContext)
    (st : RwState)
    (hnodes : ∀ p ∈ vars, (getNodeByNameG st.g p.2.enter_input_id).isSome = true)
    (hnoTa : ∀ p ∈ vars, p.2.is_tensor_array = false) :
    ∃ ft c, parseRnnLoopFold tn tp inn vars acc st = (.ok (ft, acc.2.1, c), st)
      ∧ ((acc.1 = true
          ∨ ∃ p ∈ vars, ∃ nd, getNodeByNameG st.g p.2.enter_input_id = some nd
              ∧ nd.name.isStr tn = true) → ft = true) := by
  induction vars generalizing acc with
  | nil =>
    exact ⟨acc.1, acc.2.2, rfl, by
      rintro (hft | ⟨p, hp, _⟩)
      · exact hft
      · cases hp⟩
  | cons p rest ih =>
    obtain ⟨ft, ta, c⟩ := acc
    have hnodesR : ∀ q ∈ rest, (getNodeByNameG st.g q.2.enter_input_id).isSome = true :=
      fun q hq => hnodes q (List.mem_cons_of_mem _ hq)
    have hnoTaR : ∀ q ∈ rest, q.2.is_tensor_array = false :=
      fun q hq => hnoTa q (List.mem_cons_of_mem _ hq)
    have hnp := hnodes p (List.mem_cons_self p rest)
    have htap := hnoTa p (List.mem_cons_self p rest)
    cases hn : getNodeByNameG st.g p.2.enter_input_id with
    | none => rw [hn] at hnp; simp at hnp
    | some node =>
      unfold parseRnnLoopFold parseRnnLoopStep
      dsimp only
      rw [hn]
      dsimp only
      rw [if_neg (by simp [htap])]
      by_cases h1 : node.name.isStr tn = true
      · rw [if_pos h1]
        obtain ⟨ft', c', hrun, himp⟩ :=
          ih (true, ta, { c with time_var := some p.2 }) hnodesR hnoTaR
        exact ⟨ft', c', hrun, fun _ => himp (Or.inl rfl)⟩
      · rw [if_neg h1]
        by_cases h2 : node.name.isStr inn = true
        · rw [if_pos h2]
          obtain ⟨ft', c', hrun, himp⟩ :=
            ih (ft, ta, { c with iteration_var := some p.2 }) hnodesR hnoTaR
          refine ⟨ft', c', hrun, ?_⟩
          rintro (hft | ⟨q, hq, nd, hnd, hstr⟩)
          · exact himp (Or.inl hft)
          · rcases List.mem_cons.mp hq with rfl | hq'
            · rw [hn] at hnd
              cases hnd
              exact absurd hstr h1
            · exact himp (Or.inr ⟨q, hq', nd, hnd, hstr⟩)
        · rw [if_neg h2]
          obtain ⟨ft', c', hrun, himp⟩ :=
            ih (ft, ta, { c with other_loop_vars := c.other_loop_vars ++ [p] })
              hnodesR hnoTaR
          refine ⟨ft', c', hrun, ?_⟩
          rintro (hft | ⟨q, hq, nd, hnd, hstr⟩)
          · exact himp (Or.inl hft)
          · rcases List.mem_cons.mp hq with rfl | hq'
            · rw [hn] at hnd
              cases hnd
              exact absurd hstr h1
            · exact himp (Or.inr ⟨q, hq', nd, hnd, hstr⟩)

/-- `_parse_rnn_loop` never mutates the state, preserves the enumeration,
tensor-array lists and scopes, and returns `True` only with the time
variable recorded. -/
theorem parseRnnLoop_inv (ctx : CustomRnnContext) (st : RwState)
    (r : Bool × CustomRnnContext) (st' : RwState)
    (h : parseRnnLoop ctx st = (.ok r, st')) :
    st' = st
    ∧ r.2.loop_variables = ctx.loop_variables
    ∧ r.2.input_tas = ctx.input_tas
    ∧ r.2.output_tas = ctx.output_tas
    ∧ r.2.rnn_scope = ctx.rnn_scope
    ∧ r.2.while_context_scope = ctx.while_context_scope
    ∧ (r.1 = true → r.2.time_var.isSome = true) := by
  unfold parseRnnLoop at h
  cases hsc : ctx.rnn_scope with
  | none => rw [hsc] at h; simp at h
  | some sc =>
    rw [hsc] at h
    dsimp only at h
    rcases hf : parseRnnLoopFold (sc ++ "time") (sc ++ "dynamic_rnn/output_")
        (ctx.while_context_scope ++ "iteration_counter") ctx.loop_variables
        (false, true, ctx) st with ⟨fres, stf⟩
    rw [hf] at h
    cases fres with
    | error e => simp at h
    | ok acc3 =>
      obtain ⟨ft, ta, c⟩ := acc3
      dsimp only at h
      obtain ⟨hr, hst⟩ := Prod.mk.inj h
      cases Except.ok.inj hr
      obtain ⟨e0, e1, e2, e3, e4, e5, e6⟩ := parseRnnLoopFold_inv _ _ _ _ _ _ _ _ hf
      rw [← hst]
      refine ⟨e0, e1, e2, e3, e4.trans hsc, e5, ?_⟩
      intro hb
      have hft : ft = true := by
        cases hft' : ft
        · rw [hft'] at hb; simp at hb
        · rfl
      exact e6 (fun hcontra => by simp at hcontra) hft

/-- The `_parse_output_ta` fold never mutates the state. -/
theorem parseOutputTaFold_state (vars : List (String × LoopVar))
    (c : CustomRnnContext) (st : RwState) :
    (parseOutputTaFold vars c st).2 = st := by
  induction vars generalizing c with
  | nil => rfl
  | cons p rest ih =>
    unfold parseOutputTaFold parseOutputTaStep
    by_cases hta : p.2.is_tensor_array = true
    · rw [if_neg (by simp [hta])]
      cases hex : p.2.exit_output_id with
      | none => exact ih _
      | some e =>
        dsimp only
        cases hfil : (findOutputConsumersG st.g e).filter isTensorArrayGatherOp with
        | nil => rfl
        | cons gn grest => exact ih _
    · rw [if_pos (by simp [hta])]
      exact ih _

/-- With no tensor-array loop variables, `_parse_output_ta` is the
identity on the context. -/
theorem parseOutputTaFold_noTa (vars : List (String × LoopVar))
    (c : CustomRnnContext) (st : RwState)
    (hnoTa : ∀ p ∈ vars, p.2.is_tensor_array = false) :
    parseOutputTaFold vars c st = (.ok c, st) := by
  induction vars generalizing c with
  | nil => rfl
  | cons p rest ih =>
    unfold parseOutputTaFold
    rw [if_pos (by simp [hnoTa p (List.mem_cons_self p rest)])]
    exact ih _ (fun q hq => hnoTa q (List.mem_cons_of_mem _ hq))

/-- A tensor-array loop variable whose exit edge has no
tensor-array-gather consumer makes `_parse_output_ta` raise the
`IndexError` (the only exception this function can raise, so whichever
variable is reached first, the fold's outcome is that error). -/
theorem parseOutputTaFold_error (vars : List (String × LoopVar))
    (c : CustomRnnContext) (st : RwState) (p : String × LoopVar) (e : EId)
    (hp : p ∈ vars)
    (hta : p.2.is_tensor_array = true)
    (hexit : p.2.exit_output_id = some e)
    (hgather : (findOutputConsumersG st.g e).filter isTensorArrayGatherOp = []) :
    (parseOutputTaFold vars c st).1 = .error "IndexError: list index out of range" := by
  induction vars generalizing c with
  | nil => cases hp
  | cons q rest ih =>
    unfold parseOutputTaFold parseOutputTaStep
    by_cases hqta : q.2.is_tensor_array = true
    · rw [if_neg (by simp [hqta])]
      cases hex : q.2.exit_output_id with
      | none =>
        dsimp only
        rcases List.mem_cons.mp hp with rfl | hp'
        · rw [hexit] at hex; cases hex
        · exact ih _ hp'
      | some e' =>
        dsimp only
        cases hfil : (findOutputConsumersG st.g e').filter isTensorArrayGatherOp with
        | nil => rfl
        | cons gn grest =>
          rcases List.mem_cons.mp hp with rfl | hp'
          · rw [hexit] at hex
            cases Option.some.inj hex
            rw [hgather] at hfil
            cases hfil
          · exact ih _ hp'
    · rw [if_pos (by simp [hqta])]
      rcases List.mem_cons.mp hp with rfl | hp'
      · rw [hta] at hqta; simp at hqta
      · exact ih _ hp'

/-- C2 — confirmed: a candidate loop with zero array-accumulator inputs
(no in-scope scatter/read match) and zero array-accumulator outputs (no
tensor-array loop variable) is reported not-applicable
(`need_rewrite` returns `False`) and the whole session state — node
list, edge wiring and shape/dtype tables — is returned exactly
unchanged. -/
theorem c2_theorem (matchList : List MatchResult) (ctx : CustomRnnContext)
    (st : RwState)
    (hnoTa : ∀ p ∈ ctx.loop_variables, p.2.is_tensor_array = false)
    (hnoMatch : ∀ m ∈ matchList,
      m.ta_input_scatter.name.strStartsWith
        (getRnnScopeName ctx.while_context_scope) = false)
    (hnodes : ∀ p ∈ ctx.loop_variables,
      (getNodeByNameG st.g p.2.enter_input_id).isSome = true)
    (hin : ctx.input_tas = [])
    (hout : ctx.output_tas = []) :
    (needRewrite matchList ctx st).2 = st
    ∧ ∃ c', (needRewrite matchList ctx st).1 = .ok (false, c') := by
  obtain ⟨ft, c, hfold, himp⟩ := parseRnnLoopFold_noTa_run
    (getRnnScopeName ctx.while_context_scope ++ "time")
    (getRnnScopeName ctx.while_context_scope ++ "dynamic_rnn/output_")
    (ctx.while_context_scope ++ "iteration_counter")
    ctx.loop_variables
    (false, true, { ctx with
      rnn_scope := some (getRnnScopeName ctx.while_context_scope) })
    st hnodes hnoTa
  obtain ⟨e0, e1, e2, e3, e4, e5, e6⟩ := parseRnnLoopFold_inv _ _ _ _ _ _ _ _ hfold
  have hparse : parseRnnLoop { ctx with
      rnn_scope := some (getRnnScopeName ctx.while_context_scope) } st
      = (.ok (ft && true, c), st) := by
    unfold parseRnnLoop
    dsimp only
    rw [hfold]
  unfold needRewrite
  dsimp only
  rw [hparse]
  dsimp only at e1 e2 e3 e4 e6
  cases hft : ft with
  | false =>
    simp only [Bool.false_and]
    rw [if_pos (by simp : ¬ false = true)]
    exact ⟨rfl, c, rfl⟩
  | true =>
    have htime : c.time_var.isSome = true := by
      apply e6
      · intro hcontra
        simp at hcontra
      · exact hft
    cases htv : c.time_var with
    | none => rw [htv] at htime; simp at htime
    | some tv =>
      simp only [Bool.true_and]
      rw [if_neg (by simp)]
      have hptv : parseTimeVar c st = (.ok (), st) := by
        unfold parseTimeVar
        rw [htv]
      rw [hptv]
      dsimp only
      have hpo : parseOutputTa c st = (.ok c, st) := by
        unfold parseOutputTa
        rw [e1]
        exact parseOutputTaFold_noTa _ _ _ hnoTa
      rw [hpo]
      dsimp only
      have hfil : matchList.filter
          (fun m => m.ta_input_scatter.name.strStartsWith (c.rnn_scope.getD "")) = [] := by
        rw [e4]
        apply List.filter_eq_nil_iff.mpr
        intro m hm
        simp [hnoMatch m hm]
      have hpi : parseInputTa matchList c st = (.ok c, st) := by
        unfold parseInputTa
        dsimp only
        rw [hfil]
        rfl
      rw [hpi]
      dsimp only
      rw [if_pos]
      · exact ⟨rfl, c, rfl⟩
      · rw [e2, e3, hin, hout]
        rfl

/-- C2 — witness: the concrete accumulatorless loop is rejected with the
state unchanged. -/
theorem c2_witness :
    (needRewrite [] ctxC2 stC2).2 = stC2
    ∧ ∃ c', (needRewrite [] ctxC2 stC2).1 = .ok (false, c') :=
  c2_theorem [] ctxC2 stC2 (by decide) (by decide) (by decide) (by decide) (by decide)

/-- C9 — corrected claim, proved: when a loop containing the time
variable is rejected only at the final no-accumulator check, the
classification mutations already applied to the shared context remain
visible: `need_rewrite` returns `False` yet the returned context carries
the recorded time variable. -/
theorem c9_theorem (matchList : List MatchResult) (ctx : CustomRnnContext)
    (st : RwState) (p : String × LoopVar) (nd : GNode)
    (hnoTa : ∀ q ∈ ctx.loop_variables, q.2.is_tensor_array = false)
    (hnoMatch : ∀ m ∈ matchList,
      m.ta_input_scatter.name.strStartsWith
        (getRnnScopeName ctx.while_context_scope) = false)
    (hnodes : ∀ q ∈ ctx.loop_variables,
      (getNodeByNameG st.g q.2.enter_input_id).isSome = true)
    (hin : ctx.input_tas = [])
    (hout : ctx.output_tas = [])
    (hp : p ∈ ctx.loop_variables)
    (hnd : getNodeByNameG st.g p.2.enter_input_id = some nd)
    (hisStr : nd.name.isStr
      (getRnnScopeName ctx.while_context_scope ++ "time") = true) :
    ∃ c', (needRewrite matchList ctx st).1 = .ok (false, c')
      ∧ c'.time_var.isSome = true := by
  obtain ⟨ft, c, hfold, himp⟩ := parseRnnLoopFold_noTa_run
    (getRnnScopeName ctx.while_context_scope ++ "time")
    (getRnnScopeName ctx.while_context_scope ++ "dynamic_rnn/output_")
    (ctx.while_context_scope ++ "iteration_counter")
    ctx.loop_variables
    (false, true, { ctx with
      rnn_scope := some (getRnnScopeName ctx.while_context_scope) })
    st hnodes hnoTa
  obtain ⟨e0, e1, e2, e3, e4, e5, e6⟩ := parseRnnLoopFold_inv _ _ _ _ _ _ _ _ hfold
  have hft : ft = true := himp (Or.inr ⟨p, hp, nd, hnd, hisStr⟩)
  subst hft
  have hparse : parseRnnLoop { ctx with
      rnn_scope := some (getRnnScopeName ctx.while_context_scope) } st
      = (.ok (true && true, c), st) := by
    unfold parseRnnLoop
    dsimp only
    rw [hfold]
  unfold needRewrite
  dsimp only
  rw [hparse]
  dsimp only at e1 e2 e3 e4 e6
  have htime : c.time_var.isSome = true := by
    apply e6
    · intro hcontra
      simp at hcontra
    · rfl
  cases htv : c.time_var with
  | none => rw [htv] at htime; simp at htime
  | some tv =>
    simp only [Bool.true_and]
    rw [if_neg (by simp)]
    have hptv : parseTimeVar c st = (.ok (), st) := by
      unfold parseTimeVar
      rw [htv]
    rw [hptv]
    dsimp only
    have hpo : parseOutputTa c st = (.ok c, st) := by
      unfold parseOutputTa
      rw [e1]
      exact parseOutputTaFold_noTa _ _ _ hnoTa
    rw [hpo]
    dsimp only
    have hfil : matchList.filter
        (fun m => m.ta_input_scatter.name.strStartsWith (c.rnn_scope.getD "")) = [] := by
      rw [e4]
      apply List.filter_eq_nil_iff.mpr
      intro m hm
      simp [hnoMatch m hm]
    have hpi : parseInputTa matchList c st = (.ok c, st) := by
      unfold parseInputTa
      dsimp only
      rw [hfil]
      rfl
    rw [hpi]
    dsimp only
    rw [if_pos]
    · exact ⟨c, rfl, htime⟩
    · rw [e2, e3, hin, hout]
      rfl

/-- C9 — counterexample to the claim as stated: on the concrete fixture
`need_rewrite` rejects the loop (returns `False`, state unchanged), yet
the returned context's `time_var` classification field is set — the
context is not "left without any of the classification fields set". -/
theorem c9_counterexample :
    (needRewrite [] ctxC9 stC9).2 = stC9
    ∧ (needRewrite [] ctxC9 stC9).1.map (fun r => (r.1, r.2.time_var))
        = Except.ok (false, some lvC9) :=
  ⟨rfl, rfl⟩

/-- C9 — witness for the amended claim on the concrete fixture. -/
theorem c9_witness :
    ∃ c', (needRewrite [] ctxC9 stC9).1 = .ok (false, c')
      ∧ c'.time_var.isSome = true :=
  c9_theorem [] ctxC9 stC9 ("rnn/while/Enter", lvC9) ndC9
    (by decide) (by decide) (by decide) (by decide) (by decide)
    (by decide) (by decide) (by decide)

/-- C10 — confirmed: on a loop accepted by `_parse_rnn_loop` that
contains a tensor-array variable whose exit edge is consumed but by no
tensor-array gather node, `need_rewrite` raises an uncaught `IndexError`
(from the unconditional `[0]` on the gather-consumer list in
`_parse_output_ta`) instead of returning a not-applicable decision. -/
theorem c10_theorem (matchList : List MatchResult) (ctx : CustomRnnContext)
    (st : RwState) (c1 : CustomRnnContext) (st1 : RwState)
    (p : String × LoopVar) (e : EId)
    (hparse : parseRnnLoop { ctx with
      rnn_scope := some (getRnnScopeName ctx.while_context_scope) } st
      = (.ok (true, c1), st1))
    (hp : p ∈ ctx.loop_variables)
    (hta : p.2.is_tensor_array = true)
    (hexit : p.2.exit_output_id = some e)
    (hgather : (findOutputConsumersG st.g e).filter isTensorArrayGatherOp = []) :
    (needRewrite matchList ctx st).1
      = .error "IndexError: list index out of range" := by
  obtain ⟨e0, e1, e2, e3, e4, e5, e6⟩ := parseRnnLoop_inv _ _ _ _ hparse
  dsimp only at e1
  rw [e0] at hparse
  have htime : c1.time_var.isSome = true := e6 rfl
  unfold needRewrite
  dsimp only
  rw [hparse]
  dsimp only
  rw [if_neg (by simp)]
  cases htv : c1.time_var with
  | none => rw [htv] at htime; simp at htime
  | some tv =>
    have hptv : parseTimeVar c1 st = (.ok (), st) := by
      unfold parseTimeVar
      rw [htv]
    rw [hptv]
    dsimp only
    have herr := parseOutputTaFold_error c1.loop_variables c1 st p e
      (by rw [e1]; exact hp) hta hexit hgather
    rcases hpo : parseOutputTaFold c1.loop_variables c1 st with ⟨pres, stx⟩
    rw [hpo] at herr
    unfold parseOutputTa
    rw [hpo]
    cases pres with
    | error emsg =>
      dsimp only at herr ⊢
      rw [Except.error.inj herr]
    | ok cx => simp at herr

/-- C10 — witness: on the concrete fixture `need_rewrite` raises the
`IndexError`. -/
theorem c10_witness :
    (needRewrite [] ctxC10 stC10).1
      = .error "IndexError: list index out of range" :=
  c10_theorem [] ctxC10 stC10 parsedC10 stC10 ("rnn/while/Enter_1", lvTaC10)
    (.str "exit0") (by rfl) (by decide) (by decide) (by decide) (by decide)

/-! ## Frame lemmas for the rewrite pipeline (registry and counter) -/

theorem cutOffVarsFold_frame (vars : List LoopVar) (acc : List (Option GNode))
    (st : RwState) :
    (cutOffVarsFold vars acc st).2.registry = st.registry
    ∧ (cutOffVarsFold vars acc st).2.ctr = st.ctr := by
  induction vars generalizing acc st with
  | nil => exact ⟨rfl, rfl⟩
  | cons v rest ih => exact ih _ _

theorem cutOffOutputTasFold_frame (tas : List TensorArrayProp) (st : RwState) :
    (cutOffOutputTasFold tas st).registry = st.registry
    ∧ (cutOffOutputTasFold tas st).ctr = st.ctr := by
  induction tas generalizing st with
  | nil => exact ⟨rfl, rfl⟩
  | cons ta rest ih => exact ih _

theorem cutOffConnectionForCell_frame (ctx : CustomRnnContext) (st : RwState) :
    (cutOffConnectionForCell ctx st).2.registry = st.registry
    ∧ (cutOffConnectionForCell ctx st).2.ctr = st.ctr := by
  unfold cutOffConnectionForCell
  cases ctx.time_var with
  | none => exact ⟨rfl, rfl⟩
  | some tv =>
    dsimp only
    rcases hcv : cutOffVarsFold ([tv] ++ ctx.other_loop_vars.map (fun p => p.2)) [] st
      with ⟨acc1, st1⟩
    have h1 := cutOffVarsFold_frame ([tv] ++ ctx.other_loop_vars.map (fun p => p.2)) [] st
    rw [hcv] at h1
    have h2 := cutOffOutputTasFold_frame ctx.output_tas st1
    exact ⟨h2.1.trans h1.1, h2.2.trans h1.2⟩

theorem removeCutNodes_frame (toRemove : List (Option GNode)) (st : RwState) :
    (removeCutNodes toRemove st).registry = st.registry
    ∧ (removeCutNodes toRemove st).ctr = st.ctr := by
  unfold removeCutNodes
  generalize toRemove.dedup = l
  induction l generalizing st with
  | nil => exact ⟨rfl, rfl⟩
  | cons optn rest ih =>
    rw [List.foldl_cons]
    rcases optn with _ | n
    · exact ih st
    · dsimp only
      by_cases hb : st.g.nodes.any (fun m => m.name = n.name) = true
      · rw [if_pos hb]
        exact ih _
      · rw [if_neg hb]
        exact ih _

theorem setSh_registry (e : EId) (s : Option Shape) (st : RwState) :
    (setSh e s st).registry = st.registry := rfl

theorem setSh_ctr (e : EId) (s : Option Shape) (st : RwState) :
    (setSh e s st).ctr = st.ctr := rfl

theorem setDt_registry (e : EId) (d : Option DType) (st : RwState) :
    (setDt e d st).registry = st.registry := rfl

theorem setDt_ctr (e : EId) (d : Option DType) (st : RwState) :
    (setDt e d st).ctr = st.ctr := rfl

theorem makeOnnxNode_frame (ty : String) (ins : List EId) (oc : Nat) (st : RwState) :
    (makeOnnxNode ty ins oc st).2.registry = st.registry
    ∧ st.ctr ≤ (makeOnnxNode ty ins oc st).2.ctr := by
  refine ⟨rfl, ?_⟩
  simp only [makeOnnxNode]
  omega

theorem makeConst_frame (v : InitVal) (st : RwState) :
    (makeConst v st).2.registry = st.registry
    ∧ st.ctr ≤ (makeConst v st).2.ctr := by
  exact ⟨rfl, by simp [makeConst]⟩

theorem createUnsqueezeNode_frame (t : String) (i : EId) (st : RwState) :
    (createUnsqueezeNode t i st).2.registry = st.registry
    ∧ st.ctr ≤ (createUnsqueezeNode t i st).2.ctr := by
  unfold createUnsqueezeNode
  rcases hm : makeOnnxNode "Unsqueeze" [i] 1 st with ⟨node, st1⟩
  have h1 := makeOnnxNode_frame "Unsqueeze" [i] 1 st
  rw [hm] at h1
  dsimp only
  cases getSh i st1 with
  | none => exact h1
  | some s => exact h1

theorem createSqueezeNode_frame (t : String) (i : EId) (st : RwState) :
    (createSqueezeNode t i st).2.registry = st.registry
    ∧ st.ctr ≤ (createSqueezeNode t i st).2.ctr := by
  unfold createSqueezeNode
  rcases hm : makeOnnxNode "Squeeze" [i] 1 st with ⟨node, st1⟩
  have h1 := makeOnnxNode_frame "Squeeze" [i] 1 st
  rw [hm] at h1
  dsimp only
  cases getSh i st1 with
  | none => exact h1
  | some s => exact h1

theorem adaptTimeVarAsWorkaround_frame (v : LoopVar) (st : RwState) :
    (adaptTimeVarAsWorkaround v st).2.registry = st.registry
    ∧ st.ctr ≤ (adaptTimeVarAsWorkaround v st).2.ctr := by
  unfold adaptTimeVarAsWorkaround
  rcases h1e : createUnsqueezeNode "time_var_init" v.enter_input_id st with ⟨r1, st1⟩
  have h1 := createUnsqueezeNode_frame "time_var_init" v.enter_input_id st
  rw [h1e] at h1
  cases r1 with
  | error e => exact h1
  | ok n1 =>
    dsimp only
    rcases h2e : createUnsqueezeNode "time_var_output" v.next_iteration_input_id st1
      with ⟨r2, st2⟩
    have h2 := createUnsqueezeNode_frame "time_var_output" v.next_iteration_input_id st1
    rw [h2e] at h2
    cases r2 with
    | error e => exact ⟨h2.1.trans h1.1, h1.2.trans h2.2⟩
    | ok n2 =>
      dsimp only
      rcases h3e : createSqueezeNode "time_var_input" v.switch_true_identity_output_id st2
        with ⟨r3, st3⟩
      have h3 := createSqueezeNode_frame "time_var_input" v.switch_true_identity_output_id st2
      rw [h3e] at h3
      cases r3 with
      | error e => exact ⟨h3.1.trans (h2.1.trans h1.1), (h1.2.trans h2.2).trans h3.2⟩
      | ok n3 =>
        dsimp only
        constructor
        · split
          · exact h3.1.trans (h2.1.trans h1.1)
          · rw [setSh_registry]
            exact h3.1.trans (h2.1.trans h1.1)
        · split
          · exact (h1.2.trans h2.2).trans h3.2
          · rw [setSh_ctr]
            exact (h1.2.trans h2.2).trans h3.2

theorem adaptScanSequenceInputOrOutput_registry (t : String) (i : EId) (ho : Bool)
    (st : RwState) :
    (adaptScanSequenceInputOrOutput t i ho st).2.registry = st.registry := by
  unfold adaptScanSequenceInputOrOutput
  dsimp only
  repeat' split
  all_goals rfl

theorem adaptScanSequenceInputOrOutput_ctr (t : String) (i : EId) (ho : Bool)
    (st : RwState) :
    st.ctr ≤ (adaptScanSequenceInputOrOutput t i ho st).2.ctr := by
  unfold adaptScanSequenceInputOrOutput
  dsimp only
  repeat' split
  all_goals (dsimp only [makeOnnxNode, makeConst, setSh, setDt]; omega)

theorem composeVarsFold_frame (vars : List LoopVar) (acc : ComposeVarsAcc)
    (st : RwState) :
    (composeVarsFold vars acc st).2.registry = st.registry
    ∧ st.ctr ≤ (composeVarsFold vars acc st).2.ctr := by
  induction vars generalizing acc st with
  | nil => exact ⟨rfl, le_refl _⟩
  | cons v rest ih =>
    unfold composeVarsFold
    rcases ha : adaptScanSequenceInputOrOutput "input" v.enter_input_id false st
      with ⟨r1, st1⟩
    have hr := adaptScanSequenceInputOrOutput_registry "input" v.enter_input_id false st
    have hc := adaptScanSequenceInputOrOutput_ctr "input" v.enter_input_id false st
    rw [ha] at hr hc
    cases r1 with
    | error e => exact ⟨hr, hc⟩
    | ok nodes =>
      dsimp only
      obtain ⟨ihr, ihc⟩ := ih _ st1
      exact ⟨ihr.trans hr, hc.trans ihc⟩

theorem composeInputTasFold_frame (tas : List TensorArrayProp) (acc : ComposeTasAcc)
    (st : RwState) :
    (composeInputTasFold tas acc st).2.registry = st.registry
    ∧ st.ctr ≤ (composeInputTasFold tas acc st).2.ctr := by
  induction tas generalizing acc st with
  | nil => exact ⟨rfl, le_refl _⟩
  | cons ta rest ih =>
    unfold composeInputTasFold
    rcases ha : adaptScanSequenceInputOrOutput "input_ta" ta.data_input_id false st
      with ⟨r1, st1⟩
    have hr := adaptScanSequenceInputOrOutput_registry "input_ta" ta.data_input_id false st
    have hc := adaptScanSequenceInputOrOutput_ctr "input_ta" ta.data_input_id false st
    rw [ha] at hr hc
    cases r1 with
    | error e => exact ⟨hr, hc⟩
    | ok nodes =>
      dsimp only
      obtain ⟨ihr, ihc⟩ := ih _ st1
      exact ⟨ihr.trans hr, hc.trans ihc⟩

theorem composeCellInputsAndOutputs_frame (ctx : CustomRnnContext) (st : RwState) :
    (composeCellInputsAndOutputs ctx st).2.registry = st.registry
    ∧ st.ctr ≤ (composeCellInputsAndOutputs ctx st).2.ctr := by
  unfold composeCellInputsAndOutputs
  cases ctx.time_var with
  | none => exact ⟨rfl, le_refl _⟩
  | some tv =>
    dsimp only
    rcases ha : adaptTimeVarAsWorkaround tv st with ⟨r1, st1⟩
    have h1 := adaptTimeVarAsWorkaround_frame tv st
    rw [ha] at h1
    cases r1 with
    | error e => exact h1
    | ok pr =>
      dsimp only
      rcases hv : composeVarsFold ([pr.1] ++ ctx.other_loop_vars.map (fun p => p.2))
          ⟨[], [], [], [], []⟩ st1 with ⟨r2, st2⟩
      have h2 := composeVarsFold_frame ([pr.1] ++ ctx.other_loop_vars.map (fun p => p.2))
        ⟨[], [], [], [], []⟩ st1
      rw [hv] at h2
      cases r2 with
      | error e => exact ⟨h2.1.trans h1.1, h1.2.trans h2.2⟩
      | ok vacc =>
        dsimp only
        rcases ht : composeInputTasFold ctx.input_tas ⟨[], [], [], []⟩ st2 with ⟨r3, st3⟩
        have h3 := composeInputTasFold_frame ctx.input_tas ⟨[], [], [], []⟩ st2
        rw [ht] at h3
        cases r3 with
        | error e => exact ⟨h3.1.trans (h2.1.trans h1.1), (h1.2.trans h2.2).trans h3.2⟩
        | ok tacc =>
          exact ⟨h3.1.trans (h2.1.trans h1.1), (h1.2.trans h2.2).trans h3.2⟩

theorem setStateSlots_frame (outputs : List EId) (count idx : Nat)
    (sh : Option Shape) (dt : Option DType) (st : RwState) :
    (setStateSlots outputs count idx sh dt st).2.registry = st.registry
    ∧ (setStateSlots outputs count idx sh dt st).2.ctr = st.ctr := by
  induction count generalizing idx st with
  | zero => exact ⟨rfl, rfl⟩
  | succ c ih =>
    unfold setStateSlots getIdx
    cases outputs.get? idx with
    | none => exact ⟨rfl, rfl⟩
    | some oe =>
      dsimp only
      exact ih _ _

theorem setScanSlots_frame (outputs srcs : List EId) (idx : Nat) (batch time : Int)
    (st : RwState) :
    (setScanSlots outputs srcs idx batch time st).2.registry = st.registry
    ∧ (setScanSlots outputs srcs idx batch time st).2.ctr = st.ctr := by
  induction srcs generalizing idx st with
  | nil => exact ⟨rfl, rfl⟩
  | cons s ss ih =>
    unfold setScanSlots getIdx
    cases getSh s st with
    | none => exact ⟨rfl, rfl⟩
    | some c =>
      dsimp only
      cases outputs.get? idx with
      | none => exact ⟨rfl, rfl⟩
      | some oe =>
        dsimp only
        exact ih _ _

theorem getIdx_snd {α : Type} (xs : List α) (i : Nat) (st : RwState) :
    (getIdx xs i st).2 = st := by
  unfold getIdx
  cases xs.get? i <;> rfl

theorem assignScanOutputShapes_frame (scan : GNode) (props : ScanProperties)
    (st : RwState) :
    (assignScanOutputShapes scan props st).2.registry = st.registry
    ∧ (assignScanOutputShapes scan props st).2.ctr = st.ctr := by
  unfold assignScanOutputShapes getIdx
  cases scan.input.get? 1 with
  | none => exact ⟨rfl, rfl⟩
  | some in1 =>
    dsimp only
    cases scan.output.get? 0 with
    | none => exact ⟨rfl, rfl⟩
    | some o0 =>
      dsimp only
      cases scan.input.get? 2 with
      | none => exact ⟨rfl, rfl⟩
      | some in2 =>
        dsimp only
        rcases hss : setStateSlots scan.output (props.loop_state_outputs.length - 1) 1
            (getSh in2 (setDt o0 (getDt in1 st)
              (setSh o0 (getSh in1 st) st)))
            (getDt in2 (setDt o0 (getDt in1 st)
              (setSh o0 (getSh in1 st) st)))
            (setDt o0 (getDt in1 st)
              (setSh o0 (getSh in1 st) st)) with ⟨ssres, stB⟩
        have hssf := setStateSlots_frame scan.output (props.loop_state_outputs.length - 1) 1
          (getSh in2 (setDt o0 (getDt in1 st)
            (setSh o0 (getSh in1 st) st)))
          (getDt in2 (setDt o0 (getDt in1 st)
            (setSh o0 (getSh in1 st) st)))
          (setDt o0 (getDt in1 st)
            (setSh o0 (getSh in1 st) st))
        rw [hss] at hssf
        dsimp only at hssf
        cases ssres with
        | error e => exact hssf
        | ok idx =>
          dsimp only
          cases getSh (scan.input.getLastD (.str "")) stB with
          | none => exact hssf
          | some lastShape =>
            dsimp only
            cases lastShape.get? 0 with
            | none => exact hssf
            | some batch =>
              dsimp only
              cases lastShape.get? 1 with
              | none => exact hssf
              | some time =>
                dsimp only
                rcases hsc : setScanSlots scan.output props.loop_scan_outputs idx
                    batch time stB with ⟨scres, stC⟩
                have hscf := setScanSlots_frame scan.output props.loop_scan_outputs idx
                  batch time stB
                rw [hsc] at hscf
                dsimp only at hscf
                cases scres with
                | error e => exact ⟨hscf.1.trans hssf.1, hscf.2.trans hssf.2⟩
                | ok u => exact ⟨hscf.1.trans hssf.1, hscf.2.trans hssf.2⟩

theorem createScanNode_frame (props : ScanProperties) (st : RwState) :
    (createScanNode props st).2.registry = st.registry
    ∧ st.ctr ≤ (createScanNode props st).2.ctr := by
  unfold createScanNode
  dsimp only [makeOnnxNode]
  have h := assignScanOutputShapes_frame
    { name := EId.fr st.ctr, type := "Scan",
      input := EId.str "" :: props.initial_state_and_scan_inputs,
      output := (List.range (props.loop_state_outputs.length
        + props.loop_scan_outputs.length)).map (fun i => EId.fr (st.ctr + 1 + i)),
      numScanInputs := some props.loop_scan_inputs.length }
    props
    { st with ctr := st.ctr + 1
        + (props.loop_state_outputs.length + props.loop_scan_outputs.length) }
  refine ⟨h.1, ?_⟩
  rw [h.2]
  show st.ctr ≤ st.ctr + 1
    + (props.loop_state_outputs.length + props.loop_scan_outputs.length)
  omega

theorem assignScanOutputShapes_ok_node (scan0 : GNode) (props : ScanProperties)
    (st : RwState) (scan : GNode) (st' : RwState)
    (h : assignScanOutputShapes scan0 props st = (.ok scan, st')) :
    scan = scan0 := by
  unfold assignScanOutputShapes getIdx at h
  cases h1 : scan0.input.get? 1 with
  | none => rw [h1] at h; simp at h
  | some in1 =>
    rw [h1] at h
    dsimp only at h
    cases h2 : scan0.output.get? 0 with
    | none => rw [h2] at h; simp at h
    | some o0 =>
      rw [h2] at h
      dsimp only at h
      cases h3 : scan0.input.get? 2 with
      | none => rw [h3] at h; simp at h
      | some in2 =>
        rw [h3] at h
        dsimp only at h
        rcases hss : setStateSlots scan0.output (props.loop_state_outputs.length - 1) 1
            (getSh in2 (setDt o0 (getDt in1 st) (setSh o0 (getSh in1 st) st)))
            (getDt in2 (setDt o0 (getDt in1 st) (setSh o0 (getSh in1 st) st)))
            (setDt o0 (getDt in1 st) (setSh o0 (getSh in1 st) st)) with ⟨ssres, stB⟩
        rw [hss] at h
        cases ssres with
        | error e => simp at h
        | ok idx =>
          dsimp only at h
          cases h4 : getSh (scan0.input.getLastD (.str "")) stB with
          | none => rw [h4] at h; simp at h
          | some lastShape =>
            rw [h4] at h
            dsimp only at h
            cases h5 : lastShape.get? 0 with
            | none => rw [h5] at h; simp at h
            | some batch =>
              rw [h5] at h
              dsimp only at h
              cases h6 : lastShape.get? 1 with
              | none => rw [h6] at h; simp at h
              | some time =>
                rw [h6] at h
                dsimp only at h
                rcases hsc : setScanSlots scan0.output props.loop_scan_outputs idx
                    batch time stB with ⟨scres, stC⟩
                rw [hsc] at h
                cases scres with
                | error e => simp at h
                | ok u =>
                  dsimp only at h
                  obtain ⟨hok, _⟩ := Prod.mk.inj h
                  exact (Except.ok.inj hok).symm

theorem createScanNode_ok_name (props : ScanProperties) (st : RwState)
    (scan : GNode) (st' : RwState)
    (h : createScanNode props st = (.ok scan, st')) :
    scan.name = .fr st.ctr := by
  unfold createScanNode at h
  dsimp only [makeOnnxNode] at h
  have := assignScanOutputShapes_ok_node _ _ _ _ _ h
  rw [this]

theorem extractEnterFold_frame (ens : List GNode) (acc : List EId) (st : RwState) :
    (extractEnterFold ens acc st).2.registry = st.registry
    ∧ (extractEnterFold ens acc st).2.ctr = st.ctr := by
  induction ens generalizing acc st with
  | nil => exact ⟨rfl, rfl⟩
  | cons en rest ih =>
    unfold extractEnterFold getIdx
    cases en.input.get? 0 with
    | none => exact ⟨rfl, rfl⟩
    | some i0 =>
      dsimp only
      exact ih _ _

/-- Outcomes of `_extract_and_register_cell_graph_info`: on any failure
the registry is untouched; on success exactly the scan node's entry was
pushed. -/
theorem extractAndRegister_cases
    (findSub : SubGraphMeta → GGraph → List GNode × List GNode)
    (props : ScanProperties) (scan : GNode) (st : RwState)
    (res : Except String (List GNode)) (st' : RwState)
    (h : extractAndRegisterCellGraphInfo findSub props scan st = (res, st')) :
    (∃ e, res = .error e ∧ st'.registry = st.registry)
    ∨ (∃ r m, res = .ok r ∧ st'.registry = (scan.name, m) :: st.registry) := by
  unfold extractAndRegisterCellGraphInfo at h
  dsimp only at h
  rcases hef : extractEnterFold (findSub
      { input_ids := props.loop_state_inputs ++ props.loop_scan_inputs,
        output_ids := props.loop_state_outputs ++ props.loop_scan_outputs,
        initial_input_ids := props.initial_state_and_scan_inputs,
        other_enter_input_ids := [] } st.g).2 [] st with ⟨eres, stE⟩
  have heff := extractEnterFold_frame (findSub
      { input_ids := props.loop_state_inputs ++ props.loop_scan_inputs,
        output_ids := props.loop_state_outputs ++ props.loop_scan_outputs,
        initial_input_ids := props.initial_state_and_scan_inputs,
        other_enter_input_ids := [] } st.g).2 [] st
  rw [hef] at h heff
  dsimp only at heff
  cases eres with
  | error e =>
    obtain ⟨hr, hs⟩ := Prod.mk.inj h
    exact Or.inl ⟨e, hr.symm, by rw [← hs]; exact heff.1⟩
  | ok otherIds =>
    dsimp only at h
    unfold addBodyGraphInfo at h
    by_cases hhas : hasBodyGraphInfo scan.name stE = true
    · rw [if_pos hhas] at h
      obtain ⟨hr, hs⟩ := Prod.mk.inj h
      exact Or.inl ⟨_, hr.symm, by rw [← hs]; exact heff.1⟩
    · rw [if_neg hhas] at h
      dsimp only at h
      obtain ⟨hr, hs⟩ := Prod.mk.inj h
      refine Or.inr ⟨_,
        { input_ids := props.loop_state_inputs ++ props.loop_scan_inputs,
          output_ids := props.loop_state_outputs ++ props.loop_scan_outputs,
          initial_input_ids := props.initial_state_and_scan_inputs,
          other_enter_input_ids := otherIds }, hr.symm, ?_⟩
      rw [← hs]
      dsimp only
      rw [heff.1]

theorem connectVarsFold_frame (vars : List LoopVar) (idx : Nat) (scan : GNode)
    (acc : List GNode) (st : RwState) :
    (connectVarsFold vars idx scan acc st).2.registry = st.registry
    ∧ st.ctr ≤ (connectVarsFold vars idx scan acc st).2.ctr := by
  induction vars generalizing idx acc st with
  | nil => exact ⟨rfl, le_refl _⟩
  | cons v rest ih =>
    unfold connectVarsFold getIdx
    cases v.exit_output_id with
    | none => exact ih _ _ _
    | some exitId =>
      dsimp only
      cases scan.output.get? idx with
      | none => exact ⟨rfl, le_refl _⟩
      | some oe =>
        dsimp only
        rcases ha : adaptScanSequenceInputOrOutput "state_output_reshape" oe true st
          with ⟨ares, stA⟩
        have har := adaptScanSequenceInputOrOutput_registry "state_output_reshape" oe true st
        have hac := adaptScanSequenceInputOrOutput_ctr "state_output_reshape" oe true st
        rw [ha] at har hac
        cases ares with
        | error e => exact ⟨har, hac⟩
        | ok nodes =>
          dsimp only
          obtain ⟨ihr, ihc⟩ := ih _ _ { stA with
            g := replaceAllInputsG stA.g stA.g.nodes exitId
              (out0 (nodes.getLastD defGNode)) }
          exact ⟨ihr.trans har, hac.trans ihc⟩

theorem connectTasFold_frame (tas : List TensorArrayProp) (idx : Nat) (scan : GNode)
    (acc : List GNode) (st : RwState) :
    (connectTasFold tas idx scan acc st).2.registry = st.registry
    ∧ st.ctr ≤ (connectTasFold tas idx scan acc st).2.ctr := by
  induction tas generalizing idx acc st with
  | nil => exact ⟨rfl, le_refl _⟩
  | cons ta rest ih =>
    unfold connectTasFold getIdx
    cases ta.output_id with
    | none => exact ih _ _ _
    | some finalId =>
      dsimp only
      cases scan.output.get? idx with
      | none => exact ⟨rfl, le_refl _⟩
      | some oe =>
        dsimp only
        rcases ha : adaptScanSequenceInputOrOutput "scan_output_reshape" oe true st
          with ⟨ares, stA⟩
        have har := adaptScanSequenceInputOrOutput_registry "scan_output_reshape" oe true st
        have hac := adaptScanSequenceInputOrOutput_ctr "scan_output_reshape" oe true st
        rw [ha] at har hac
        cases ares with
        | error e => exact ⟨har, hac⟩
        | ok nodes =>
          dsimp only
          obtain ⟨ihr, ihc⟩ := ih _ _ { stA with
            g := replaceAllInputsG stA.g stA.g.nodes finalId
              (out0 (nodes.getLastD defGNode)) }
          exact ⟨ihr.trans har, hac.trans ihc⟩

theorem connectScanWithOutput_frame (ctx : CustomRnnContext) (scan : GNode)
    (st : RwState) :
    (connectScanWithOutput ctx scan st).2.registry = st.registry
    ∧ st.ctr ≤ (connectScanWithOutput ctx scan st).2.ctr := by
  unfold connectScanWithOutput
  rcases hv : connectVarsFold (ctx.other_loop_vars.map (fun p => p.2)) 1 scan [] st
    with ⟨vres, stV⟩
  have hvf := connectVarsFold_frame (ctx.other_loop_vars.map (fun p => p.2)) 1 scan [] st
  rw [hv] at hvf
  rw [hv]
  cases vres with
  | error e => exact hvf
  | ok pr =>
    obtain ⟨acc1, idx1⟩ := pr
    dsimp only
    have htf := connectTasFold_frame ctx.output_tas idx1 scan acc1 stV
    exact ⟨htf.1.trans hvf.1, hvf.2.trans htf.2⟩

theorem edgeLtB_ne_fr (e : EId) (c m : Nat) (h : edgeLtB e c = true) (hm : c ≤ m) :
    e ≠ .fr m := by
  cases e with
  | str s => simp
  | fr k =>
    simp only [edgeLtB, decide_eq_true_eq] at h
    intro hc
    injection hc with hkm
    omega

theorem handlerPop_noop (scan : GNode) (st : RwState)
    (h : hasBodyGraphInfo scan.name st = false) :
    handlerPop scan st = st := by
  unfold handlerPop
  rw [if_neg (by simp [h])]

theorem handlerPop_head (scan : GNode) (m : SubGraphMeta)
    (R : List (EId × SubGraphMeta)) (st : RwState)
    (h : st.registry = (scan.name, m) :: R) :
    (handlerPop scan st).registry = R := by
  have hlk : st.registry.lookup scan.name = some m := by
    rw [h]
    simp [List.lookup]
  unfold handlerPop
  rw [if_pos (by unfold hasBodyGraphInfo; rw [hlk]; simp)]
  unfold popBodyGraphInfo
  rw [hlk]
  dsimp only
  rw [h, List.eraseP_cons_of_pos]
  simp

/-- C5 — confirmed: `rewrite` catches every exception of the rewrite
steps (by construction it returns a `REWRITER_RESULT`, never propagating
the exception) and reports the outcome as failed; on any failed attempt
the Boundary Registry is exactly as before the attempt — the handler
removes the entry registered for the attempt's synthesized scan node
(whose fresh name cannot collide with the pre-existing registry keys,
which all predate the attempt's name counter). -/
theorem c5_theorem (findSub : SubGraphMeta → GGraph → List GNode × List GNode)
    (ctx : CustomRnnContext) (st : RwState)
    (hreg : ∀ q ∈ st.registry, edgeLtB q.1 st.ctr = true)
    (hfail : (rewriteFn findSub ctx st).1 = RewriterResult.fail) :
    (rewriteFn findSub ctx st).2.registry = st.registry := by
  unfold rewriteFn at hfail ⊢
  rcases hcut : cutOffConnectionForCell ctx st with ⟨cres, st1⟩
  have hcutf := cutOffConnectionForCell_frame ctx st
  rw [hcut] at hcutf
  try rw [hcut] at hfail
  try rw [hcut]
  cases cres with
  | error e => exact hcutf.1
  | ok toRemove =>
    dsimp only at hfail ⊢
    have hrmf := removeCutNodes_frame toRemove st1
    rcases hcomp : composeCellInputsAndOutputs ctx (removeCutNodes toRemove st1)
      with ⟨compres, st3⟩
    have hcompf := composeCellInputsAndOutputs_frame ctx (removeCutNodes toRemove st1)
    rw [hcomp] at hcompf
    try rw [hcomp] at hfail
    try rw [hcomp]
    have hreg3 : st3.registry = st.registry :=
      hcompf.1.trans (hrmf.1.trans hcutf.1)
    have hctr3 : st.ctr ≤ st3.ctr := by
      have h1 : st1.ctr = st.ctr := hcutf.2
      have h2 : (removeCutNodes toRemove st1).ctr = st1.ctr := hrmf.2
      have h3 : (removeCutNodes toRemove st1).ctr ≤ st3.ctr := hcompf.2
      omega
    cases compres with
    | error e => exact hreg3
    | ok triple =>
      obtain ⟨props, nodesToAppend, ctx2⟩ := triple
      dsimp only at hfail ⊢
      rcases hcre : createScanNode props st3 with ⟨creres, st4⟩
      have hcref := createScanNode_frame props st3
      rw [hcre] at hcref
      try rw [hcre] at hfail
      try rw [hcre]
      have hreg4 : st4.registry = st.registry := hcref.1.trans hreg3
      cases creres with
      | error e => exact hreg4
      | ok scan =>
        dsimp only at hfail ⊢
        have hname : scan.name = .fr st3.ctr :=
          createScanNode_ok_name props st3 scan st4 hcre
        have hfresh : ∀ q ∈ st.registry, q.1 ≠ scan.name := by
          intro q hq
          rw [hname]
          exact edgeLtB_ne_fr q.1 st.ctr st3.ctr (hreg q hq) hctr3
        have hlook4 : st4.registry.lookup scan.name = none := by
          rw [hreg4]
          exact lookup_eq_none_of_forall _ _ hfresh
        rcases hext : extractAndRegisterCellGraphInfo findSub props scan st4
          with ⟨eres, st5⟩
        try rw [hext] at hfail
        try rw [hext]
        rcases extractAndRegister_cases findSub props scan st4 eres st5 hext
          with ⟨e, herrcase, hr5⟩ | ⟨r, m, hokcase, hr5⟩
        · subst herrcase
          dsimp only
          have hhas5 : hasBodyGraphInfo scan.name st5 = false := by
            unfold hasBodyGraphInfo
            rw [hr5, hlook4]
            rfl
          rw [handlerPop_noop scan st5 hhas5, hr5, hreg4]
        · subst hokcase
          dsimp only at hfail ⊢
          have hr5' : st5.registry = (scan.name, m) :: st.registry := by
            rw [hr5, hreg4]
          rcases hconn : connectScanWithOutput ctx2 scan st5 with ⟨conres, st6⟩
          have hconnf := connectScanWithOutput_frame ctx2 scan st5
          rw [hconn] at hconnf
          try rw [hconn] at hfail
          try rw [hconn]
          cases conres with
          | error e =>
            dsimp only
            exact handlerPop_head scan m st.registry st6 (hconnf.1.trans hr5')
          | ok toAppend => simp at hfail

/-- C5 — witness: a concrete failing attempt (cell isolation raises on
the unset time variable) reports `FAIL` and leaves the registry as it
was. -/
theorem c5_witness :
    (rewriteFn findSubC5 ctxC5 emptyState).2.registry = emptyState.registry :=
  c5_theorem findSubC5 ctxC5 emptyState (by decide) (by rfl)

/-! ## Shape/dtype table interaction lemmas -/

theorem getSh_setSh_self (e : EId) (v : Option Shape) (st : RwState) :
    getSh e (setSh e v st) = v := by
  simp [getSh, setSh, getShapeG, setShapeG, List.lookup]

theorem getSh_setSh_ne (e r : EId) (v : Option Shape) (st : RwState)
    (h : e ≠ r) : getSh e (setSh r v st) = getSh e st := by
  have hb : (e == r) = false := by simp [h]
  simp [getSh, setSh, getShapeG, setShapeG, List.lookup, hb]

theorem getDt_setDt_self (e : EId) (v : Option DType) (st : RwState) :
    getDt e (setDt e v st) = v := by
  simp [getDt, setDt, getDtypeG, setDtypeG, List.lookup]

theorem getDt_setDt_ne (e r : EId) (v : Option DType) (st : RwState)
    (h : e ≠ r) : getDt e (setDt r v st) = getDt e st := by
  have hb : (e == r) = false := by simp [h]
  simp [getDt, setDt, getDtypeG, setDtypeG, List.lookup, hb]

theorem getSh_setDt (e r : EId) (d : Option DType) (st : RwState) :
    getSh e (setDt r d st) = getSh e st := rfl

theorem getDt_setSh (e r : EId) (v : Option Shape) (st : RwState) :
    getDt e (setSh r v st) = getDt e st := rfl

theorem getSh_ctr (e : EId) (st : RwState) (c : Nat) :
    getSh e { st with ctr := c } = getSh e st := rfl

theorem getDt_ctr (e : EId) (st : RwState) (c : Nat) :
    getDt e { st with ctr := c } = getDt e st := rfl

theorem fr_ne_fr (a b : Nat) (h : a ≠ b) : EId.fr a ≠ EId.fr b := by
  intro he
  exact h (EId.fr.inj he)

theorem edgeLtB_mono (e : EId) (c c' : Nat) (h : edgeLtB e c = true)
    (hle : c ≤ c') : edgeLtB e c' = true := by
  cases e with
  | str s => rfl
  | fr m =>
    simp only [edgeLtB, decide_eq_true_eq] at h ⊢
    omega

/-- Closed-form equation for `_create_unsqueeze_node`: the fresh node, the
fresh output edge `ctr+1`, and the shape/dtype writes, as one case split
on the input's recorded shape. -/
theorem createUnsqueezeNode_eq (t : String) (i : EId) (st : RwState) :
    createUnsqueezeNode t i st =
      match getSh i st with
      | none => (.error "ValueError: input shape is none", { st with ctr := st.ctr + 2 })
      | some s =>
        (.ok { name := .fr st.ctr, type := "Unsqueeze", input := [i],
               output := [.fr (st.ctr + 1)] },
         setDt (.fr (st.ctr + 1)) (getDt i st)
           (setSh (.fr (st.ctr + 1)) (some (1 :: s)) { st with ctr := st.ctr + 2 })) := by
  unfold createUnsqueezeNode makeOnnxNode
  dsimp only
  rw [getSh_ctr]
  cases getSh i st <;> rfl

/-- Closed-form equation for `_create_squeeze_node`. -/
theorem createSqueezeNode_eq (t : String) (i : EId) (st : RwState) :
    createSqueezeNode t i st =
      match getSh i st with
      | none => (.error "ValueError: input shape is none", { st with ctr := st.ctr + 2 })
      | some s =>
        (.ok { name := .fr st.ctr, type := "Squeeze", input := [i],
               output := [.fr (st.ctr + 1)] },
         setDt (.fr (st.ctr + 1)) (getDt i st)
           (setSh (.fr (st.ctr + 1)) (some (s.drop 1)) { st with ctr := st.ctr + 2 })) := by
  unfold createSqueezeNode makeOnnxNode
  dsimp only
  rw [getSh_ctr]
  cases getSh i st <;> rfl

/-- Closed-form equation for the input case of
`_adapt_scan_sequence_input_or_output` when the input's shape is known:
a constant new-shape (at most one unknown dim) yields `Shape`+`Reshape`
with the reshaped edge at `ctr+5`; otherwise a fake-batch `Concat` chain
yields the reshaped edge at `ctr+7`.  Either way the reshaped edge is
recorded with shape `[1] + s` and the input's dtype. -/
theorem adaptScanInput_eq (t : String) (i : EId) (st : RwState) (s : Shape)
    (hg : getSh i st = some s) :
    adaptScanSequenceInputOrOutput t i false st =
      if s.count (-1) ≤ 1 then
        (.ok [{ name := .fr st.ctr, type := "Shape", input := [i],
                output := [.fr (st.ctr + 1)] },
              { name := .fr (st.ctr + 4), type := "Reshape",
                input := [i, .fr (st.ctr + 3)], output := [.fr (st.ctr + 5)] }],
         setDt (.fr (st.ctr + 5)) (getDt i st)
           (setSh (.fr (st.ctr + 5)) (some (1 :: s))
             { st with
                 ctr := st.ctr + 6,
                 g := { st.g with
                          initializers :=
                            (.fr (st.ctr + 3), 1 :: s) :: st.g.initializers } }))
      else
        (.ok [{ name := .fr st.ctr, type := "Shape", input := [i],
                output := [.fr (st.ctr + 1)] },
              { name := .fr (st.ctr + 4), type := "Concat",
                input := [.fr (st.ctr + 3), .fr (st.ctr + 1)],
                output := [.fr (st.ctr + 5)] },
              { name := .fr (st.ctr + 6), type := "Reshape",
                input := [i, .fr (st.ctr + 5)], output := [.fr (st.ctr + 7)] }],
         setDt (.fr (st.ctr + 7)) (getDt i st)
           (setSh (.fr (st.ctr + 7)) (some (1 :: s))
             { st with
                 ctr := st.ctr + 8,
                 g := { st.g with
                          initializers :=
                            (.fr (st.ctr + 3), [1]) :: st.g.initializers } })) := by
  unfold adaptScanSequenceInputOrOutput makeOnnxNode makeConst
  dsimp only
  rw [getSh_ctr, hg]
  dsimp only
  by_cases hc : s.count (-1) ≤ 1
  · simp only [if_pos hc]
    rfl
  · simp only [if_neg hc]
    rfl

theorem getSh_repl (e : EId) (st : RwState) (ops : List GNode) (o n : EId) :
    getSh e { st with g := replaceAllInputsG st.g ops o n } = getSh e st := rfl

theorem getDt_repl (e : EId) (st : RwState) (ops : List GNode) (o n : EId) :
    getDt e { st with g := replaceAllInputsG st.g ops o n } = getDt e st := rfl

/-- What a successful `_create_unsqueeze_node` guarantees: the input shape
was known, the fresh output edge is `ctr+1` and carries `[1] + shape` and
the input's dtype, and no other edge's recorded shape/dtype moves. -/
theorem createUnsqueezeNode_spec (t : String) (i : EId) (st : RwState)
    (n : GNode) (st' : RwState)
    (h : createUnsqueezeNode t i st = (.ok n, st')) :
    ∃ s, getSh i st = some s
      ∧ out0 n = .fr (st.ctr + 1)
      ∧ st'.ctr = st.ctr + 2
      ∧ st'.registry = st.registry
      ∧ getSh (.fr (st.ctr + 1)) st' = some (1 :: s)
      ∧ getDt (.fr (st.ctr + 1)) st' = getDt i st
      ∧ ∀ e, e ≠ .fr (st.ctr + 1) →
          getSh e st' = getSh e st ∧ getDt e st' = getDt e st := by
  rw [createUnsqueezeNode_eq] at h
  rcases hg : getSh i st with _ | s <;> rw [hg] at h <;> dsimp only at h
  · exact absurd (congrArg Prod.fst h) (by simp)
  · injection h with h1 h2
    injection h1 with h1
    subst h1 h2
    refine ⟨s, rfl, rfl, rfl, rfl, ?_, ?_, ?_⟩
    · rw [getSh_setDt, getSh_setSh_self]
    · rw [getDt_setDt_self]
    · intro e he
      constructor
      · rw [getSh_setDt, getSh_setSh_ne _ _ _ _ he, getSh_ctr]
      · rw [getDt_setDt_ne _ _ _ _ he, getDt_setSh, getDt_ctr]

/-- What a successful `_create_squeeze_node` guarantees (mirror image:
the output carries `shape[1:]`). -/
theorem createSqueezeNode_spec (t : String) (i : EId) (st : RwState)
    (n : GNode) (st' : RwState)
    (h : createSqueezeNode t i st = (.ok n, st')) :
    ∃ s, getSh i st = some s
      ∧ out0 n = .fr (st.ctr + 1)
      ∧ st'.ctr = st.ctr + 2
      ∧ st'.registry = st.registry
      ∧ getSh (.fr (st.ctr + 1)) st' = some (s.drop 1)
      ∧ getDt (.fr (st.ctr + 1)) st' = getDt i st
      ∧ ∀ e, e ≠ .fr (st.ctr + 1) →
          getSh e st' = getSh e st ∧ getDt e st' = getDt e st := by
  rw [createSqueezeNode_eq] at h
  rcases hg : getSh i st with _ | s <;> rw [hg] at h <;> dsimp only at h
  · exact absurd (congrArg Prod.fst h) (by simp)
  · injection h with h1 h2
    injection h1 with h1
    subst h1 h2
    refine ⟨s, rfl, rfl, rfl, rfl, ?_, ?_, ?_⟩
    · rw [getSh_setDt, getSh_setSh_self]
    · rw [getDt_setDt_self]
    · intro e he
      constructor
      · rw [getSh_setDt, getSh_setSh_ne _ _ _ _ he, getSh_ctr]
      · rw [getDt_setDt_ne _ _ _ _ he, getDt_setSh, getDt_ctr]

/-- What a successful input-side `_adapt_scan_sequence_input_or_output`
guarantees: the input shape was known, the last returned node's output is
a fresh edge (`ctr+5` or `ctr+7`) recorded with shape `[1] + shape` and
the input's dtype, and every other edge keeps its recorded shape/dtype. -/
theorem adaptScanInput_spec (t : String) (i : EId) (st : RwState)
    (nodes : List GNode) (st' : RwState)
    (h : adaptScanSequenceInputOrOutput t i false st = (.ok nodes, st')) :
    ∃ s k, getSh i st = some s
      ∧ (k = 5 ∨ k = 7)
      ∧ out0 (nodes.getLastD defGNode) = .fr (st.ctr + k)
      ∧ st'.ctr = st.ctr + k + 1
      ∧ st'.registry = st.registry
      ∧ getSh (.fr (st.ctr + k)) st' = some (1 :: s)
      ∧ getDt (.fr (st.ctr + k)) st' = getDt i st
      ∧ ∀ e, e ≠ .fr (st.ctr + k) →
          getSh e st' = getSh e st ∧ getDt e st' = getDt e st := by
  rcases hg : getSh i st with _ | s
  · unfold adaptScanSequenceInputOrOutput makeOnnxNode makeConst at h
    dsimp only at h
    rw [getSh_ctr, hg] at h
    dsimp only at h
    exact absurd (congrArg Prod.fst h) (by simp)
  · rw [adaptScanInput_eq t i st s hg] at h
    by_cases hc : s.count (-1) ≤ 1
    · rw [if_pos hc] at h
      injection h with h1 h2
      injection h1 with h1
      subst h1 h2
      refine ⟨s, 5, rfl, .inl rfl, rfl, rfl, rfl, ?_, ?_, ?_⟩
      · rw [getSh_setDt, getSh_setSh_self]
      · rw [getDt_setDt_self]
      · intro e he
        constructor
        · rw [getSh_setDt, getSh_setSh_ne _ _ _ _ he]
          rfl
        · rw [getDt_setDt_ne _ _ _ _ he, getDt_setSh]
          rfl
    · rw [if_neg hc] at h
      injection h with h1 h2
      injection h1 with h1
      subst h1 h2
      refine ⟨s, 7, rfl, .inr rfl, rfl, rfl, rfl, ?_, ?_, ?_⟩
      · rw [getSh_setDt, getSh_setSh_self]
      · rw [getDt_setDt_self]
      · intro e he
        constructor
        · rw [getSh_setDt, getSh_setSh_ne _ _ _ _ he]
          rfl
        · rw [getDt_setDt_ne _ _ _ _ he, getDt_setSh]
          rfl

/-- What a successful `_adapt_time_var_as_workaround` guarantees: the
variable's initial-value edge was reshaped onto fresh edge `ctr+1`
(recorded with `[1] + shape` and the original dtype), the next-value edge
onto `ctr+3`, the cell-facing read edge kept its name, and the only
pre-existing edge whose recorded shape moves is that read edge. -/
theorem adaptTimeVar_spec (var : LoopVar) (st : RwState) (var' : LoopVar)
    (ns : List GNode) (st' : RwState)
    (hbn : edgeLtB var.next_iteration_input_id st.ctr = true)
    (hbs : edgeLtB var.switch_true_identity_output_id st.ctr = true)
    (h : adaptTimeVarAsWorkaround var st = (.ok (var', ns), st')) :
    ∃ s0, getSh var.enter_input_id st = some s0
      ∧ var'.enter_input_id = .fr (st.ctr + 1)
      ∧ var'.next_iteration_input_id = .fr (st.ctr + 3)
      ∧ var'.switch_true_identity_output_id = var.switch_true_identity_output_id
      ∧ st'.ctr = st.ctr + 6
      ∧ st'.registry = st.registry
      ∧ getSh (.fr (st.ctr + 1)) st' = some (1 :: s0)
      ∧ getDt (.fr (st.ctr + 1)) st' = getDt var.enter_input_id st
      ∧ ∀ e, edgeLtB e st.ctr = true → e ≠ var.switch_true_identity_output_id →
          getSh e st' = getSh e st ∧ getDt e st' = getDt e st := by
  unfold adaptTimeVarAsWorkaround at h
  rcases h1 : createUnsqueezeNode "time_var_init" var.enter_input_id st with ⟨r1, st1⟩
  rw [h1] at h
  cases r1 with
  | error e1 => exact absurd (congrArg Prod.fst h) (by simp)
  | ok n1 =>
    dsimp only at h
    obtain ⟨s0, hg0, hout1, hctr1, hreg1, hsh1, hdt1, hfr1⟩ :=
      createUnsqueezeNode_spec _ _ _ _ _ h1
    rcases h2 : createUnsqueezeNode "time_var_output" var.next_iteration_input_id st1
      with ⟨r2, st2⟩
    rw [h2] at h
    cases r2 with
    | error e2 => exact absurd (congrArg Prod.fst h) (by simp)
    | ok n2 =>
      dsimp only at h
      obtain ⟨s1, hg1', hout2, hctr2, hreg2, hsh2, hdt2, hfr2⟩ :=
        createUnsqueezeNode_spec _ _ _ _ _ h2
      rcases h3 : createSqueezeNode "time_var_input"
          var.switch_true_identity_output_id st2 with ⟨r3, st3⟩
      rw [h3] at h
      cases r3 with
      | error e3 => exact absurd (congrArg Prod.fst h) (by simp)
      | ok n3 =>
        dsimp only at h
        obtain ⟨s2, hg2', hout3, hctr3, hreg3, hsh3, hdt3, hfr3⟩ :=
          createSqueezeNode_spec _ _ _ _ _ h3
        rw [getSh_repl] at h
        rcases hsw : getSh var.switch_true_identity_output_id st3 with _ | ssw
          <;> rw [hsw] at h <;> dsimp only at h
        · exact absurd (congrArg Prod.fst h) (by simp)
        · injection h with hA hB
          injection hA with hA
          injection hA with hA1 hA2
          subst hA1 hA2 hB
          have hns1 : var.next_iteration_input_id ≠ .fr (st.ctr + 1) :=
            edgeLtB_ne_fr _ _ _ hbn (by omega)
          have hsw1 : var.switch_true_identity_output_id ≠ .fr (st.ctr + 1) :=
            edgeLtB_ne_fr _ _ _ hbs (by omega)
          have hk2 : (EId.fr (st.ctr + 1)) ≠ .fr (st1.ctr + 1) :=
            fr_ne_fr _ _ (by omega)
          have hk3 : (EId.fr (st.ctr + 1)) ≠ .fr (st2.ctr + 1) :=
            fr_ne_fr _ _ (by omega)
          refine ⟨s0, hg0, ?_, ?_, rfl, ?_, ?_, ?_, ?_, ?_⟩
          · exact hout1
          · rw [hout2, hctr1]
          · show st3.ctr = st.ctr + 6
            omega
          · show st3.registry = st.registry
            rw [hreg3, hreg2, hreg1]
          · rw [getSh_setSh_ne _ _ _ _ (Ne.symm hsw1), getSh_repl,
              (hfr3 _ hk3).1, (hfr2 _ hk2).1]
            exact hsh1
          · rw [getDt_setSh, getDt_repl, (hfr3 _ hk3).2, (hfr2 _ hk2).2]
            exact hdt1
          · intro e hbE hneSw
            have he1 : e ≠ .fr (st.ctr + 1) := edgeLtB_ne_fr _ _ _ hbE (by omega)
            have he2 : e ≠ .fr (st1.ctr + 1) := edgeLtB_ne_fr _ _ _ hbE (by omega)
            have he3 : e ≠ .fr (st2.ctr + 1) := edgeLtB_ne_fr _ _ _ hbE (by omega)
            constructor
            · rw [getSh_setSh_ne _ _ _ _ hneSw, getSh_repl,
                (hfr3 _ he3).1, (hfr2 _ he2).1, (hfr1 _ he1).1]
            · rw [getDt_setSh, getDt_repl,
                (hfr3 _ he3).2, (hfr2 _ he2).2, (hfr1 _ he1).2]

/-- Invariants of the state-variable loop of
`_compose_cell_inputs_and_outputs`: the counter only grows, the registry
is untouched, the recorded per-iteration state outputs are the variables'
next-value edges in order, the initial-input list only grows at the tail,
its entries stay below the final counter, and every edge already recorded
keeps its shape/dtype (the reshape chains only write fresh edges). -/
theorem composeVarsFold_spec (vars : List LoopVar) :
    ∀ acc st vacc st', composeVarsFold vars acc st = (.ok vacc, st') →
      st.ctr ≤ st'.ctr
      ∧ st'.registry = st.registry
      ∧ vacc.loop_state_outputs
          = acc.loop_state_outputs ++ vars.map (fun v => v.next_iteration_input_id)
      ∧ (∃ tl, vacc.initial_inputs = acc.initial_inputs ++ tl)
      ∧ ((∀ e ∈ acc.initial_inputs, edgeLtB e st.ctr = true) →
          ∀ e ∈ vacc.initial_inputs, edgeLtB e st'.ctr = true)
      ∧ (∀ e, edgeLtB e st.ctr = true →
          getSh e st' = getSh e st ∧ getDt e st' = getDt e st) := by
  induction vars with
  | nil =>
    intro acc st vacc st' h
    unfold composeVarsFold at h
    injection h with h1 h2
    injection h1 with h1
    subst h1 h2
    refine ⟨Nat.le_refl _, rfl, by simp, ⟨[], by simp⟩, ?_, fun e _ => ⟨rfl, rfl⟩⟩
    intro hb e he
    exact hb e he
  | cons v rest ih =>
    intro acc st vacc st' h
    unfold composeVarsFold at h
    rcases hA : adaptScanSequenceInputOrOutput "input" v.enter_input_id false st
      with ⟨rA, stA⟩
    rw [hA] at h
    cases rA with
    | error e => exact absurd (congrArg Prod.fst h) (by simp)
    | ok nodes =>
      dsimp only at h
      obtain ⟨s, k, hg, hk, hout, hctrA, hregA, hshA, hdtA, hfrA⟩ :=
        adaptScanInput_spec _ _ _ _ _ hA
      obtain ⟨hle, hreg, hlso, ⟨tl, htl⟩, hbnd, hpres⟩ := ih _ _ _ _ h
      refine ⟨by omega, by rw [hreg, hregA], ?_, ?_, ?_, ?_⟩
      · rw [hlso]
        dsimp only
        simp [List.append_assoc]
      · refine ⟨(out0 (nodes.getLastD defGNode)) :: tl, ?_⟩
        rw [htl]
        dsimp only
        simp [List.append_assoc]
      · intro hb e he
        refine hbnd ?_ e he
        intro e' he'
        dsimp only at he'
        rcases List.mem_append.mp he' with hmem | hmem
        · exact edgeLtB_mono _ _ _ (hb e' hmem) (by omega)
        · have he'' : e' = out0 (nodes.getLastD defGNode) := by simpa using hmem
          rw [he'', hout]
          simp only [edgeLtB, decide_eq_true_eq]
          omega
      · intro e he
        have heA : e ≠ .fr (st.ctr + k) := edgeLtB_ne_fr _ _ _ he (by omega)
        obtain ⟨p1, p2⟩ := hfrA e heA
        obtain ⟨q1, q2⟩ := hpres e (edgeLtB_mono _ _ _ he (by omega))
        exact ⟨q1.trans p1, q2.trans p2⟩

/-- The head case of the state-variable loop: the first composed variable
(the time variable after the workaround) contributes the first
initial-input edge, which ends up recorded with `[1] +` its pre-loop
shape and the pre-loop dtype. -/
theorem composeVarsFold_head (v : LoopVar) (rest : List LoopVar) (st : RwState)
    (vacc : ComposeVarsAcc) (st' : RwState)
    (h : composeVarsFold (v :: rest) ⟨[], [], [], [], []⟩ st = (.ok vacc, st')) :
    ∃ s r, getSh v.enter_input_id st = some s
      ∧ vacc.initial_inputs.get? 0 = some r
      ∧ edgeLtB r st'.ctr = true
      ∧ getSh r st' = some (1 :: s)
      ∧ getDt r st' = getDt v.enter_input_id st := by
  unfold composeVarsFold at h
  rcases hA : adaptScanSequenceInputOrOutput "input" v.enter_input_id false st
    with ⟨rA, stA⟩
  rw [hA] at h
  cases rA with
  | error e => exact absurd (congrArg Prod.fst h) (by simp)
  | ok nodes =>
    dsimp only at h
    obtain ⟨s, k, hg, hk, hout, hctrA, hregA, hshA, hdtA, hfrA⟩ :=
      adaptScanInput_spec _ _ _ _ _ hA
    obtain ⟨hle, hreg, hlso, ⟨tl, htl⟩, hbnd, hpres⟩ := composeVarsFold_spec rest _ _ _ _ h
    have hb : edgeLtB (EId.fr (st.ctr + k)) stA.ctr = true := by
      simp only [edgeLtB, decide_eq_true_eq]
      omega
    refine ⟨s, out0 (nodes.getLastD defGNode), hg, ?_, ?_, ?_, ?_⟩
    · rw [htl]
      dsimp only
      simp
    · rw [hout]
      simp only [edgeLtB, decide_eq_true_eq]
      omega
    · rw [hout, (hpres _ hb).1]
      exact hshA
    · rw [hout, (hpres _ hb).2]
      exact hdtA

/-- Invariants of the scan-input loop of `_compose_cell_inputs_and_outputs`
(mirror of the state-variable loop). -/
theorem composeInputTasFold_spec (tas : List TensorArrayProp) :
    ∀ acc st tacc st', composeInputTasFold tas acc st = (.ok tacc, st') →
      st.ctr ≤ st'.ctr
      ∧ st'.registry = st.registry
      ∧ (∃ tl, tacc.initial_inputs = acc.initial_inputs ++ tl)
      ∧ ((∀ e ∈ acc.initial_inputs, edgeLtB e st.ctr = true) →
          ∀ e ∈ tacc.initial_inputs, edgeLtB e st'.ctr = true)
      ∧ (∀ e, edgeLtB e st.ctr = true →
          getSh e st' = getSh e st ∧ getDt e st' = getDt e st) := by
  induction tas with
  | nil =>
    intro acc st tacc st' h
    unfold composeInputTasFold at h
    injection h with h1 h2
    injection h1 with h1
    subst h1 h2
    refine ⟨Nat.le_refl _, rfl, ⟨[], by simp⟩, ?_, fun e _ => ⟨rfl, rfl⟩⟩
    intro hb e he
    exact hb e he
  | cons ta rest ih =>
    intro acc st tacc st' h
    unfold composeInputTasFold at h
    rcases hA : adaptScanSequenceInputOrOutput "input_ta" ta.data_input_id false st
      with ⟨rA, stA⟩
    rw [hA] at h
    cases rA with
    | error e => exact absurd (congrArg Prod.fst h) (by simp)
    | ok nodes =>
      dsimp only at h
      obtain ⟨s, k, hg, hk, hout, hctrA, hregA, hshA, hdtA, hfrA⟩ :=
        adaptScanInput_spec _ _ _ _ _ hA
      obtain ⟨hle, hreg, ⟨tl, htl⟩, hbnd, hpres⟩ := ih _ _ _ _ h
      refine ⟨by omega, by rw [hreg, hregA], ?_, ?_, ?_⟩
      · refine ⟨(out0 (nodes.getLastD defGNode)) :: tl, ?_⟩
        rw [htl]
        dsimp only
        simp [List.append_assoc]
      · intro hb e he
        refine hbnd ?_ e he
        intro e' he'
        dsimp only at he'
        rcases List.mem_append.mp he' with hmem | hmem
        · exact edgeLtB_mono _ _ _ (hb e' hmem) (by omega)
        · have he'' : e' = out0 (nodes.getLastD defGNode) := by simpa using hmem
          rw [he'', hout]
          simp only [edgeLtB, decide_eq_true_eq]
          omega
      · intro e he
        have heA : e ≠ .fr (st.ctr + k) := edgeLtB_ne_fr _ _ _ he (by omega)
        obtain ⟨p1, p2⟩ := hfrA e heA
        obtain ⟨q1, q2⟩ := hpres e (edgeLtB_mono _ _ _ he (by omega))
        exact ⟨q1.trans p1, q2.trans p2⟩

/-- What a successful `_compose_cell_inputs_and_outputs` guarantees: the
manifest's state-output list has one entry per loop variable (time first),
its scan-output list is exactly the accumulators' write edges, the
composed initial inputs are all fresh, the first composed initial input
is recorded with `[1, 1] +` the time variable's original shape and its
original dtype, and every pre-existing edge other than the time
variable's cell-facing read edge keeps its recorded shape/dtype. -/
theorem composeCellInputsAndOutputs_spec (ctx : CustomRnnContext) (st : RwState)
    (tv : LoopVar)
    (htv : ctx.time_var = some tv)
    (hbn : edgeLtB tv.next_iteration_input_id st.ctr = true)
    (hbs : edgeLtB tv.switch_true_identity_output_id st.ctr = true) :
    ∀ props ns ctx' st',
      composeCellInputsAndOutputs ctx st = (.ok (props, ns, ctx'), st') →
      st.ctr ≤ st'.ctr
      ∧ props.loop_state_outputs.length = 1 + ctx.other_loop_vars.length
      ∧ props.loop_scan_outputs = ctx.output_tas.map (fun ta => ta.data_input_id)
      ∧ (∀ e ∈ props.initial_state_and_scan_inputs, edgeLtB e st'.ctr = true)
      ∧ (∃ s0 r0, getSh tv.enter_input_id st = some s0
          ∧ props.initial_state_and_scan_inputs.get? 0 = some r0
          ∧ getSh r0 st' = some (1 :: 1 :: s0)
          ∧ getDt r0 st' = getDt tv.enter_input_id st)
      ∧ (∀ e, edgeLtB e st.ctr = true → e ≠ tv.switch_true_identity_output_id →
          getSh e st' = getSh e st ∧ getDt e st' = getDt e st) := by
  intro props ns ctx' st' h
  unfold composeCellInputsAndOutputs at h
  rw [htv] at h
  dsimp only at h
  rcases hT : adaptTimeVarAsWorkaround tv st with ⟨rT, stT⟩
  rw [hT] at h
  cases rT with
  | error e => exact absurd (congrArg Prod.fst h) (by simp)
  | ok p =>
    obtain ⟨tv', timeNodes⟩ := p
    dsimp only at h
    obtain ⟨s0, hg0, hE, hN, hS, hctrT, hregT, hshT, hdtT, hfrT⟩ :=
      adaptTimeVar_spec _ _ _ _ _ hbn hbs hT
    rcases hV : composeVarsFold ([tv'] ++ ctx.other_loop_vars.map (fun p => p.2))
        ⟨[], [], [], [], []⟩ stT with ⟨rV, stV⟩
    rw [hV] at h
    cases rV with
    | error e => exact absurd (congrArg Prod.fst h) (by simp)
    | ok vacc =>
      dsimp only at h
      rw [List.singleton_append] at hV
      obtain ⟨hleV, hregV, hlsoV, ⟨tlV, htlV⟩, hbndV, hpresV⟩ :=
        composeVarsFold_spec _ _ _ _ _ hV
      obtain ⟨sE, r0, hgE, hr0, hr0b, hr0sh, hr0dt⟩ :=
        composeVarsFold_head _ _ _ _ _ hV
      rcases hTA : composeInputTasFold ctx.input_tas ⟨[], [], [], []⟩ stV
        with ⟨rTA, stTA⟩
      rw [hTA] at h
      cases rTA with
      | error e => exact absurd (congrArg Prod.fst h) (by simp)
      | ok tacc =>
        dsimp only at h
        obtain ⟨hleT, hregT2, ⟨tlT, htlT⟩, hbndT, hpresT⟩ :=
          composeInputTasFold_spec _ _ _ _ _ hTA
        injection h with h1 h2
        injection h1 with h1
        injection h1 with hp hrest
        injection hrest with hn hc
        subst hp hn hc h2
        have hsE : sE = 1 :: s0 := by
          rw [hE] at hgE
          exact Option.some.inj (hgE.symm.trans hshT)
        have hlen0 : 0 < vacc.initial_inputs.length := by
          cases hvi : vacc.initial_inputs with
          | nil => rw [hvi] at hr0; simp at hr0
          | cons a l => simp [hvi]
        refine ⟨by omega, ?_, rfl, ?_, ⟨s0, r0, hg0, ?_, ?_, ?_⟩, ?_⟩
        · dsimp only
          rw [hlsoV]
          simp
          omega
        · dsimp only
          intro e he
          rcases List.mem_append.mp he with hmem | hmem
          · exact edgeLtB_mono _ _ _
              (hbndV (by intro e' he'; exact absurd he' (List.not_mem_nil e')) e hmem)
              hleT
          · exact hbndT (by intro e' he'; exact absurd he' (List.not_mem_nil e')) e hmem
        · dsimp only
          rw [List.get?_append hlen0]
          exact hr0
        · rw [(hpresT r0 hr0b).1, hr0sh, hsE]
        · rw [(hpresT r0 hr0b).2, hr0dt, hE]
          exact hdtT
        · intro e he hne
          obtain ⟨p1, p2⟩ := hfrT e he hne
          obtain ⟨q1, q2⟩ := hpresV e (edgeLtB_mono _ _ _ he (by omega))
          obtain ⟨w1, w2⟩ := hpresT e (edgeLtB_mono _ _ _ he (by omega))
          exact ⟨(w1.trans q1).trans p1, (w2.trans q2).trans p2⟩

/-- The state-output loop of `_create_scan_node` over the Scan node's
fresh output-edge list: it succeeds, advances the running index by
`count`, writes the one shared shape/dtype pair into slots
`idx..idx+count-1`, and touches nothing else. -/
theorem setStateSlots_range (N b : Nat) (sh : Option Shape) (dt : Option DType) :
    ∀ count idx st, idx + count ≤ N →
      ∃ st', setStateSlots ((List.range N).map (fun j => EId.fr (b + j))) count idx sh dt st
          = (.ok (idx + count), st')
        ∧ st'.ctr = st.ctr ∧ st'.registry = st.registry
        ∧ (∀ j, idx ≤ j → j < idx + count →
            getSh (.fr (b + j)) st' = sh ∧ getDt (.fr (b + j)) st' = dt)
        ∧ (∀ e, (∀ j, idx ≤ j → j < idx + count → e ≠ .fr (b + j)) →
            getSh e st' = getSh e st ∧ getDt e st' = getDt e st) := by
  intro count
  induction count with
  | zero =>
    intro idx st hle
    refine ⟨st, rfl, rfl, rfl, ?_, fun e _ => ⟨rfl, rfl⟩⟩
    intro j h1 h2
    exact absurd h2 (by omega)
  | succ c ih =>
    intro idx st hle
    have hidx : idx < N := by omega
    have hget : ((List.range N).map (fun j => EId.fr (b + j))).get? idx
        = some (.fr (b + idx)) := by
      rw [List.get?_map, List.get?_range hidx]
      rfl
    obtain ⟨st', hrun, hctr, hreg, hw, hp⟩ := ih (idx + 1)
      (setDt (.fr (b + idx)) dt (setSh (.fr (b + idx)) sh st)) (by omega)
    refine ⟨st', ?_, hctr, hreg, ?_, ?_⟩
    · unfold setStateSlots getIdx
      rw [hget]
      dsimp only
      rw [hrun]
      have harith : idx + 1 + c = idx + (c + 1) := by omega
      rw [harith]
    · intro j h1 h2
      by_cases hj : j = idx
      · subst hj
        have hfr : ∀ j', j + 1 ≤ j' → j' < j + 1 + c →
            (EId.fr (b + j)) ≠ .fr (b + j') :=
          fun j' hj1 hj2 => fr_ne_fr _ _ (by omega)
        obtain ⟨p1, p2⟩ := hp (.fr (b + j)) hfr
        constructor
        · rw [p1, getSh_setDt, getSh_setSh_self]
        · rw [p2, getDt_setDt_self]
      · exact hw j (by omega) (by omega)
    · intro e hne
      have hne0 : e ≠ .fr (b + idx) := hne idx (by omega) (by omega)
      obtain ⟨p1, p2⟩ := hp e (fun j hj1 hj2 => hne j (by omega) (by omega))
      constructor
      · rw [p1, getSh_setDt, getSh_setSh_ne _ _ _ _ hne0]
      · rw [p2, getDt_setDt_ne _ _ _ _ hne0, getDt_setSh]

/-- The scan-output loop of `_create_scan_node` over the Scan node's
fresh output-edge list: when every per-iteration write edge is an
original (non-fresh) edge, a successful run advances the index past the
block, gives slot `idx+i` the shape `[batch, time] +` the `i`-th write
edge's recorded shape and that edge's dtype, and touches nothing else. -/
theorem setScanSlots_range (N b : Nat) (batch time : Int) :
    ∀ srcs idx st r st',
      (∀ s ∈ srcs, ∀ j : Nat, s ≠ EId.fr (b + j)) →
      idx + srcs.length ≤ N →
      setScanSlots ((List.range N).map (fun j => EId.fr (b + j))) srcs idx batch time st
        = (.ok r, st') →
      r = idx + srcs.length
      ∧ st'.ctr = st.ctr ∧ st'.registry = st.registry
      ∧ (∀ i s, srcs.get? i = some s →
          ∃ ci, getSh s st = some ci
            ∧ getSh (.fr (b + (idx + i))) st' = some (batch :: time :: ci)
            ∧ getDt (.fr (b + (idx + i))) st' = getDt s st)
      ∧ (∀ e, (∀ j, idx ≤ j → j < idx + srcs.length → e ≠ .fr (b + j)) →
          getSh e st' = getSh e st ∧ getDt e st' = getDt e st) := by
  intro srcs
  induction srcs with
  | nil =>
    intro idx st r st' hfresh hle h
    unfold setScanSlots at h
    injection h with h1 h2
    injection h1 with h1
    subst h1 h2
    refine ⟨by simp, rfl, rfl, ?_, fun e _ => ⟨rfl, rfl⟩⟩
    intro i s hs
    simp at hs
  | cons s ss ih =>
    intro idx st r st' hfresh hle h
    unfold setScanSlots at h
    rcases hgs : getSh s st with _ | c <;> rw [hgs] at h <;> dsimp only at h
    · exact absurd (congrArg Prod.fst h) (by simp)
    · have hidx : idx < N := by
        simp only [List.length_cons] at hle
        omega
      have hget : ((List.range N).map (fun j => EId.fr (b + j))).get? idx
          = some (.fr (b + idx)) := by
        rw [List.get?_map, List.get?_range hidx]
        rfl
      unfold getIdx at h
      rw [hget] at h
      dsimp only at h
      have hfresh' : ∀ s' ∈ ss, ∀ j : Nat, s' ≠ EId.fr (b + j) :=
        fun s' hs' => hfresh s' (List.mem_cons_of_mem _ hs')
      obtain ⟨hr, hctr, hreg, hw, hp⟩ := ih (idx + 1) _ r st' hfresh'
        (by simp only [List.length_cons] at hle; omega) h
      refine ⟨?_, hctr, hreg, ?_, ?_⟩
      · rw [hr]
        simp only [List.length_cons]
        omega
      · intro i s' hs'
        cases i with
        | zero =>
          have hs0 : s = s' := by simpa using hs'
          subst hs0
          have hfr : ∀ j', idx + 1 ≤ j' → j' < idx + 1 + ss.length →
              (EId.fr (b + idx)) ≠ .fr (b + j') :=
            fun j' hj1 hj2 => fr_ne_fr _ _ (by omega)
          obtain ⟨p1, p2⟩ := hp (.fr (b + idx)) hfr
          refine ⟨c, hgs, ?_, ?_⟩
          · simp only [Nat.add_zero]
            rw [p1, getSh_setDt, getSh_setSh_self]
          · simp only [Nat.add_zero]
            rw [p2, getDt_setDt_self]
        | succ i' =>
          have hs'' : ss.get? i' = some s' := by simpa using hs'
          have hne : s' ≠ .fr (b + idx) :=
            hfresh s' (List.mem_cons_of_mem _ (List.get?_mem hs'')) idx
          obtain ⟨ci, hci, hw1, hw2⟩ := hw i' s' hs''
          have hcs : getSh s' st = some ci := by
            rw [← hci, getSh_setDt, getSh_setSh_ne _ _ _ _ hne]
          have harith : idx + (i' + 1) = idx + 1 + i' := by omega
          refine ⟨ci, hcs, ?_, ?_⟩
          · rw [harith]
            exact hw1
          · rw [harith, hw2, getDt_setDt_ne _ _ _ _ hne, getDt_setSh]
      · intro e hne
        have hne0 : e ≠ .fr (b + idx) :=
          hne idx (by omega) (by simp only [List.length_cons]; omega)
        obtain ⟨p1, p2⟩ := hp e
          (fun j hj1 hj2 => hne j (by omega)
            (by simp only [List.length_cons]; omega))
        constructor
        · rw [p1, getSh_setDt, getSh_setSh_ne _ _ _ _ hne0]
        · rw [p2, getDt_setDt_ne _ _ _ _ hne0, getDt_setSh]

theorem mem_getLastD_cons {α : Type} (x : α) (xs : List α) (d : α) :
    (x :: xs).getLastD d ∈ x :: xs := by
  induction xs generalizing x d with
  | nil => simp [List.getLastD]
  | cons y ys ih =>
    have := ih y x
    simp only [List.getLastD] at this ⊢
    exact List.mem_cons_of_mem _ this

/-- The output-slot assignment phase of `_create_scan_node`, specified
against an operator whose output list is a block of fresh edges
`b, b+1, ...`: slot 0 receives input index 1's recorded shape/dtype,
slots `1..len(loop_state_outputs)-1` all receive input index 2's
recorded shape/dtype, each scan slot receives
`[batch, time] + cell_output_shape` with `batch`/`time` the first two
dims recorded on the last input and the write edge's dtype, and no
pre-existing (non-fresh) edge moves. -/
theorem assignScanOutputShapes_spec (scan : GNode) (props : ScanProperties)
    (st : RwState) (res : GNode) (st' : RwState) (b : Nat)
    (hout : scan.output = (List.range
        (props.loop_state_outputs.length + props.loop_scan_outputs.length)).map
        (fun j => EId.fr (b + j)))
    (hbin : ∀ e ∈ scan.input, edgeLtB e b = true)
    (hbsrc : ∀ e ∈ props.loop_scan_outputs, edgeLtB e b = true)
    (hL : 1 ≤ props.loop_state_outputs.length)
    (h : assignScanOutputShapes scan props st = (.ok res, st')) :
    res = scan
    ∧ st'.ctr = st.ctr ∧ st'.registry = st.registry
    ∧ (∃ in1 in2,
        scan.input.get? 1 = some in1
        ∧ scan.input.get? 2 = some in2
        ∧ getSh (.fr (b + 0)) st' = getSh in1 st
        ∧ getDt (.fr (b + 0)) st' = getDt in1 st
        ∧ (∀ j, 1 ≤ j → j < props.loop_state_outputs.length →
            getSh (.fr (b + j)) st' = getSh in2 st
            ∧ getDt (.fr (b + j)) st' = getDt in2 st)
        ∧ (∃ lsh batch time,
            getSh (scan.input.getLastD (.str "")) st = some lsh
            ∧ lsh.get? 0 = some batch ∧ lsh.get? 1 = some time
            ∧ (∀ i src, props.loop_scan_outputs.get? i = some src →
                ∃ ci, getSh src st = some ci
                  ∧ getSh (.fr (b + (props.loop_state_outputs.length + i))) st'
                      = some (batch :: time :: ci)
                  ∧ getDt (.fr (b + (props.loop_state_outputs.length + i))) st'
                      = getDt src st)))
    ∧ (∀ e, edgeLtB e b = true →
        getSh e st' = getSh e st ∧ getDt e st' = getDt e st) := by
  unfold assignScanOutputShapes getIdx at h
  rw [hout] at h
  rcases hin1 : scan.input.get? 1 with _ | in1 <;> rw [hin1] at h <;> dsimp only at h
  · exact absurd (congrArg Prod.fst h) (by simp)
  · have hN1 : 0 < props.loop_state_outputs.length + props.loop_scan_outputs.length := by
      omega
    have hget0 : ((List.range (props.loop_state_outputs.length
        + props.loop_scan_outputs.length)).map (fun j => EId.fr (b + j))).get? 0
        = some (.fr (b + 0)) := by
      rw [List.get?_map, List.get?_range hN1]
      rfl
    rw [hget0] at h
    dsimp only at h
    rcases hin2 : scan.input.get? 2 with _ | in2 <;> rw [hin2] at h <;> dsimp only at h
    · exact absurd (congrArg Prod.fst h) (by simp)
    · have hb2 : edgeLtB in2 b = true := hbin _ (List.get?_mem hin2)
      have hne2 : in2 ≠ .fr (b + 0) := edgeLtB_ne_fr _ _ _ hb2 (by omega)
      rw [getSh_setDt, getSh_setSh_ne _ _ _ _ hne2, getDt_setDt_ne _ _ _ _ hne2,
        getDt_setSh] at h
      obtain ⟨st3, hrun3, hctr3, hreg3, hw3, hp3⟩ :=
        setStateSlots_range
          (props.loop_state_outputs.length + props.loop_scan_outputs.length) b
          (getSh in2 st) (getDt in2 st) (props.loop_state_outputs.length - 1) 1
          (setDt (EId.fr (b + 0)) (getDt in1 st)
            (setSh (EId.fr (b + 0)) (getSh in1 st) st)) (by omega)
      rw [hrun3] at h
      dsimp only at h
      have hidx : 1 + (props.loop_state_outputs.length - 1)
          = props.loop_state_outputs.length := by omega
      rw [hidx] at h hw3 hp3
      have hlastb : edgeLtB (scan.input.getLastD (.str "")) b = true := by
        cases hsi : scan.input with
        | nil => rfl
        | cons x xs =>
          refine hbin _ ?_
          rw [hsi]
          exact mem_getLastD_cons x xs (.str "")
      have hlast3 : getSh (scan.input.getLastD (.str "")) st3
          = getSh (scan.input.getLastD (.str "")) st := by
        rw [(hp3 _ (fun j hj1 hj2 => edgeLtB_ne_fr _ _ _ hlastb (by omega))).1,
          getSh_setDt, getSh_setSh_ne _ _ _ _ (edgeLtB_ne_fr _ _ _ hlastb (by omega))]
      rw [hlast3] at h
      rcases hlsh : getSh (scan.input.getLastD (.str "")) st with _ | lsh
        <;> rw [hlsh] at h <;> dsimp only at h
      · exact absurd (congrArg Prod.fst h) (by simp)
      · rcases hbt0 : lsh.get? 0 with _ | batch <;> rw [hbt0] at h <;> dsimp only at h
        · exact absurd (congrArg Prod.fst h) (by simp)
        · rcases hbt1 : lsh.get? 1 with _ | time <;> rw [hbt1] at h <;> dsimp only at h
          · exact absurd (congrArg Prod.fst h) (by simp)
          · rcases hS : setScanSlots ((List.range (props.loop_state_outputs.length
                + props.loop_scan_outputs.length)).map (fun j => EId.fr (b + j)))
                props.loop_scan_outputs props.loop_state_outputs.length batch time st3
              with ⟨rS, st4⟩
            rw [hS] at h
            cases rS with
            | error e => exact absurd (congrArg Prod.fst h) (by simp)
            | ok rr =>
              dsimp only at h
              injection h with hA hB
              injection hA with hA
              subst hA hB
              obtain ⟨hr4, hctr4, hreg4, hw4, hp4⟩ :=
                setScanSlots_range
                  (props.loop_state_outputs.length + props.loop_scan_outputs.length)
                  b batch time props.loop_scan_outputs
                  props.loop_state_outputs.length st3 rr st4
                  (fun s hs j => edgeLtB_ne_fr _ _ _ (hbsrc s hs) (by omega))
                  (by omega) hS
              have h30 : ∀ j, 1 ≤ j → j < props.loop_state_outputs.length →
                  (EId.fr (b + 0)) ≠ .fr (b + j) :=
                fun j hj1 hj2 => fr_ne_fr _ _ (by omega)
              have h40 : ∀ j, props.loop_state_outputs.length ≤ j →
                  j < props.loop_state_outputs.length + props.loop_scan_outputs.length →
                  (EId.fr (b + 0)) ≠ .fr (b + j) :=
                fun j hj1 hj2 => fr_ne_fr _ _ (by omega)
              refine ⟨rfl, ?_, ?_, ⟨in1, in2, rfl, rfl, ?_, ?_, ?_,
                ⟨lsh, batch, time, rfl, hbt0, hbt1, ?_⟩⟩, ?_⟩
              · rw [hctr4, hctr3]
                rfl
              · rw [hreg4, hreg3]
                rfl
              · rw [(hp4 _ h40).1, (hp3 _ h30).1, getSh_setDt, getSh_setSh_self]
              · rw [(hp4 _ h40).2, (hp3 _ h30).2, getDt_setDt_self]
              · intro j hj1 hj2
                have hj4 : ∀ j', props.loop_state_outputs.length ≤ j' →
                    j' < props.loop_state_outputs.length
                      + props.loop_scan_outputs.length →
                    (EId.fr (b + j)) ≠ .fr (b + j') :=
                  fun j' h1 h2 => fr_ne_fr _ _ (by omega)
                obtain ⟨w1, w2⟩ := hw3 j hj1 (by omega)
                exact ⟨by rw [(hp4 _ hj4).1, w1], by rw [(hp4 _ hj4).2, w2]⟩
              · intro i src hsrc
                obtain ⟨ci, hci, hwa, hwb⟩ := hw4 i src hsrc
                have hsb : edgeLtB src b = true := hbsrc src (List.get?_mem hsrc)
                have hconv : getSh src st3 = getSh src st := by
                  rw [(hp3 _ (fun j h1 h2 => edgeLtB_ne_fr _ _ _ hsb (by omega))).1,
                    getSh_setDt,
                    getSh_setSh_ne _ _ _ _ (edgeLtB_ne_fr _ _ _ hsb (by omega))]
                have hconvd : getDt src st3 = getDt src st := by
                  rw [(hp3 _ (fun j h1 h2 => edgeLtB_ne_fr _ _ _ hsb (by omega))).2,
                    getDt_setDt_ne _ _ _ _ (edgeLtB_ne_fr _ _ _ hsb (by omega)),
                    getDt_setSh]
                exact ⟨ci, hconv.symm.trans hci, hwa, hwb.trans hconvd⟩
              · intro e he
                have hne : ∀ j : Nat, e ≠ .fr (b + j) :=
                  fun j => edgeLtB_ne_fr _ _ _ he (by omega)
                constructor
                · rw [(hp4 _ (fun j _ _ => hne j)).1, (hp3 _ (fun j _ _ => hne j)).1,
                    getSh_setDt, getSh_setSh_ne _ _ _ _ (hne 0)]
                · rw [(hp4 _ (fun j _ _ => hne j)).2, (hp3 _ (fun j _ _ => hne j)).2,
                    getDt_setDt_ne _ _ _ _ (hne 0), getDt_setSh]

/-- What a successful `_create_scan_node` guarantees: the Scan node's
inputs are a leading empty name followed by the composed initial inputs,
its outputs are a block of fresh edges, slot 0 carries input index 1's
recorded shape/dtype, every remaining state slot carries input index 2's
recorded shape/dtype, every scan slot carries
`[batch, time] + cell_output_shape` (with `batch`/`time` the first two
dims recorded on the last input and the write edge's dtype), and no
pre-existing edge's recorded shape/dtype moves. -/
theorem createScanNode_spec (props : ScanProperties) (st : RwState)
    (scan : GNode) (st' : RwState)
    (hbIn : ∀ e ∈ props.initial_state_and_scan_inputs, edgeLtB e st.ctr = true)
    (hbSrc : ∀ e ∈ props.loop_scan_outputs, edgeLtB e st.ctr = true)
    (hL : 1 ≤ props.loop_state_outputs.length)
    (h : createScanNode props st = (.ok scan, st')) :
    scan.input = .str "" :: props.initial_state_and_scan_inputs
    ∧ scan.output = (List.range (props.loop_state_outputs.length
        + props.loop_scan_outputs.length)).map (fun j => EId.fr (st.ctr + 1 + j))
    ∧ st'.registry = st.registry
    ∧ (∃ in1 in2,
        props.initial_state_and_scan_inputs.get? 0 = some in1
        ∧ props.initial_state_and_scan_inputs.get? 1 = some in2
        ∧ getSh (.fr (st.ctr + 1)) st' = getSh in1 st
        ∧ getDt (.fr (st.ctr + 1)) st' = getDt in1 st
        ∧ (∀ j, 1 ≤ j → j < props.loop_state_outputs.length →
            getSh (.fr (st.ctr + 1 + j)) st' = getSh in2 st
            ∧ getDt (.fr (st.ctr + 1 + j)) st' = getDt in2 st)
        ∧ (∃ lsh batch time,
            getSh (scan.input.getLastD (.str "")) st = some lsh
            ∧ lsh.get? 0 = some batch ∧ lsh.get? 1 = some time
            ∧ (∀ i src, props.loop_scan_outputs.get? i = some src →
                ∃ ci, getSh src st = some ci
                  ∧ getSh (.fr (st.ctr + 1
                      + (props.loop_state_outputs.length + i))) st'
                      = some (batch :: time :: ci)
                  ∧ getDt (.fr (st.ctr + 1
                      + (props.loop_state_outputs.length + i))) st'
                      = getDt src st)))
    ∧ (∀ e, edgeLtB e st.ctr = true →
        getSh e st' = getSh e st ∧ getDt e st' = getDt e st) := by
  unfold createScanNode makeOnnxNode at h
  dsimp only at h
  obtain ⟨hres, hctr, hreg, ⟨in1, in2, hi1, hi2, hs0, hd0, hstate,
      ⟨lsh, batch, time, hlast, hq0, hq1, hscan⟩⟩, hpres⟩ :=
    assignScanOutputShapes_spec _ props _ scan st' (st.ctr + 1) rfl
      (by
        intro e he
        rcases List.mem_cons.mp he with h1 | h1
        · subst h1
          rfl
        · exact edgeLtB_mono _ _ _ (hbIn e h1) (by omega))
      (fun e he => edgeLtB_mono _ _ _ (hbSrc e he) (by omega)) hL h
  subst hres
  refine ⟨rfl, rfl, hreg, ⟨in1, in2, hi1, hi2, hs0, hd0, hstate,
    ⟨lsh, batch, time, hlast, hq0, hq1, hscan⟩⟩, ?_⟩
  intro e he
  exact hpres e (edgeLtB_mono _ _ _ he (by omega))

/-- C1 — corrected.  The claim says each state output slot `1..k` of the
synthesized Scan node gets the shape/dtype of its *corresponding* state
initial input.  In the code (lines 317-325) the shape/dtype are read once
from input index 2 and written into *every* remaining state slot, so all
slots `1..k` receive input index 2's shape/dtype, whatever their own
variable's shape is.  This theorem proves what the code does. -/
theorem c1_theorem (props : ScanProperties) (st : RwState)
    (hbIn : ∀ e ∈ props.initial_state_and_scan_inputs, edgeLtB e st.ctr = true)
    (hbSrc : ∀ e ∈ props.loop_scan_outputs, edgeLtB e st.ctr = true)
    (hL : 1 ≤ props.loop_state_outputs.length) :
    ∀ scan st', createScanNode props st = (.ok scan, st') →
      ∃ in2, props.initial_state_and_scan_inputs.get? 1 = some in2
        ∧ ∀ j oe, 1 ≤ j → j < props.loop_state_outputs.length →
            scan.output.get? j = some oe →
            getSh oe st' = getSh in2 st ∧ getDt oe st' = getDt in2 st := by
  intro scan st' h
  obtain ⟨hin, hout, hreg, ⟨in1, in2, hi1, hi2, hs0, hd0, hstate, _⟩, hpres⟩ :=
    createScanNode_spec props st scan st' hbIn hbSrc hL h
  refine ⟨in2, hi2, ?_⟩
  intro j oe hj1 hj2 hoe
  rw [hout, List.get?_map, List.get?_range (by omega)] at hoe
  have hoe' : oe = .fr (st.ctr + 1 + j) := by simpa using hoe.symm
  subst hoe'
  exact hstate j hj1 hj2

/-- C1 — counterexample to the claim as stated: on the two-state fixture
the slot belonging to state variable `s2` (shape `[3,4]`) is recorded
with shape `[2]`, the shape of input index 2 (`s1`), not with `s2`'s. -/
theorem c1_counterexample :
    (createScanNode propsC1 stC1).1 = .ok scanC1
    ∧ propsC1.initial_state_and_scan_inputs.get? 2 = some (.str "s2")
    ∧ scanC1.output.get? 2 = some (.fr 3)
    ∧ getSh (.str "s2") stC1 = some [3, 4]
    ∧ getSh (.fr 3) (createScanNode propsC1 stC1).2 = some [2]
    ∧ getSh (.str "s1") stC1 = some [2] := by
  decide

/-- C1 — witness: the corrected theorem applied to the concrete fixture. -/
theorem c1_witness :
    ∃ in2, propsC1.initial_state_and_scan_inputs.get? 1 = some in2
      ∧ ∀ j oe, 1 ≤ j → j < propsC1.loop_state_outputs.length →
          scanC1.output.get? j = some oe →
          getSh oe (createScanNode propsC1 stC1).2 = getSh in2 stC1
          ∧ getDt oe (createScanNode propsC1 stC1).2 = getDt in2 stC1 :=
  c1_theorem propsC1 stC1 (by decide) (by decide) (by decide) scanC1
    (createScanNode propsC1 stC1).2 (by decide)

/-- C3 — corrected.  The claim says slot 0 of the synthesized Scan node
keeps the time variable's element type and gains *one* rank.  The dtype
part holds, but the rank grows by *two*: the workaround unsqueezes the
initial value once (lines 449-466) and the composition reshape prepends
another leading batch axis (lines 262-274), so slot 0 is recorded with
shape `[1, 1] +` the original shape of the time variable's initial
value.  This theorem proves what the code does. -/
theorem c3_theorem (ctx : CustomRnnContext) (st : RwState) (tv : LoopVar)
    (htv : ctx.time_var = some tv)
    (hbn : edgeLtB tv.next_iteration_input_id st.ctr = true)
    (hbs : edgeLtB tv.switch_true_identity_output_id st.ctr = true)
    (houta : ∀ ta ∈ ctx.output_tas, edgeLtB ta.data_input_id st.ctr = true) :
    ∀ scan props ns ctx' st',
      composeAndCreate ctx st = (.ok (scan, props, ns, ctx'), st') →
      ∃ s0 oe, getSh tv.enter_input_id st = some s0
        ∧ scan.output.get? 0 = some oe
        ∧ getSh oe st' = some (1 :: 1 :: s0)
        ∧ getDt oe st' = getDt tv.enter_input_id st := by
  intro scan props ns ctx' st' h
  unfold composeAndCreate at h
  rcases hC : composeCellInputsAndOutputs ctx st with ⟨rC, st2⟩
  rw [hC] at h
  cases rC with
  | error e => exact absurd (congrArg Prod.fst h) (by simp)
  | ok trip =>
    obtain ⟨props0, ns0, ctx0⟩ := trip
    dsimp only at h
    rcases hS : createScanNode props0 st2 with ⟨rS, st3⟩
    rw [hS] at h
    cases rS with
    | error e => exact absurd (congrArg Prod.fst h) (by simp)
    | ok scan0 =>
      dsimp only at h
      injection h with hA hB
      injection hA with hA
      injection hA with hA1 hA2
      injection hA2 with hA2 hA3
      injection hA3 with hA3 hA4
      subst hA1 hA2 hA3 hA4 hB
      obtain ⟨hle2, hlen, hlscan, hbinit, ⟨s0, r0, hg0, hr0, hr0sh, hr0dt⟩, hpresC⟩ :=
        composeCellInputsAndOutputs_spec ctx st tv htv hbn hbs props0 ns0 ctx0 st2 hC
      obtain ⟨hin, houtS, hregS, ⟨in1, in2, hi1, hi2, hs0, hd0, hstate, _⟩, hpresS⟩ :=
        createScanNode_spec props0 st2 scan0 st3 hbinit
          (by
            rw [hlscan]
            intro e he
            obtain ⟨ta, hta, hta2⟩ := List.mem_map.mp he
            subst hta2
            exact edgeLtB_mono _ _ _ (houta ta hta) hle2)
          (by omega) hS
      have h10 : in1 = r0 := Option.some.inj (hi1.symm.trans hr0)
      refine ⟨s0, .fr (st2.ctr + 1), hg0, ?_, ?_, ?_⟩
      · rw [houtS, List.get?_map, List.get?_range (by omega)]
        rfl
      · rw [hs0, h10]
        exact hr0sh
      · rw [hd0, h10]
        exact hr0dt

/-- C3 — counterexample to the claim as stated: on the scalar-time
fixture the original time shape is `[]` (rank 0) while slot 0 is recorded
with shape `[1, 1]` (rank 2, not 0 + 1); the dtype is preserved. -/
theorem c3_counterexample :
    getSh (.str "t") stC3 = some []
    ∧ tvC3.enter_input_id = .str "t"
    ∧ c3scan.output.get? 0 = some (.fr 19)
    ∧ getSh (.fr 19) c3run.2 = some [1, 1]
    ∧ getDt (.fr 19) c3run.2 = getDt (.str "t") stC3
    ∧ ([1, 1] : Shape).length ≠ ([] : Shape).length + 1 := by
  decide

/-- C3 — witness: the corrected theorem applied to the concrete fixture. -/
theorem c3_witness :
    ∃ s0 oe, getSh tvC3.enter_input_id stC3 = some s0
      ∧ c3scan.output.get? 0 = some oe
      ∧ getSh oe c3run.2 = some (1 :: 1 :: s0)
      ∧ getDt oe c3run.2 = getDt tvC3.enter_input_id stC3 :=
  c3_theorem ctxC3 stC3 tvC3 (by rfl) (by decide) (by decide) (by decide)
    c3scan c3props c3nodes c3ctx c3run.2 (by decide)

theorem getLastD_cons_eq {α : Type} (a d : α) (l : List α) :
    (a :: l).getLastD d = l.getLastD a := by
  cases l <;> simp [List.getLastD]

/-- C4 — confirmed.  For every successful composition-plus-synthesis and
every array accumulator, the accumulator's Scan output slot is recorded
with shape `[batch, time] + cell_output_shape`, where `batch` and `time`
are the first two dims of the shape recorded on the Scan node's last
composed input and `cell_output_shape` is the shape recorded on the
accumulator's per-iteration write edge before composition; the slot's
dtype is that write edge's recorded dtype. -/
theorem c4_theorem (ctx : CustomRnnContext) (st : RwState) (tv : LoopVar)
    (htv : ctx.time_var = some tv)
    (hbn : edgeLtB tv.next_iteration_input_id st.ctr = true)
    (hbs : edgeLtB tv.switch_true_identity_output_id st.ctr = true)
    (hdata : ∀ ta ∈ ctx.output_tas, edgeLtB ta.data_input_id st.ctr = true
        ∧ ta.data_input_id ≠ tv.switch_true_identity_output_id) :
    ∀ scan props ns ctx' st',
      composeAndCreate ctx st = (.ok (scan, props, ns, ctx'), st') →
      ∀ i ta, ctx.output_tas.get? i = some ta →
        ∃ oe lsh batch time ci,
          scan.output.get? (props.loop_state_outputs.length + i) = some oe
          ∧ getSh (scan.input.getLastD (.str "")) st' = some lsh
          ∧ lsh.get? 0 = some batch ∧ lsh.get? 1 = some time
          ∧ getSh ta.data_input_id st = some ci
          ∧ getSh oe st' = some (batch :: time :: ci)
          ∧ getDt oe st' = getDt ta.data_input_id st := by
  intro scan props ns ctx' st' h
  unfold composeAndCreate at h
  rcases hC : composeCellInputsAndOutputs ctx st with ⟨rC, st2⟩
  rw [hC] at h
  cases rC with
  | error e => exact absurd (congrArg Prod.fst h) (by simp)
  | ok trip =>
    obtain ⟨props0, ns0, ctx0⟩ := trip
    dsimp only at h
    rcases hS : createScanNode props0 st2 with ⟨rS, st3⟩
    rw [hS] at h
    cases rS with
    | error e => exact absurd (congrArg Prod.fst h) (by simp)
    | ok scan0 =>
      dsimp only at h
      injection h with hA hB
      injection hA with hA
      injection hA with hA1 hA2
      injection hA2 with hA2 hA3
      injection hA3 with hA3 hA4
      subst hA1 hA2 hA3 hA4 hB
      obtain ⟨hle2, hlen, hlscan, hbinit, ⟨s0, r0, hg0, hr0, hr0sh, hr0dt⟩, hpresC⟩ :=
        composeCellInputsAndOutputs_spec ctx st tv htv hbn hbs props0 ns0 ctx0 st2 hC
      obtain ⟨hin, houtS, hregS, ⟨in1, in2, hi1, hi2, hs0, hd0, hstate,
          ⟨lsh, batch, time, hlast, hq0, hq1, hscans⟩⟩, hpresS⟩ :=
        createScanNode_spec props0 st2 scan0 st3 hbinit
          (by
            rw [hlscan]
            intro e he
            obtain ⟨ta, hta, hta2⟩ := List.mem_map.mp he
            subst hta2
            exact edgeLtB_mono _ _ _ ((hdata ta hta).1) hle2)
          (by omega) hS
      intro i ta hta
      have hsrc : props0.loop_scan_outputs.get? i = some ta.data_input_id := by
        rw [hlscan, List.get?_map, hta]
        rfl
      obtain ⟨hlt, _⟩ := List.get?_eq_some.mp hsrc
      obtain ⟨ci, hci2, hwsh, hwdt⟩ := hscans i ta.data_input_id hsrc
      have htam : ta ∈ ctx.output_tas := List.get?_mem hta
      obtain ⟨hpc1, hpc2⟩ := hpresC ta.data_input_id (hdata ta htam).1 (hdata ta htam).2
      have hlb : edgeLtB (scan0.input.getLastD (.str "")) st2.ctr = true := by
        rw [hin]
        cases hinit : props0.initial_state_and_scan_inputs with
        | nil => rfl
        | cons x xs =>
          refine hbinit _ ?_
          rw [getLastD_cons_eq, hinit]
          exact mem_getLastD_cons x xs (.str "")
      refine ⟨.fr (st2.ctr + 1 + (props0.loop_state_outputs.length + i)),
        lsh, batch, time, ci, ?_, ?_, hq0, hq1, ?_, hwsh, ?_⟩
      · rw [houtS, List.get?_map, List.get?_range (by omega)]
        rfl
      · rw [(hpresS _ hlb).1]
        exact hlast
      · rw [← hpc1]
        exact hci2
      · rw [hwdt]
        exact hpc2

/-- C4 — witness: the theorem applied to the concrete fixture (one
accumulator writing `out_data : [7]`; the last composed input is recorded
with shape `[1, 5, 3]`, so the slot gets `[1, 5, 7]`). -/
theorem c4_witness :
    ∃ oe lsh batch time ci,
      c3scan.output.get? (c3props.loop_state_outputs.length + 0) = some oe
      ∧ getSh (c3scan.input.getLastD (.str "")) c3run.2 = some lsh
      ∧ lsh.get? 0 = some batch ∧ lsh.get? 1 = some time
      ∧ getSh taC3.data_input_id stC3 = some ci
      ∧ getSh oe c3run.2 = some (batch :: time :: ci)
      ∧ getDt oe c3run.2 = getDt taC3.data_input_id stC3 :=
  c4_theorem ctxC3 stC3 tvC3 (by rfl) (by decide) (by decide) (by decide)
    c3scan c3props c3nodes c3ctx c3run.2 (by decide) 0 taC3 (by decide)
